import Mathlib

/-!
# os161 dumbvm: frame directory (coremap) and fault resolver

A shallow embedding of `kern/arch/mips/vm/dumbvm.c` (built with `OPT_A3`).

* `paddr_t`, `vaddr_t`, `unsigned long`, `size_t` are 32-bit on the MIPS target;
  they are `Nat` here and every operation that can wrap is reduced `% 2 ^ 32`.
* The global array `coremap[0 .. numofFrames)` is a `List coremap`; `numofFrames` is its length.
* `panic`, a failed `KASSERT`, and a store outside the directory end the run:
  functions that can reach one return `Except Fatal _`.
* `numofFrames` is an `int`, so a frame index or a frame count bounded by it never wraps.
* The spinlock and `splhigh`/`splx` only serialise the callers and carry no data;
  each function below is one atomic step on the state.
* The global `phase` is written by every function and read by none; it is left out.
* Memory is a map from kernel address to byte; `bzero` and `memmove` update an address
  range of it. A descriptor that a function only reads is passed by value.
* `kmalloc` and `kfree` (kernel heap, outside this file) are taken not to touch the frame
  directory; `as_create` takes the outcome of its `kmalloc` as a parameter.
* The intersection of `kern/synchprobs/traffic_synch.c` is modelled in its own section:
  the array of vehicles is a list and each call is one atomic step under the lock.
-/

namespace DumbVM

/-! ## Constants of the MIPS port (machine headers) -/

/-- Modelled from the spec: the page size `PAGE_SIZE` (header `mips/vm.h`, not under src);
4096 bytes on the MIPS port. -/
def PAGE_SIZE : Nat := 4096

/-- Modelled from the spec: the mask `PAGE_FRAME` (header `mips/vm.h`, not under src) that
rounds an address down to its containing page: the upper 20 bits of a 32-bit address. -/
def PAGE_FRAME : Nat := 0xfffff000

/-- Modelled from the spec: the base `MIPS_KSEG0` of the direct-mapped kernel segment
(header `mips/vm.h`, not under src). -/
def MIPS_KSEG0 : Nat := 0x80000000

/-- Modelled from the spec: the base `MIPS_KSEG1` of the segment that follows KSEG0 (header
`mips/vm.h`, not under src); KSEG0 maps the physical addresses below
`MIPS_KSEG1 - MIPS_KSEG0`. -/
def MIPS_KSEG1 : Nat := 0xa0000000

/-- Modelled from the spec: the "fixed top-of-user-space virtual address" `USERSTACK`
(header `mips/vm.h`, not under src): `USERSTACK = USERSPACETOP = MIPS_KSEG0`. -/
def USERSTACK : Nat := MIPS_KSEG0

/-- The constant `DUMBVM_STACKPAGES` of dumbvm.c line 48. -/
def DUMBVM_STACKPAGES : Nat := 12

/-- Modelled from the spec: the number of translation-cache slots `NUM_TLB` (header
`mips/tlb.h`, not under src). -/
def NUM_TLB : Nat := 64

/-- Modelled from the spec: the dirty/writable bit `TLBLO_DIRTY` of a translation-cache
row (header `mips/tlb.h`, not under src). -/
def TLBLO_DIRTY : Nat := 0x400

/-- Modelled from the spec: the valid bit `TLBLO_VALID` of a translation-cache row (header
`mips/tlb.h`, not under src). -/
def TLBLO_VALID : Nat := 0x200

/-- Modelled from the spec: the physical frame number field `TLBLO_PPAGE` of a
translation-cache row (header `mips/tlb.h`, not under src). -/
def TLBLO_PPAGE : Nat := 0xfffff000

/-- The size in bytes of `struct coremap` under the MIPS o32 ABI:
a 4-byte `paddr_t`, a 1-byte `bool` padded to 4, a 4-byte `unsigned long`. -/
def sizeof_coremap : Nat := 12

/-- Modelled from the spec: the macro `PADDR_TO_KVADDR` (header `mips/vm.h`, not under src),
`paddr + MIPS_KSEG0` in 32-bit arithmetic. -/
def PADDR_TO_KVADDR (paddr : Nat) : Nat := (paddr + MIPS_KSEG0) % 2 ^ 32

/-- Modelled from the spec: the macro `ROUNDUP` (header `lib.h`, not under src),
`ROUNDUP(a, b) = DIVROUNDUP(a, b) * b` with `DIVROUNDUP(a, b) = (a + b - 1) / b`, in 32-bit
arithmetic. -/
def ROUNDUP (a b : Nat) : Nat := (((a + b - 1) % 2 ^ 32) / b * b) % 2 ^ 32

/-! ## Data model -/

/-- The record `struct coremap` (dumbvm.c lines 60-64): one entry per physical frame. -/
structure coremap where
  paddr : Nat
  is_used : Bool
  contiguous : Nat
deriving DecidableEq, Repr

/-- The ways a run of the kernel ends without returning. -/
inductive Fatal where
  | panic
  | kassert
  | out_of_bounds
deriving DecidableEq, Repr

deriving instance DecidableEq for Except

/-- The globals of dumbvm.c together with the boot allocator's range.
`frames` is the array the global pointer `coremap` points to (`numofFrames` entries);
`firstpaddr`/`lastpaddr` are the bounds kept by the RAM module. -/
structure vmstate where
  frames : List coremap
  num_pages : Nat
  isCoremapDone : Bool
  firstpaddr : Nat
  lastpaddr : Nat
deriving DecidableEq, Repr

/-- The global `numofFrames`. -/
def numofFrames (s : vmstate) : Nat := s.frames.length

/-- Modelled from the spec: `ram_getsize` (RAM module, not under src), "a function
returning the usable physical memory range, called exactly once". -/
def ram_getsize (s : vmstate) : Nat × Nat := (s.firstpaddr, s.lastpaddr)

/-- Modelled from the spec: `ram_stealmem` (RAM module, not under src), the boot-time
"monotonic bump allocator over raw physical memory with no free operation"; it
returns 0 when the request does not fit. -/
def ram_stealmem (npages : Nat) (s : vmstate) : Nat × vmstate :=
  let size := (npages * PAGE_SIZE) % 2 ^ 32
  if s.firstpaddr + size > s.lastpaddr then (0, s)
  else (s.firstpaddr, { s with firstpaddr := s.firstpaddr + size })

/-! ## vm_bootstrap -/

/-- The loop of `vm_bootstrap` (lines 86-91): `count` entries, all free with run-length 0,
the first at `startAddressing`, each next one `PAGE_SIZE` higher. -/
def vm_bootstrap_loop : Nat → Nat → List coremap
  | 0, _ => []
  | count + 1, startAddressing =>
    { paddr := startAddressing, is_used := false, contiguous := 0 } ::
      vm_bootstrap_loop count ((startAddressing + PAGE_SIZE) % 2 ^ 32)

/-- The function `vm_bootstrap` (lines 76-95). -/
def vm_bootstrap (s : vmstate) : vmstate :=
  let bottomPageAddress := (ram_getsize s).1
  let topPageAddress := (ram_getsize s).2
  let numofFrames := ((topPageAddress + 2 ^ 32 - bottomPageAddress) % 2 ^ 32) / PAGE_SIZE
  let bottomPageAddress := (numofFrames * sizeof_coremap + bottomPageAddress) % 2 ^ 32
  let startAddressing := ROUNDUP bottomPageAddress PAGE_SIZE
  { s with frames := vm_bootstrap_loop numofFrames startAddressing,
           isCoremapDone := true }

/-! ## find_index / getppages / alloc_kpages -/

/-- The scan of `find_index` (lines 105-116). The list argument is the part of the
directory not yet visited, `coremap[i .. numofFrames)`; the result is the final
`(num_pages, index)`. -/
def find_index_loop (npages : Nat) : List coremap → Nat → Nat → Int → Nat × Int
  | [], _, num_pages, index => (num_pages, index)
  | e :: rest, i, num_pages, index =>
    if num_pages = npages then (num_pages, index)
    else if !e.is_used then
      find_index_loop npages rest (i + 1) (num_pages + 1) (if num_pages = 0 then (i : Int) else index)
    else
      find_index_loop npages rest (i + 1) 0 (-1)

/-- The function `find_index` (lines 98-119): returns `index` and leaves the count in the
global `num_pages`. -/
def find_index (npages : Nat) (s : vmstate) : Int × vmstate :=
  let r := find_index_loop npages s.frames 0 0 (-1)
  (r.2, { s with num_pages := r.1 })

/-- The loops `for (i = a; i < a + count; i++) coremap[i].is_used = b` of `getppages`
(lines 140-142, `b = true`) and `free_kpages` (lines 204-206, `b = false`). A store past
the end of the directory is outside the model. -/
def mark_frames (b : Bool) : List coremap → Nat → Nat → Except Fatal (List coremap)
  | cm, _, 0 => .ok cm
  | cm, i, count + 1 =>
    match cm[i]? with
    | none => .error .out_of_bounds
    | some e => mark_frames b (cm.set i { e with is_used := b }) (i + 1) count

/-- The function `getppages` (lines 121-160, `OPT_A3` branch). -/
def getppages (npages : Nat) (s : vmstate) : Except Fatal (Nat × vmstate) :=
  if s.isCoremapDone then
    let entry_point := (find_index npages s).1
    let s1 := (find_index npages s).2
    if entry_point = -1 then .error .panic
    else
      match s1.frames[entry_point.toNat]? with
      | none => .error .out_of_bounds
      | some e =>
        let addr := e.paddr
        let cm1 := s1.frames.set entry_point.toNat { e with contiguous := s1.num_pages }
        let end_point := entry_point.toNat + s1.num_pages
        match mark_frames true cm1 entry_point.toNat (end_point - entry_point.toNat) with
        | .error f => .error f
        | .ok cm2 => .ok (addr, { s1 with frames := cm2 })
  else
    let addr := (ram_stealmem npages s).1
    let s1 := (ram_stealmem npages s).2
    .ok (addr, s1)

/-- The function `alloc_kpages` (lines 163-171); the `int` argument is converted to
`unsigned long` at the call of `getppages`. -/
def alloc_kpages (npages : Int) (s : vmstate) : Except Fatal (Nat × vmstate) :=
  match getppages (npages % 2 ^ 32).toNat s with
  | .error f => .error f
  | .ok (pa, s1) => if pa = 0 then .ok (0, s1) else .ok (PADDR_TO_KVADDR pa, s1)

/-! ## free_kpages -/

/-- The first scan of `free_kpages` (lines 187-194): every entry whose `paddr` equals the
argument itself is marked free, stopping after one whose run-length is 0. -/
def free_kpages_loop1 (addr : Nat) : List coremap → List coremap
  | [] => []
  | e :: rest =>
    if e.paddr = addr then
      if e.contiguous = 0 then { e with is_used := false } :: rest
      else { e with is_used := false } :: free_kpages_loop1 addr rest
    else e :: free_kpages_loop1 addr rest

/-- The second scan of `free_kpages` (lines 198-209) over directory `cm`; the list argument
is the part not yet visited, `coremap[j .. numofFrames)`. -/
def free_kpages_loop2 (free_paddr : Nat) (cm : List coremap) :
    List coremap → Nat → Except Fatal (List coremap)
  | [], _ => .ok cm
  | e :: rest, j =>
    if e.paddr = free_paddr then
      let «end» := e.contiguous
      mark_frames false (cm.set j { e with contiguous := 0 }) j «end»
    else free_kpages_loop2 free_paddr cm rest (j + 1)

/-- The function `free_kpages` (lines 174-217, `OPT_A3` branch). -/
def free_kpages (addr : Nat) (s : vmstate) : Except Fatal vmstate :=
  if s.isCoremapDone && addr == 0 then .ok s
  else
    let free_paddr := (addr + 2 ^ 32 - MIPS_KSEG0) % 2 ^ 32
    let cm1 := free_kpages_loop1 addr s.frames
    match free_kpages_loop2 free_paddr cm1 cm1 0 with
    | .error f => .error f
    | .ok cm2 => .ok { s with frames := cm2 }

/-! ## Address spaces and vm_fault -/

/-- Modelled from the spec: the record `struct addrspace` (header `addrspace.h`, not under
src): two region descriptors (virtual base, physical base, page count), the stack's
physical base, and the load-complete flag; the field names are those dumbvm.c uses. -/
structure addrspace where
  as_vbase1 : Nat
  as_pbase1 : Nat
  as_npages1 : Nat
  as_vbase2 : Nat
  as_pbase2 : Nat
  as_npages2 : Nat
  as_stackpbase : Nat
  elf_loaded : Bool
deriving DecidableEq, Repr

/-- Modelled from the spec: the part of `struct proc` (header `proc.h`, not under src) read
here, the address-space pointer; `none` is NULL. -/
structure proc where
  p_addrspace : Option addrspace
deriving DecidableEq, Repr

/-- Modelled from the spec: `curproc_getas` (process module, not under src), the
"process-context accessor returning the active process and its active Address-Space
Descriptor". -/
def curproc_getas (curproc : proc) : Option addrspace := curproc.p_addrspace

/-- Modelled from the spec: the value an `int`-returning function of dumbvm.c hands back,
0 or one of the error numbers of `kern/errno.h` (not under src) that dumbvm.c returns. -/
inductive retval where
  | zero
  | EINVAL
  | EFAULT
  | ENOMEM
  | EUNIMP
deriving DecidableEq, Repr

/-- Modelled from the spec: the fault kind `VM_FAULT_READ` (header `vm.h`, not under src). -/
def VM_FAULT_READ : Int := 0

/-- Modelled from the spec: the fault kind `VM_FAULT_WRITE` (header `vm.h`, not under src). -/
def VM_FAULT_WRITE : Int := 1

/-- Modelled from the spec: the fault kind `VM_FAULT_READONLY` (header `vm.h`, not under
src). -/
def VM_FAULT_READONLY : Int := 2

/-- Modelled from the spec: one row of the translation cache, the `entryhi` word (virtual
page number) and the `entrylo` word (physical frame number, valid bit, dirty bit). -/
structure tlbentry where
  ehi : Nat
  elo : Nat
deriving DecidableEq, Repr

/-- Modelled from the spec: `tlb_read` (machine primitive, not under src) reads
translation-cache row `i`. -/
def tlb_read (tlb : List tlbentry) (i : Nat) : tlbentry := tlb.getD i ⟨0, 0⟩

/-- Modelled from the spec: `tlb_write` (machine primitive, not under src) stores a row
into slot `i`. -/
def tlb_write (ehi elo : Nat) (i : Nat) (tlb : List tlbentry) : List tlbentry :=
  tlb.set i ⟨ehi, elo⟩

/-- Modelled from the spec: `tlb_random` (machine primitive, not under src) stores a row
into a victim slot "chosen by the hardware's own random-replacement mechanism"; the
choice is the argument `victim`. -/
def tlb_random (ehi elo : Nat) (victim : Fin NUM_TLB) (tlb : List tlbentry) : List tlbentry :=
  tlb.set victim.val ⟨ehi, elo⟩

/-- The assertions of `vm_fault` on the descriptor (lines 289-300). -/
def vm_fault_asserts («as» : addrspace) : Bool :=
  «as».as_vbase1 != 0 && «as».as_pbase1 != 0 && «as».as_npages1 != 0 &&
  «as».as_vbase2 != 0 && «as».as_pbase2 != 0 && «as».as_npages2 != 0 &&
  «as».as_stackpbase != 0 &&
  («as».as_vbase1 &&& PAGE_FRAME) == «as».as_vbase1 &&
  («as».as_pbase1 &&& PAGE_FRAME) == «as».as_pbase1 &&
  («as».as_vbase2 &&& PAGE_FRAME) == «as».as_vbase2 &&
  («as».as_pbase2 &&& PAGE_FRAME) == «as».as_pbase2 &&
  («as».as_stackpbase &&& PAGE_FRAME) == «as».as_stackpbase

/-- The local `vtop1` of `vm_fault` (line 304). -/
def vtop1 («as» : addrspace) : Nat :=
  («as».as_vbase1 + («as».as_npages1 * PAGE_SIZE) % 2 ^ 32) % 2 ^ 32

/-- The local `vtop2` of `vm_fault` (line 306). -/
def vtop2 («as» : addrspace) : Nat :=
  («as».as_vbase2 + («as».as_npages2 * PAGE_SIZE) % 2 ^ 32) % 2 ^ 32

/-- The local `stackbase` of `vm_fault` (line 307). -/
def stackbase : Nat := (USERSTACK + 2 ^ 32 - DUMBVM_STACKPAGES * PAGE_SIZE) % 2 ^ 32

/-- The local `stacktop` of `vm_fault` (line 308). -/
def stacktop : Nat := USERSTACK

/-- The range test and translation of `vm_fault` (lines 315-323) on the page-masked
address; `none` is the `return EFAULT` branch. Each difference is taken in a branch where
it cannot be negative. -/
def vm_fault_paddr («as» : addrspace) (faultaddress : Nat) : Option Nat :=
  if faultaddress ≥ «as».as_vbase1 ∧ faultaddress < vtop1 «as» then
    some ((«as».as_pbase1 + (faultaddress - «as».as_vbase1)) % 2 ^ 32)
  else if faultaddress ≥ «as».as_vbase2 ∧ faultaddress < vtop2 «as» then
    some ((«as».as_pbase2 + (faultaddress - «as».as_vbase2)) % 2 ^ 32)
  else if faultaddress ≥ stackbase ∧ faultaddress < stacktop then
    some ((«as».as_stackpbase + (faultaddress - stackbase)) % 2 ^ 32)
  else none

/-- The slot search of `vm_fault` (lines 349-353): the first `i` in `[i, i + count)` whose
row has the valid bit clear. -/
def vm_fault_scan (tlb : List tlbentry) : Nat → Nat → Option Nat
  | _, 0 => none
  | i, count + 1 =>
    if (tlb_read tlb i).elo &&& TLBLO_VALID ≠ 0 then vm_fault_scan tlb (i + 1) count
    else some i

/-- The `entrylo` word built by `vm_fault` (lines 355-363 and 373-378):
`paddr | TLBLO_DIRTY | TLBLO_VALID`, with the dirty bit masked off again when the page
is in region 1 and `elf_loaded` is set. -/
def vm_fault_elo («as» : addrspace) (faultaddress paddr : Nat) : Nat :=
  let elo := paddr ||| TLBLO_DIRTY ||| TLBLO_VALID
  let valid : Bool := decide (faultaddress ≥ «as».as_vbase1 ∧ faultaddress < vtop1 «as»)
  if valid && «as».elf_loaded then elo &&& (2 ^ 32 - 1 - TLBLO_DIRTY) else elo

/-- The function `vm_fault` (lines 241-391, `OPT_A3` branch) on translation cache `tlb`;
`curproc` is `none` for NULL. -/
def vm_fault (faulttype : Int) (faultaddress : Nat) (curproc : Option proc)
    (victim : Fin NUM_TLB) (tlb : List tlbentry) : Except Fatal (retval × List tlbentry) :=
  let faultaddress := faultaddress &&& PAGE_FRAME
  if faulttype = VM_FAULT_READONLY then .ok (.EINVAL, tlb)
  else if faulttype = VM_FAULT_READ ∨ faulttype = VM_FAULT_WRITE then
    match curproc with
    | none => .ok (.EFAULT, tlb)
    | some p =>
      match curproc_getas p with
      | none => .ok (.EFAULT, tlb)
      | some «as» =>
        if !vm_fault_asserts «as» then .error .kassert
        else
          match vm_fault_paddr «as» faultaddress with
          | none => .ok (.EFAULT, tlb)
          | some paddr =>
            if (paddr &&& PAGE_FRAME) ≠ paddr then .error .kassert
            else
              let ehi := faultaddress
              let elo := vm_fault_elo «as» faultaddress paddr
              match vm_fault_scan tlb 0 NUM_TLB with
              | some i => .ok (.zero, tlb_write ehi elo i tlb)
              | none => .ok (.zero, tlb_random ehi elo victim tlb)
  else .ok (.EINVAL, tlb)

/-- The function `as_create` (lines 394-415); `none` is the NULL returned when `kmalloc`
fails. -/
def as_create (kmalloc_succeeds : Bool) : Option addrspace :=
  if kmalloc_succeeds then
    some { as_vbase1 := 0, as_pbase1 := 0, as_npages1 := 0, as_vbase2 := 0, as_pbase2 := 0,
           as_npages2 := 0, as_stackpbase := 0, elf_loaded := false }
  else none

/-- The function `as_complete_load` (lines 532-541). -/
def as_complete_load («as» : addrspace) : retval × addrspace :=
  (.zero, { «as» with elf_loaded := true })

/-! ## as_activate -/

/-- Modelled from the spec: the macro `TLBHI_INVALID(entryno)` (header `mips/tlb.h`, not
under src), the `entryhi` word of an invalid row: `(0x80000 + entryno) << 12`. -/
def TLBHI_INVALID (entryno : Nat) : Nat := ((0x80000 + entryno) <<< 12) % 2 ^ 32

/-- Modelled from the spec: the macro `TLBLO_INVALID()` (header `mips/tlb.h`, not under
src), the `entrylo` word of an invalid row. -/
def TLBLO_INVALID : Nat := 0

/-- The loop of `as_activate` (lines 446-448): rows `i .. i + count - 1` are overwritten
with the invalid row of their slot. -/
def as_activate_loop : List tlbentry → Nat → Nat → List tlbentry
  | tlb, _, 0 => tlb
  | tlb, i, count + 1 =>
    as_activate_loop (tlb_write (TLBHI_INVALID i) TLBLO_INVALID i tlb) (i + 1) count

/-- The function `as_activate` (lines 430-451) on translation cache `tlb`. `curproc` is
`none` for NULL, for which `curproc_getas` returns NULL as well. -/
def as_activate (curproc : Option proc) (tlb : List tlbentry) : List tlbentry :=
  let «as» := match curproc with
    | none => none
    | some p => curproc_getas p
  match «as» with
  | none => tlb
  | some _ => as_activate_loop tlb 0 NUM_TLB

/-! ## as_define_region -/

/-- The function `as_define_region` (lines 458-494); `vaddr` and `sz` are 32-bit values.
The three permission arguments are accepted and not used. -/
def as_define_region («as» : addrspace) (vaddr sz : Nat)
    (_readable _writeable _executable : Int) : retval × addrspace :=
  let sz := (sz + (vaddr &&& (2 ^ 32 - 1 - PAGE_FRAME))) % 2 ^ 32
  let vaddr := vaddr &&& PAGE_FRAME
  let sz := ((sz + PAGE_SIZE - 1) % 2 ^ 32) &&& PAGE_FRAME
  let npages := sz / PAGE_SIZE
  if «as».as_vbase1 = 0 then
    (.zero, { «as» with as_vbase1 := vaddr, as_npages1 := npages })
  else if «as».as_vbase2 = 0 then
    (.zero, { «as» with as_vbase2 := vaddr, as_npages2 := npages })
  else (.EUNIMP, «as»)

/-! ## Memory, as_prepare_load, as_destroy, as_copy -/

/-- Modelled from the spec: the contents of memory, one byte per kernel address (the
"physical content" that `copy` duplicates). -/
abbrev memory := Nat → Nat

/-- Modelled from the spec: `bzero` (kernel library, not under src) zero-fills `len` bytes
from `vaddr`. -/
def bzero (mem : memory) (vaddr len : Nat) : memory :=
  fun a => if vaddr ≤ a ∧ a < vaddr + len then 0 else mem a

/-- Modelled from the spec: `memmove` (kernel library, not under src) duplicates `len`
bytes from `src` to `dst` "byte-for-byte". -/
def memmove (mem : memory) (dst src len : Nat) : memory :=
  fun a => if dst ≤ a ∧ a < dst + len then mem (src + (a - dst)) else mem a

/-- The function `as_zero_region` (lines 496-500). -/
def as_zero_region (paddr npages : Nat) (mem : memory) : memory :=
  bzero mem (PADDR_TO_KVADDR paddr) ((npages * PAGE_SIZE) % 2 ^ 32)

/-- The function `as_prepare_load` (lines 502-530): the result is the returned value, the
descriptor, the globals and the memory. -/
def as_prepare_load («as» : addrspace) (s : vmstate) (mem : memory) :
    Except Fatal (retval × addrspace × vmstate × memory) :=
  if «as».as_pbase1 ≠ 0 ∨ «as».as_pbase2 ≠ 0 ∨ «as».as_stackpbase ≠ 0 then .error .kassert
  else
    match getppages «as».as_npages1 s with
    | .error f => .error f
    | .ok (pa1, s1) =>
      let as1 := { «as» with as_pbase1 := pa1 }
      if pa1 = 0 then .ok (.ENOMEM, as1, s1, mem)
      else
        match getppages as1.as_npages2 s1 with
        | .error f => .error f
        | .ok (pa2, s2) =>
          let as2 := { as1 with as_pbase2 := pa2 }
          if pa2 = 0 then .ok (.ENOMEM, as2, s2, mem)
          else
            match getppages DUMBVM_STACKPAGES s2 with
            | .error f => .error f
            | .ok (pa3, s3) =>
              let as3 := { as2 with as_stackpbase := pa3 }
              if pa3 = 0 then .ok (.ENOMEM, as3, s3, mem)
              else
                let mem1 := as_zero_region as3.as_pbase1 as3.as_npages1 mem
                let mem2 := as_zero_region as3.as_pbase2 as3.as_npages2 mem1
                let mem3 := as_zero_region as3.as_stackpbase DUMBVM_STACKPAGES mem2
                .ok (.zero, as3, s3, mem3)

/-- The function `as_destroy` (lines 418-428): the three releases, in the order of the
source. The closing `kfree` returns the descriptor to the kernel heap (not under src),
which is taken to leave the frame directory alone. -/
def as_destroy («as» : addrspace) (s : vmstate) : Except Fatal vmstate :=
  match free_kpages (PADDR_TO_KVADDR «as».as_pbase2) s with
  | .error f => .error f
  | .ok s1 =>
    match free_kpages (PADDR_TO_KVADDR «as».as_pbase1) s1 with
    | .error f => .error f
    | .ok s2 => free_kpages (PADDR_TO_KVADDR «as».as_stackpbase) s2

/-- The function `as_copy` (lines 552-592): the result is the returned value, the new
descriptor stored through `ret` (`none` when nothing is stored), the globals and the
memory. -/
def as_copy (old : addrspace) (kmalloc_succeeds : Bool) (s : vmstate) (mem : memory) :
    Except Fatal (retval × Option addrspace × vmstate × memory) :=
  match as_create kmalloc_succeeds with
  | none => .ok (.ENOMEM, none, s, mem)
  | some new0 =>
    let new1 := { new0 with as_vbase1 := old.as_vbase1, as_npages1 := old.as_npages1,
                            as_vbase2 := old.as_vbase2, as_npages2 := old.as_npages2 }
    match as_prepare_load new1 s mem with
    | .error f => .error f
    | .ok (r, new, s1, mem1) =>
      if r ≠ .zero then
        match as_destroy new s1 with
        | .error f => .error f
        | .ok s2 => .ok (.ENOMEM, none, s2, mem1)
      else if new.as_pbase1 = 0 ∨ new.as_pbase2 = 0 ∨ new.as_stackpbase = 0 then
        .error .kassert
      else
        let mem2 := memmove mem1 (PADDR_TO_KVADDR new.as_pbase1)
          (PADDR_TO_KVADDR old.as_pbase1) ((old.as_npages1 * PAGE_SIZE) % 2 ^ 32)
        let mem3 := memmove mem2 (PADDR_TO_KVADDR new.as_pbase2)
          (PADDR_TO_KVADDR old.as_pbase2) ((old.as_npages2 * PAGE_SIZE) % 2 ^ 32)
        let mem4 := memmove mem3 (PADDR_TO_KVADDR new.as_stackpbase)
          (PADDR_TO_KVADDR old.as_stackpbase) ((DUMBVM_STACKPAGES * PAGE_SIZE) % 2 ^ 32)
        .ok (.zero, some new, s1, mem4)

/-! ## The intersection (kern/synchprobs/traffic_synch.c)

The array `vehiclesAtIntersection` is a `List Vehicle` in index order. The lock
`intersectionLock` is held over the whole body of `intersection_before_entry` after the
wait and over the whole body of `intersection_after_exit`, so each function is one atomic
step on the array; the lock and the condition variable carry no data. -/

/-- Modelled from the spec: the type `Direction` (header `synchprobs.h`, not under src); its
four values are the ones `right_turn` names. -/
inductive Direction where
  | north
  | east
  | south
  | west
deriving DecidableEq, Repr

/-- The record `struct Vehicle` (traffic_synch.c lines 29-33). -/
structure Vehicle where
  origin : Direction
  destination : Direction
deriving DecidableEq, Repr

/-- The function `right_turn` (lines 64-75). -/
def right_turn (v : Vehicle) : Bool :=
  if (v.origin = .west ∧ v.destination = .south) ∨
      (v.origin = .south ∧ v.destination = .east) ∨
      (v.origin = .east ∧ v.destination = .north) ∨
      (v.origin = .north ∧ v.destination = .west) then true
  else false

/-- The function `areTwoVehiclesSafe` (lines 79-88). -/
def areTwoVehiclesSafe (vehicle1 vehicle2 : Vehicle) : Bool :=
  if vehicle1.origin = vehicle2.origin then true
  else if vehicle1.origin = vehicle2.destination ∧
      vehicle1.destination = vehicle2.origin then true
  else if vehicle1.destination ≠ vehicle2.destination ∧
      (right_turn vehicle1 || right_turn vehicle2) = true then true
  else false

/-- The function `canVehicleEnterIntersection` (lines 104-116). The list argument is the
part of the array not yet visited, `vehiclesAtIntersection[i .. lengthOfArray)`. -/
def canVehicleEnterIntersection (vehicle : Vehicle) : List Vehicle → Bool
  | [] => true
  | vehicleAtIntersection :: rest =>
    if !(areTwoVehiclesSafe vehicle vehicleAtIntersection) then false
    else canVehicleEnterIntersection vehicle rest

/-- Modelled from the spec: `array_remove` (header `array.h`, not under src) takes the
element at `index` out of the array and moves the later elements down by one. -/
def array_remove (a : List Vehicle) (index : Nat) : List Vehicle := a.eraseIdx index

/-- Modelled from the spec: `array_add` (header `array.h`, not under src) puts the element
at the end of the array. -/
def array_add (a : List Vehicle) (val : Vehicle) : List Vehicle := a ++ [val]

/-- The function `removeVehicleFromIntersection` (lines 120-129). The `break` at line 127
is outside the `if`, so the body of the loop runs for `i = 0` only. -/
def removeVehicleFromIntersection (origin destination : Direction)
    (vehiclesAtIntersection : List Vehicle) : List Vehicle :=
  let lengthOfArray := vehiclesAtIntersection.length
  if 0 < lengthOfArray then
    match vehiclesAtIntersection[0]? with
    | none => vehiclesAtIntersection
    | some vehicleAtIntersection =>
      if origin = vehicleAtIntersection.origin ∧
          destination = vehicleAtIntersection.destination then
        array_remove vehiclesAtIntersection 0
      else vehiclesAtIntersection
  else vehiclesAtIntersection

/-- The function `intersection_sync_init` (lines 138-154): the array starts empty. -/
def intersection_sync_init : List Vehicle := []

/-- The function `intersection_before_entry` (lines 190-215), from the moment the lock is
held: `none` when the vehicle cannot enter and the thread goes to sleep in `cv_wait`
(it makes the test again, on the array of that time, when it is woken), otherwise the
array after `array_add`. The `kmalloc` of the vehicle and `array_add` are taken to
succeed. -/
def intersection_before_entry (origin destination : Direction)
    (vehiclesAtIntersection : List Vehicle) : Option (List Vehicle) :=
  let vehicle : Vehicle := { origin := origin, destination := destination }
  if !(canVehicleEnterIntersection vehicle vehiclesAtIntersection) then none
  else some (array_add vehiclesAtIntersection vehicle)

/-- The function `intersection_after_exit` (lines 229-244). -/
def intersection_after_exit (origin destination : Direction)
    (vehiclesAtIntersection : List Vehicle) : List Vehicle :=
  removeVehicleFromIntersection origin destination vehiclesAtIntersection

/-! ## Predicates used to state the properties -/

/-- Entry `k` of the directory exists and is free. -/
def is_free (cm : List coremap) (k : Nat) : Prop :=
  (cm[k]?).map coremap.is_used = some false

instance (cm : List coremap) (k : Nat) : Decidable (is_free cm k) := by
  unfold is_free; infer_instance

/-- Entries `q .. q + n - 1` of the directory all exist and are free. -/
def run_free (cm : List coremap) (q n : Nat) : Prop :=
  ∀ k < n, is_free cm (q + k)

instance (cm : List coremap) (q n : Nat) : Decidable (run_free cm q n) := by
  unfold run_free; infer_instance

/-- What an acquire of `m` frames at index `i` does to entry `j`: the first entry of the
run is stamped with the run-length, all `m` entries are marked in-use, the rest is kept. -/
def stamp (i m j : Nat) (x : coremap) : coremap :=
  if j = i then { x with is_used := true, contiguous := m }
  else if i < j ∧ j < i + m then { x with is_used := true }
  else x

/-- What a release of the `k`-frame run at index `i` does to entry `j`: the first entry's
run-length is cleared, all `k` entries are marked free, the rest is kept. -/
def unstamp (i k j : Nat) (x : coremap) : coremap :=
  if j = i then { x with is_used := false, contiguous := 0 }
  else if i < j ∧ j < i + k then { x with is_used := false }
  else x

/-- Entry `i` starts an allocated run of `k` frames: it carries run-length `k >= 1` and
entries `i .. i + k - 1` exist and are in use. -/
def allocated_run (cm : List coremap) (i k : Nat) : Prop :=
  1 ≤ k ∧ (cm[i]?).map coremap.contiguous = some k ∧
    ∀ m < k, (cm[i + m]?).map coremap.is_used = some true

instance (cm : List coremap) (i k : Nat) : Decidable (allocated_run cm i k) := by
  unfold allocated_run; infer_instance

/-- The loop invariant of `find_index` before visiting entry `i` with `num_pages = c`:
the `c` entries before `i` are free and form the candidate run starting at `index`,
and no window of `n` free entries starts before the candidate. -/
def scan_inv (cm : List coremap) (n i c : Nat) (index : Int) : Prop :=
  c ≤ i ∧ i ≤ cm.length ∧ c ≤ n ∧ (∀ k, i - c ≤ k → k < i → is_free cm k) ∧
    (c = 0 → index = -1) ∧ (c ≠ 0 → index = ((i - c : Nat) : Int)) ∧
    ∀ q, q < i - c → ¬ run_free cm q n

/-- The address is page-aligned and fits in 32 bits: `(x & PAGE_FRAME) == x`. -/
def aligned (x : Nat) : Prop := x &&& PAGE_FRAME = x

instance (x : Nat) : Decidable (aligned x) := by
  unfold aligned; infer_instance

/-- A well-formed descriptor: all bases non-zero and page-aligned, page counts non-zero,
and `vbase + npages * PAGE_SIZE` not overflowing 32 bits. -/
def well_formed («as» : addrspace) : Prop :=
  «as».as_vbase1 ≠ 0 ∧ «as».as_pbase1 ≠ 0 ∧ «as».as_npages1 ≠ 0 ∧
  «as».as_vbase2 ≠ 0 ∧ «as».as_pbase2 ≠ 0 ∧ «as».as_npages2 ≠ 0 ∧
  «as».as_stackpbase ≠ 0 ∧
  aligned «as».as_vbase1 ∧ aligned «as».as_pbase1 ∧ aligned «as».as_vbase2 ∧
  aligned «as».as_pbase2 ∧ aligned «as».as_stackpbase ∧
  «as».as_vbase1 + «as».as_npages1 * PAGE_SIZE < 2 ^ 32 ∧
  «as».as_vbase2 + «as».as_npages2 * PAGE_SIZE < 2 ^ 32

instance («as» : addrspace) : Decidable (well_formed «as») := by
  unfold well_formed; infer_instance

/-- The page `a` lies in region 1, `[vbase1, vbase1 + npages1 * PAGE_SIZE)`. -/
def in_region1 («as» : addrspace) (a : Nat) : Prop :=
  «as».as_vbase1 ≤ a ∧ a < «as».as_vbase1 + «as».as_npages1 * PAGE_SIZE

instance («as» : addrspace) (a : Nat) : Decidable (in_region1 «as» a) := by
  unfold in_region1; infer_instance

/-- The page `a` lies in region 2, `[vbase2, vbase2 + npages2 * PAGE_SIZE)`. -/
def in_region2 («as» : addrspace) (a : Nat) : Prop :=
  «as».as_vbase2 ≤ a ∧ a < «as».as_vbase2 + «as».as_npages2 * PAGE_SIZE

instance («as» : addrspace) (a : Nat) : Decidable (in_region2 «as» a) := by
  unfold in_region2; infer_instance

/-- The page `a` lies in the stack range `[USERSTACK - 12 * PAGE_SIZE, USERSTACK)`. -/
def in_stack (a : Nat) : Prop :=
  USERSTACK - 12 * PAGE_SIZE ≤ a ∧ a < USERSTACK

instance (a : Nat) : Decidable (in_stack a) := by
  unfold in_stack; infer_instance

/-- The translation as the specification words it, over the integers: the first of
region 1, region 2 and the stack that contains the page decides, and the physical address
is that region's physical base plus the offset within the region; `none` when the page
is in none of them. -/
def spec_translate («as» : addrspace) (a : Nat) : Option Nat :=
  if in_region1 «as» a then some («as».as_pbase1 + (a - «as».as_vbase1))
  else if in_region2 «as» a then some («as».as_pbase2 + (a - «as».as_vbase2))
  else if in_stack a then some («as».as_stackpbase + (a - (USERSTACK - 12 * PAGE_SIZE)))
  else none

/-- The slot `vm_fault` writes: the first invalid slot found by its scan, otherwise the
victim of the random-replacement write. -/
def install_slot (tlb : List tlbentry) (victim : Fin NUM_TLB) : Nat :=
  match vm_fault_scan tlb 0 NUM_TLB with
  | some i => i
  | none => victim.val

/-- The page count `as_define_region` computes from its arguments (lines 464-470). -/
def define_region_npages (vaddr sz : Nat) : Nat :=
  ((((sz + (vaddr &&& (2 ^ 32 - 1 - PAGE_FRAME))) % 2 ^ 32 + PAGE_SIZE - 1) % 2 ^ 32) &&&
    PAGE_FRAME) / PAGE_SIZE

/-- The RAM range kept by the RAM module is one that KSEG0 maps: it is ordered and ends
within the first `MIPS_KSEG1 - MIPS_KSEG0` bytes of physical memory. -/
def ram_in_kseg0 (s : vmstate) : Prop :=
  s.firstpaddr ≤ s.lastpaddr ∧ s.lastpaddr ≤ MIPS_KSEG1 - MIPS_KSEG0

instance (s : vmstate) : Decidable (ram_in_kseg0 s) := by
  unfold ram_in_kseg0; infer_instance

/-- Every frame of the directory has a physical address below `MIPS_KSEG0`. -/
def frames_below_kseg0 (cm : List coremap) : Prop :=
  ∀ e ∈ cm, e.paddr < MIPS_KSEG0

instance (cm : List coremap) : Decidable (frames_below_kseg0 cm) := by
  unfold frames_below_kseg0; infer_instance

/-- The run-length field of entry `i` (0 when there is no such entry). -/
def run_len (cm : List coremap) (i : Nat) : Nat :=
  ((cm[i]?).map coremap.contiguous).getD 0

/-- Entry `i` of the directory exists and is in use. -/
def in_use (cm : List coremap) (i : Nat) : Prop :=
  (cm[i]?).map coremap.is_used = some true

instance (cm : List coremap) (i : Nat) : Decidable (in_use cm i) := by
  unfold in_use; infer_instance

/-- The `paddr` field of entry `i` (0 when there is no such entry). -/
def paddr_at (cm : List coremap) (i : Nat) : Nat :=
  ((cm[i]?).map coremap.paddr).getD 0

/-- Part (1) of the run invariant: every entry with non-zero run-length `k` is in use,
entries `i .. i + k - 1` exist, and entries `i + 1 .. i + k - 1` are in use with
run-length 0. -/
def run_inv_runs (cm : List coremap) : Prop :=
  ∀ i < cm.length, run_len cm i ≠ 0 →
    in_use cm i ∧ i + run_len cm i ≤ cm.length ∧
    ∀ m < run_len cm i, 1 ≤ m → in_use cm (i + m) ∧ run_len cm (i + m) = 0

instance (cm : List coremap) : Decidable (run_inv_runs cm) := by
  unfold run_inv_runs; infer_instance

/-- Part (2) of the run invariant: every free entry has run-length 0. -/
def run_inv_free (cm : List coremap) : Prop :=
  ∀ i < cm.length, is_free cm i → run_len cm i = 0

instance (cm : List coremap) : Decidable (run_inv_free cm) := by
  unfold run_inv_free; infer_instance

/-- Part (3) of the run invariant: runs do not overlap. -/
def run_inv_disjoint (cm : List coremap) : Prop :=
  ∀ i < cm.length, ∀ j < cm.length, (i < j ∧ run_len cm i ≠ 0 ∧ run_len cm j ≠ 0) →
    i + run_len cm i ≤ j

instance (cm : List coremap) : Decidable (run_inv_disjoint cm) := by
  unfold run_inv_disjoint; infer_instance

/-- Part (4) of the run invariant: every `paddr` is page-aligned and the `paddr`s increase
by `PAGE_SIZE` per entry. -/
def run_inv_paddr (cm : List coremap) : Prop :=
  ∀ i < cm.length, paddr_at cm i % PAGE_SIZE = 0 ∧
    (i + 1 < cm.length → paddr_at cm (i + 1) = paddr_at cm i + PAGE_SIZE)

instance (cm : List coremap) : Decidable (run_inv_paddr cm) := by
  unfold run_inv_paddr; infer_instance

/-- The directory run invariant, parts (1) to (4). -/
def run_invariant (cm : List coremap) : Prop :=
  run_inv_runs cm ∧ run_inv_free cm ∧ run_inv_disjoint cm ∧ run_inv_paddr cm

instance (cm : List coremap) : Decidable (run_invariant cm) := by
  unfold run_invariant; infer_instance

/-- The `n` pages at physical address `pbase` are frames of the directory, all in use:
some entry `u` carries `pbase` and entries `u .. u + n - 1` exist and are in use. -/
def loaded_region (cm : List coremap) (pbase n : Nat) : Prop :=
  ∃ u < cm.length, u + n ≤ cm.length ∧ paddr_at cm u = pbase ∧ ∀ k < n, in_use cm (u + k)

instance (cm : List coremap) (pbase n : Nat) : Decidable (loaded_region cm pbase n) := by
  unfold loaded_region; infer_instance

/-- A loaded descriptor: its two regions and its stack are frames of the directory, all
in use. -/
def loaded (cm : List coremap) («as» : addrspace) : Prop :=
  loaded_region cm «as».as_pbase1 «as».as_npages1 ∧
    loaded_region cm «as».as_pbase2 «as».as_npages2 ∧
    loaded_region cm «as».as_stackpbase DUMBVM_STACKPAGES

instance (cm : List coremap) («as» : addrspace) : Decidable (loaded cm «as») := by
  unfold loaded; infer_instance

/-- Row `i` of the translation cache has its valid bit set. -/
def tlb_valid (tlb : List tlbentry) (i : Nat) : Prop :=
  (tlb_read tlb i).elo &&& TLBLO_VALID ≠ 0

instance (tlb : List tlbentry) (i : Nat) : Decidable (tlb_valid tlb i) := by
  unfold tlb_valid; infer_instance

/-- Every two vehicles recorded at different indices of the array are safe together. -/
def all_pairs_safe (arr : List Vehicle) : Prop :=
  ∀ i < arr.length, ∀ j < arr.length, i ≠ j →
    ∀ v ∈ arr[i]?, ∀ w ∈ arr[j]?, areTwoVehiclesSafe v w = true

instance (arr : List Vehicle) : Decidable (all_pairs_safe arr) := by
  unfold all_pairs_safe; infer_instance

/-- The arrays reachable from `intersection_sync_init` by completed calls of
`intersection_before_entry` and `intersection_after_exit`, in any order and with any
arguments. -/
inductive reachable : List Vehicle → Prop
  | init : reachable intersection_sync_init
  | entry (origin destination : Direction) (arr arr' : List Vehicle) :
      reachable arr → intersection_before_entry origin destination arr = some arr' →
      reachable arr'
  | exit (origin destination : Direction) (arr : List Vehicle) :
      reachable arr → reachable (intersection_after_exit origin destination arr)

/-! ## Lemmas on the loops -/

theorem mark_frames_spec (b : Bool) :
    ∀ (count : Nat) (cm : List coremap) (i : Nat), i + count ≤ cm.length →
      ∃ cm', mark_frames b cm i count = .ok cm' ∧ cm'.length = cm.length ∧
        ∀ j, cm'[j]? = if i ≤ j ∧ j < i + count
          then (cm[j]?).map (fun x => { x with is_used := b }) else cm[j]? := by
  intro count
  induction count with
  | zero =>
    intro cm i _
    refine ⟨cm, rfl, rfl, ?_⟩
    intro j
    have : ¬ (i ≤ j ∧ j < i + 0) := by omega
    rw [if_neg this]
  | succ k ih =>
    intro cm i h
    have hi : i < cm.length := by omega
    obtain ⟨cm', h1, h2, h3⟩ :=
      ih (cm.set i { cm[i] with is_used := b }) (i + 1) (by simp; omega)
    refine ⟨cm', ?_, ?_, ?_⟩
    · simp only [mark_frames, List.getElem?_eq_getElem hi]
      exact h1
    · simpa using h2
    · intro j
      rw [h3 j, List.getElem?_set]
      by_cases hj : i = j
      · subst hj
        have c1 : ¬ (i + 1 ≤ i ∧ i < i + 1 + k) := by omega
        have c2 : i ≤ i ∧ i < i + (k + 1) := by omega
        simp [c1, c2, hi]
      · by_cases hr : i + 1 ≤ j ∧ j < i + 1 + k
        · have c2 : i ≤ j ∧ j < i + (k + 1) := by omega
          simp [hr, c2, hj]
        · have c2 : ¬ (i ≤ j ∧ j < i + (k + 1)) := by omega
          simp [hr, c2, hj]

theorem find_index_loop_inv (cm : List coremap) (n : Nat) :
    ∀ (l : List coremap) (i c : Nat) (index : Int), cm.drop i = l → scan_inv cm n i c index →
      ∃ i', scan_inv cm n i' (find_index_loop n l i c index).1 (find_index_loop n l i c index).2 ∧
        ((find_index_loop n l i c index).1 = n ∨ i' = cm.length) := by
  intro l
  induction l with
  | nil =>
    intro i c index hd hinv
    have hlen : cm.length ≤ i := List.drop_eq_nil_iff.mp hd
    refine ⟨i, by simpa [find_index_loop] using hinv, Or.inr ?_⟩
    have := hinv.2.1
    omega
  | cons e rest ih =>
    intro i c index hd hinv
    obtain ⟨h1, h2, h3, h4, h5, h6, h7⟩ := hinv
    have hi : i < cm.length := by
      by_contra hcon
      have : cm.drop i = [] := List.drop_eq_nil_iff.mpr (by omega)
      rw [this] at hd
      cases hd
    have he : cm[i]? = some e := by
      have := List.getElem?_drop cm i 0
      rw [hd] at this
      simpa using this.symm
    have hrest : cm.drop (i + 1) = rest := by
      have := List.drop_drop 1 i cm
      rw [hd] at this
      simpa using this.symm
    by_cases hc : c = n
    · refine ⟨i, ?_, Or.inl ?_⟩
      · simp only [find_index_loop, hc, if_true]
        exact ⟨by omega, h2, by omega, by simpa [hc] using h4, by simpa [hc] using h5,
          by simpa [hc] using h6, by simpa [hc] using h7⟩
      · simp [find_index_loop, hc]
    · cases hu : e.is_used with
      | false =>
        have hfree : is_free cm i := by simp [is_free, he, hu]
        have := ih (i + 1) (c + 1) (if c = 0 then (i : Int) else index) hrest
          ⟨by omega, by omega, by omega, (by
              intro k hk1 hk2
              by_cases hki : k = i
              · subst hki; exact hfree
              · exact h4 k (by omega) (by omega)),
            (by omega), (by
              intro _
              by_cases hc0 : c = 0
              · simp [hc0]
              · simp only [hc0, if_false]
                rw [h6 hc0]
                congr 1
                omega),
            (by
              intro q hq
              exact h7 q (by omega))⟩
        simpa [find_index_loop, hc, hu] using this
      | true =>
        have hused : ¬ is_free cm i := by simp [is_free, he, hu]
        have := ih (i + 1) 0 (-1) hrest
          ⟨by omega, by omega, by omega, (by intro k hk1 hk2; omega), (by intro _; rfl),
            (by intro h; exact absurd rfl h),
            (by
              intro q hq hrun
              by_cases hq2 : q < i - c
              · exact h7 q hq2 hrun
              · have := hrun (i - q) (by omega)
                have hqi : q + (i - q) = i := by omega
                rw [hqi] at this
                exact hused this)⟩
        simpa [find_index_loop, hc, hu] using this

theorem is_free_lt {cm : List coremap} {k : Nat} (h : is_free cm k) : k < cm.length := by
  unfold is_free at h
  by_contra hcon
  rw [List.getElem?_eq_none (by omega)] at h
  simp at h

theorem scan_inv_init (cm : List coremap) (n : Nat) : scan_inv cm n 0 0 (-1) :=
  ⟨by omega, by omega, by omega, by intro k _ hk; omega, by intro _; rfl,
    by intro h; exact absurd rfl h, by intro q hq; omega⟩

theorem getppages_of_scan (s : vmstate) (n m i : Nat) (e : coremap)
    (hlive : s.isCoremapDone = true)
    (hscan : find_index_loop n s.frames 0 0 (-1) = (m, (i : Int)))
    (he : s.frames[i]? = some e) (hm : 1 ≤ m) (hfit : i + m ≤ s.frames.length) :
    ∃ cm', getppages n s = .ok (e.paddr, { s with frames := cm', num_pages := m }) ∧
      cm'.length = s.frames.length ∧ ∀ j, cm'[j]? = (s.frames[j]?).map (stamp i m j) := by
  obtain ⟨cm', h1, h2, h3⟩ :=
    mark_frames_spec true m (s.frames.set i { e with contiguous := m }) i (by simp; omega)
  refine ⟨cm', ?_, by simpa using h2, ?_⟩
  · have hne : ((i : Int) = -1) = False := by
      apply propext
      constructor
      · intro h; omega
      · intro h; exact h.elim
    simp only [getppages, find_index, hlive, hscan, if_true, hne, if_false, Int.toNat_ofNat, he,
      Nat.add_sub_cancel_left, h1]
  · intro j
    rw [h3 j, List.getElem?_set]
    have hi : i < s.frames.length := by omega
    by_cases hj : i = j
    · subst hj
      have c2 : i ≤ i ∧ i < i + m := by omega
      simp [c2, hi, he, stamp]
    · cases hx : s.frames[j]? with
      | none => simp [hj]
      | some x =>
        by_cases hr : i ≤ j ∧ j < i + m
        · have c1 : i < j ∧ j < i + m := by omega
          have hj' : ¬ j = i := by omega
          simp [hr, hj, hj', stamp, c1]
        · have c1 : ¬ (i < j ∧ j < i + m) := by omega
          have hj' : ¬ j = i := by omega
          simp [hr, hj, hj', stamp, c1]

theorem scan_result (cm : List coremap) (n : Nat) :
    ((find_index_loop n cm 0 0 (-1)).1 = 0 ∧ (find_index_loop n cm 0 0 (-1)).2 = -1 ∧
        (n = 0 ∨ ∀ q, ¬ run_free cm q n)) ∨
      ∃ i : Nat, (find_index_loop n cm 0 0 (-1)).2 = (i : Int) ∧
        1 ≤ (find_index_loop n cm 0 0 (-1)).1 ∧ (find_index_loop n cm 0 0 (-1)).1 ≤ n ∧
        i + (find_index_loop n cm 0 0 (-1)).1 ≤ cm.length ∧
        (∀ k < (find_index_loop n cm 0 0 (-1)).1, is_free cm (i + k)) ∧
        (∀ q < i, ¬ run_free cm q n) ∧
        ((find_index_loop n cm 0 0 (-1)).1 = n ∨
          i + (find_index_loop n cm 0 0 (-1)).1 = cm.length) := by
  obtain ⟨i', ⟨h1, h2, h3, h4, h5, h6, h7⟩, h8⟩ :=
    find_index_loop_inv cm n cm 0 0 (-1) (by simp) (scan_inv_init cm n)
  generalize (find_index_loop n cm 0 0 (-1)).1 = c at *
  generalize (find_index_loop n cm 0 0 (-1)).2 = index at *
  by_cases hc : c = 0
  · left
    refine ⟨hc, h5 hc, ?_⟩
    by_cases hn : n = 0
    · exact Or.inl hn
    · right
      intro q hrun
      have hq : q < cm.length := by
        have := is_free_lt (hrun 0 (by omega))
        simpa using this
      have hi' : i' = cm.length := by
        rcases h8 with h | h
        · omega
        · exact h
      exact h7 q (by omega) hrun
  · right
    refine ⟨i' - c, h6 hc, by omega, h3, by omega, ?_, h7, ?_⟩
    · intro k hk
      exact h4 (i' - c + k) (by omega) (by omega)
    · rcases h8 with h | h
      · exact Or.inl h
      · right; omega

/-- C1. First-fit acquire: with the directory live, if `i` is the least index such that
entries `i .. i + n - 1` are all free (`n >= 1`), then `getppages n` returns the `paddr`
of entry `i`; afterwards entry `i` carries run-length `n`, entries `i .. i + n - 1` are
in use, and every other entry and every `paddr` field is unchanged. -/
theorem getppages_first_fit (s : vmstate) (n i : Nat)
    (hlive : s.isCoremapDone = true) (hn : 1 ≤ n)
    (hfree : run_free s.frames i n) (hleast : ∀ j < i, ¬ run_free s.frames j n) :
    ∃ e s', s.frames[i]? = some e ∧ getppages n s = .ok (e.paddr, s') ∧
      s'.frames.length = s.frames.length ∧
      (∀ j : Nat, s'.frames[j]? = (s.frames[j]?).map (fun x =>
        if j = i then { x with is_used := true, contiguous := n }
        else if i < j ∧ j < i + n then { x with is_used := true }
        else x)) ∧
      ∀ j : Nat, (s'.frames[j]?).map coremap.paddr = (s.frames[j]?).map coremap.paddr := by
  have hilt : i < s.frames.length := by
    have := is_free_lt (hfree 0 (by omega))
    simpa using this
  have hfit : i + n ≤ s.frames.length := by
    have := is_free_lt (hfree (n - 1) (by omega))
    omega
  rcases scan_result s.frames n with ⟨_, _, h | h⟩ | ⟨i0, h1, h2, h3, h4, h5, h6, h7⟩
  · omega
  · exact absurd hfree (h i)
  · have hi0 : ¬ i < i0 := fun hlt => h6 i hlt hfree
    have hm : (find_index_loop n s.frames 0 0 (-1)).1 = n := by
      rcases h7 with h | h
      · exact h
      · omega
    rw [hm] at h4 h5
    have hi1 : ¬ i0 < i := fun hlt => hleast i0 hlt h5
    have hii : i0 = i := by omega
    subst hii
    have hscan : find_index_loop n s.frames 0 0 (-1) = (n, (i0 : Int)) :=
      Prod.ext hm h1
    obtain ⟨cm', g1, g2, g3⟩ :=
      getppages_of_scan s n n i0 s.frames[i0] hlive hscan
        (List.getElem?_eq_getElem hilt) hn hfit
    refine ⟨s.frames[i0], _, List.getElem?_eq_getElem hilt, g1, g2, ?_, ?_⟩
    · intro j
      rw [show ({ s with frames := cm', num_pages := n } : vmstate).frames = cm' from rfl, g3 j]
      rfl
    · intro j
      rw [show ({ s with frames := cm', num_pages := n } : vmstate).frames = cm' from rfl, g3 j]
      cases s.frames[j]? with
      | none => rfl
      | some x =>
        simp only [Option.map_some', stamp]
        split_ifs <;> rfl

/-- C1 witness: a five-frame directory whose frames 0 and 2 are in use; the least free
window of two frames starts at index 3. -/
theorem getppages_first_fit_witness :
    ∃ e s', [(⟨4096, true, 1⟩ : coremap), ⟨8192, false, 0⟩, ⟨12288, true, 1⟩,
        ⟨16384, false, 0⟩, ⟨20480, false, 0⟩][3]? = some e ∧
      getppages 2 ⟨[⟨4096, true, 1⟩, ⟨8192, false, 0⟩, ⟨12288, true, 1⟩, ⟨16384, false, 0⟩,
        ⟨20480, false, 0⟩], 0, true, 0, 0⟩ = .ok (e.paddr, s') ∧
      s'.frames.length = 5 ∧
      (∀ j : Nat, s'.frames[j]? = ([(⟨4096, true, 1⟩ : coremap), ⟨8192, false, 0⟩, ⟨12288, true, 1⟩,
        ⟨16384, false, 0⟩, ⟨20480, false, 0⟩][j]?).map (fun x =>
        if j = 3 then { x with is_used := true, contiguous := 2 }
        else if 3 < j ∧ j < 3 + 2 then { x with is_used := true }
        else x)) ∧
      ∀ j : Nat, (s'.frames[j]?).map coremap.paddr =
        ([(⟨4096, true, 1⟩ : coremap), ⟨8192, false, 0⟩, ⟨12288, true, 1⟩,
        ⟨16384, false, 0⟩, ⟨20480, false, 0⟩][j]?).map coremap.paddr :=
  getppages_first_fit ⟨[⟨4096, true, 1⟩, ⟨8192, false, 0⟩, ⟨12288, true, 1⟩, ⟨16384, false, 0⟩,
    ⟨20480, false, 0⟩], 0, true, 0, 0⟩ 2 3 rfl (by decide) (by decide) (by decide)

/-! ## Lemmas on release -/

theorem paddr_inj {cm : List coremap} (hnd : (cm.map coremap.paddr).Nodup) {a b : Nat}
    {x y : coremap} (hx : cm[a]? = some x) (hy : cm[b]? = some y) (hxy : x.paddr = y.paddr) :
    a = b := by
  have ha : a < cm.length := (List.getElem?_eq_some.mp hx).1
  have hb : b < cm.length := (List.getElem?_eq_some.mp hy).1
  have key := List.nodup_iff_getElem?_ne_getElem?.mp hnd
  have e1 : (cm.map coremap.paddr)[a]? = some x.paddr := by simp [hx]
  have e2 : (cm.map coremap.paddr)[b]? = some y.paddr := by simp [hy]
  rcases Nat.lt_trichotomy a b with h | h | h
  · exact absurd (by rw [e1, e2, hxy]) (key a b h (by simpa using hb))
  · exact h
  · exact absurd (by rw [e1, e2, hxy]) (key b a h (by simpa using ha))

theorem free_kpages_loop1_noop (addr : Nat) :
    ∀ cm : List coremap, (∀ x ∈ cm, x.paddr ≠ addr) → free_kpages_loop1 addr cm = cm := by
  intro cm
  induction cm with
  | nil => intro _; rfl
  | cons e rest ih =>
    intro h
    have he : e.paddr ≠ addr := h e (by simp)
    simp only [free_kpages_loop1, he, if_false]
    rw [ih (fun x hx => h x (by simp [hx]))]

theorem free_kpages_loop2_none (free_paddr : Nat) (cm : List coremap) :
    ∀ (rest : List coremap) (j : Nat), (∀ x ∈ rest, x.paddr ≠ free_paddr) →
      free_kpages_loop2 free_paddr cm rest j = .ok cm := by
  intro rest
  induction rest with
  | nil => intro j _; rfl
  | cons e rest ih =>
    intro j h
    have he : e.paddr ≠ free_paddr := h e (by simp)
    simp only [free_kpages_loop2, he, if_false]
    exact ih (j + 1) (fun x hx => h x (by simp [hx]))

theorem free_kpages_loop2_first (free_paddr : Nat) (cm : List coremap) (i : Nat) (e : coremap)
    (he : cm[i]? = some e) (hp : e.paddr = free_paddr) :
    ∀ (rest : List coremap) (j : Nat), cm.drop j = rest → j ≤ i →
      (∀ k, j ≤ k → k < i → ∀ x, cm[k]? = some x → x.paddr ≠ free_paddr) →
      free_kpages_loop2 free_paddr cm rest j =
        mark_frames false (cm.set i { e with contiguous := 0 }) i e.contiguous := by
  have hi : i < cm.length := (List.getElem?_eq_some.mp he).1
  intro rest
  induction rest with
  | nil =>
    intro j hd hj _
    have := List.drop_eq_nil_iff.mp hd
    omega
  | cons x rest ih =>
    intro j hd hj hfirst
    have hx : cm[j]? = some x := by
      have := List.getElem?_drop cm j 0
      rw [hd] at this
      simpa using this.symm
    have hrest : cm.drop (j + 1) = rest := by
      have := List.drop_drop 1 j cm
      rw [hd] at this
      simpa using this.symm
    by_cases hji : j = i
    · subst hji
      rw [he] at hx
      cases hx
      simp [free_kpages_loop2, hp]
    · have hne : x.paddr ≠ free_paddr := hfirst j (by omega) (by omega) x hx
      simp only [free_kpages_loop2, hne, if_false]
      exact ih (j + 1) hrest (by omega) (fun k hk1 hk2 => hfirst k (by omega) hk2)

theorem free_kpages_of_first (s : vmstate) (addr i : Nat) (e : coremap)
    (hnz : addr ≠ 0) (h1 : ∀ x ∈ s.frames, x.paddr ≠ addr)
    (he : s.frames[i]? = some e) (hp : e.paddr = (addr + 2 ^ 32 - MIPS_KSEG0) % 2 ^ 32)
    (hfirst : ∀ k < i, ∀ x, s.frames[k]? = some x → x.paddr ≠ e.paddr)
    (hk : 1 ≤ e.contiguous) (hfit : i + e.contiguous ≤ s.frames.length) :
    ∃ cm', free_kpages addr s = .ok { s with frames := cm' } ∧
      cm'.length = s.frames.length ∧
      ∀ j, cm'[j]? = (s.frames[j]?).map (unstamp i e.contiguous j) := by
  obtain ⟨cm', g1, g2, g3⟩ :=
    mark_frames_spec false e.contiguous (s.frames.set i { e with contiguous := 0 }) i
      (by simp; omega)
  refine ⟨cm', ?_, by simpa using g2, ?_⟩
  · have hl2 := free_kpages_loop2_first ((addr + 2 ^ 32 - MIPS_KSEG0) % 2 ^ 32) s.frames i e he hp
      s.frames 0 (by simp) (by omega)
      (fun k _ hk2 x hx => by rw [← hp]; exact hfirst k hk2 x hx)
    have hcond : (s.isCoremapDone && addr == 0) = false := by simp [hnz]
    simp only [free_kpages, hcond, Bool.false_eq_true, if_false,
      free_kpages_loop1_noop addr s.frames h1, hl2, g1]
  · intro j
    rw [g3 j, List.getElem?_set]
    have hi : i < s.frames.length := by omega
    by_cases hj : i = j
    · subst hj
      have c2 : i ≤ i ∧ i < i + e.contiguous := by omega
      simp [c2, hi, he, unstamp]
    · cases hx : s.frames[j]? with
      | none => simp [hj]
      | some x =>
        have hj' : ¬ j = i := by omega
        by_cases hr : i ≤ j ∧ j < i + e.contiguous
        · have c1 : i < j ∧ j < i + e.contiguous := by omega
          simp [hr, hj, hj', unstamp, c1]
        · have c1 : ¬ (i < j ∧ j < i + e.contiguous) := by omega
          simp [hr, hj, hj', unstamp, c1]

/-- C4. Whole-run release: when the frame `paddr`s are distinct and below `MIPS_KSEG0`
and entry `i` starts an allocated run of `k >= 1` frames, `free_kpages` on the kernel
address of entry `i` clears entry `i`'s run-length, marks exactly entries
`i .. i + k - 1` free and leaves every other entry (and every other field) unchanged. -/
theorem free_kpages_whole_run (s : vmstate) (i k : Nat) (e : coremap)
    (hnd : (s.frames.map coremap.paddr).Nodup)
    (hlow : ∀ x ∈ s.frames, x.paddr < MIPS_KSEG0)
    (he : s.frames[i]? = some e) (hrun : allocated_run s.frames i k) :
    ∃ s', free_kpages (PADDR_TO_KVADDR e.paddr) s = .ok s' ∧
      s'.frames.length = s.frames.length ∧
      ∀ j : Nat, s'.frames[j]? = (s.frames[j]?).map (fun x =>
        if j = i then { x with is_used := false, contiguous := 0 }
        else if i < j ∧ j < i + k then { x with is_used := false }
        else x) := by
  obtain ⟨hk, hc, hused⟩ := hrun
  have hek : e.contiguous = k := by simpa [he] using hc
  have hilt : i < s.frames.length := (List.getElem?_eq_some.mp he).1
  have hfit : i + k ≤ s.frames.length := by
    have := hused (k - 1) (by omega)
    have hlt : i + (k - 1) < s.frames.length := by
      by_contra hcon
      rw [List.getElem?_eq_none (by omega)] at this
      simp at this
    omega
  have hmem : e ∈ s.frames := List.getElem?_mem he
  have hel : e.paddr < MIPS_KSEG0 := hlow e hmem
  have hkv : PADDR_TO_KVADDR e.paddr = e.paddr + MIPS_KSEG0 := by
    unfold PADDR_TO_KVADDR MIPS_KSEG0 at *
    omega
  obtain ⟨cm', g1, g2, g3⟩ := free_kpages_of_first s (PADDR_TO_KVADDR e.paddr) i e
    (by rw [hkv]; unfold MIPS_KSEG0; omega)
    (fun x hx => by have := hlow x hx; rw [hkv]; omega) he
    (by rw [hkv]; unfold MIPS_KSEG0 at *; omega)
    (fun a ha x hx hxe => by have := paddr_inj hnd hx he hxe; omega)
    (by omega) (by omega)
  refine ⟨_, g1, g2, ?_⟩
  intro j
  rw [show ({ s with frames := cm' } : vmstate).frames = cm' from rfl, g3 j, hek]
  rfl

/-- C4 witness: a three-frame directory whose frames 1 and 2 form one allocated run. -/
theorem free_kpages_whole_run_witness :
    ∃ s', free_kpages (PADDR_TO_KVADDR 8192)
        ⟨[⟨4096, false, 0⟩, ⟨8192, true, 2⟩, ⟨12288, true, 0⟩], 0, true, 0, 0⟩ = .ok s' ∧
      s'.frames.length = 3 ∧
      ∀ j : Nat, s'.frames[j]? =
        ([(⟨4096, false, 0⟩ : coremap), ⟨8192, true, 2⟩, ⟨12288, true, 0⟩][j]?).map (fun x =>
          if j = 1 then { x with is_used := false, contiguous := 0 }
          else if 1 < j ∧ j < 1 + 2 then { x with is_used := false }
          else x) :=
  free_kpages_whole_run ⟨[⟨4096, false, 0⟩, ⟨8192, true, 2⟩, ⟨12288, true, 0⟩], 0, true, 0, 0⟩
    1 2 ⟨8192, true, 2⟩ (by decide) (by decide) rfl (by decide)

theorem set_same {cm : List coremap} {j : Nat} {x : coremap} (hx : cm[j]? = some x) :
    cm.set j x = cm := by
  apply List.ext_getElem?
  intro n
  rw [List.getElem?_set]
  by_cases h : j = n
  · subst h
    have : j < cm.length := (List.getElem?_eq_some.mp hx).1
    simp [this, hx]
  · simp [h]

theorem free_kpages_loop2_noop (free_paddr : Nat) (cm : List coremap) :
    ∀ (rest : List coremap) (j : Nat), cm.drop j = rest →
      (∀ x ∈ rest, x.paddr = free_paddr → x.contiguous = 0) →
      free_kpages_loop2 free_paddr cm rest j = .ok cm := by
  intro rest
  induction rest with
  | nil => intro j _ _; rfl
  | cons x rest ih =>
    intro j hd h
    have hx : cm[j]? = some x := by
      have := List.getElem?_drop cm j 0
      rw [hd] at this
      simpa using this.symm
    have hrest : cm.drop (j + 1) = rest := by
      have := List.drop_drop 1 j cm
      rw [hd] at this
      simpa using this.symm
    by_cases hp : x.paddr = free_paddr
    · have h0 : x.contiguous = 0 := h x (by simp) hp
      have hxx : ({ x with contiguous := 0 } : coremap) = x := by
        cases x
        simp_all
      have hset : cm.set j { x with contiguous := 0 } = cm := by rw [hxx]; exact set_same hx
      simp only [free_kpages_loop2, if_pos hp, h0, mark_frames, hset]
    · simp only [free_kpages_loop2, hp, if_false]
      exact ih (j + 1) hrest (fun y hy => h y (by simp [hy]))

/-- C5 (code defect). In a directory whose two frames form one allocated run, the raw
physical address 8192 of the run's second frame designates no first frame of a run
(neither as a physical nor as a kernel address), yet `free_kpages` marks that frame free:
its first scan, which compares each `paddr` with the untranslated argument, frees part of
the run. The second scan treats the same middle frame, named by its kernel address, as the
claim says: the directory is left as it is. -/
theorem free_kpages_raw_address_frees_frame :
    (∀ (i k : Nat) (e : coremap),
        [(⟨4096, true, 2⟩ : coremap), ⟨8192, true, 0⟩][i]? = some e →
        allocated_run [⟨4096, true, 2⟩, ⟨8192, true, 0⟩] i k →
        e.paddr ≠ 8192 ∧ PADDR_TO_KVADDR e.paddr ≠ 8192) ∧
      free_kpages 8192 ⟨[⟨4096, true, 2⟩, ⟨8192, true, 0⟩], 0, true, 0, 0⟩ =
        .ok ⟨[⟨4096, true, 2⟩, ⟨8192, false, 0⟩], 0, true, 0, 0⟩ ∧
      free_kpages (PADDR_TO_KVADDR 8192)
          ⟨[⟨4096, true, 2⟩, ⟨8192, true, 0⟩], 0, true, 0, 0⟩ =
        .ok ⟨[⟨4096, true, 2⟩, ⟨8192, true, 0⟩], 0, true, 0, 0⟩ := by
  refine ⟨?_, by decide, by decide⟩
  intro i k e he hrun
  obtain ⟨hk, hc, _⟩ := hrun
  rw [he] at hc
  match i, he with
  | 0, he =>
    cases he
    decide
  | 1, he =>
    cases he
    simp at hc
    omega
  | i + 2, he => simp at he

/-- When no scan of `free_kpages` finds work, the directory is left as it is: the argument
is the `paddr` of no entry, and every entry whose `paddr` is the argument minus
`MIPS_KSEG0` carries run-length 0. -/
theorem free_kpages_noop (s : vmstate) (addr : Nat)
    (hraw : ∀ x ∈ s.frames, x.paddr ≠ addr)
    (hzero : ∀ x ∈ s.frames, x.paddr = (addr + 2 ^ 32 - MIPS_KSEG0) % 2 ^ 32 →
      x.contiguous = 0) :
    free_kpages addr s = .ok s := by
  unfold free_kpages
  split
  · rfl
  · simp only [free_kpages_loop1_noop addr s.frames hraw,
      free_kpages_loop2_noop _ s.frames s.frames 0 (by simp) hzero]

/-! ## Acquire when no window fits -/

/-- C2 (code defect). A live three-frame directory with frame 0 in use has no window of
three free frames, yet `getppages 3` returns the `paddr` of frame 1: the scan ends inside
the trailing free run of two frames, and that shorter run is stamped (run-length 2) and
handed out. -/
theorem getppages_hands_out_short_run :
    (∀ q, ¬ run_free [⟨4096, true, 1⟩, ⟨8192, false, 0⟩, ⟨12288, false, 0⟩] q 3) ∧
      getppages 3 ⟨[⟨4096, true, 1⟩, ⟨8192, false, 0⟩, ⟨12288, false, 0⟩], 0, true, 0, 0⟩ =
        .ok (8192, ⟨[⟨4096, true, 1⟩, ⟨8192, true, 2⟩, ⟨12288, true, 0⟩], 2, true, 0, 0⟩) := by
  refine ⟨?_, by decide⟩
  intro q hrun
  have hq : q + 2 < 3 := by
    have := is_free_lt (hrun 2 (by omega))
    simpa using this
  have hq0 : q = 0 := by omega
  subst hq0
  revert hrun
  decide

/-- C3 (code defect). On the directory bootstrapped from the RAM range
`[0x10000, 0x15000)` (five frames at `0x11000 .. 0x15000`), two successive `getppages 3`
calls both return a base; the second returns `0x14000` but stamps a run of only two
frames, so the third page of the range handed out, at `0x16000`, is no directory frame. -/
theorem getppages_range_leaves_directory :
    getppages 3 (vm_bootstrap ⟨[], 0, false, 0x10000, 0x15000⟩) =
        .ok (0x11000, ⟨[⟨0x11000, true, 3⟩, ⟨0x12000, true, 0⟩, ⟨0x13000, true, 0⟩,
          ⟨0x14000, false, 0⟩, ⟨0x15000, false, 0⟩], 3, true, 0x10000, 0x15000⟩) ∧
      getppages 3 ⟨[⟨0x11000, true, 3⟩, ⟨0x12000, true, 0⟩, ⟨0x13000, true, 0⟩,
          ⟨0x14000, false, 0⟩, ⟨0x15000, false, 0⟩], 3, true, 0x10000, 0x15000⟩ =
        .ok (0x14000, ⟨[⟨0x11000, true, 3⟩, ⟨0x12000, true, 0⟩, ⟨0x13000, true, 0⟩,
          ⟨0x14000, true, 2⟩, ⟨0x15000, true, 0⟩], 2, true, 0x10000, 0x15000⟩) ∧
      ∀ x ∈ [(⟨0x11000, true, 3⟩ : coremap), ⟨0x12000, true, 0⟩, ⟨0x13000, true, 0⟩,
          ⟨0x14000, true, 2⟩, ⟨0x15000, true, 0⟩], x.paddr ≠ 0x14000 + 2 * PAGE_SIZE := by
  refine ⟨by decide, by decide, by decide⟩

/-! ## Acquire followed by release -/

theorem getppages_panic_of_scan (s : vmstate) (n : Nat) (hlive : s.isCoremapDone = true)
    (hscan : (find_index_loop n s.frames 0 0 (-1)).2 = -1) :
    getppages n s = .error .panic := by
  simp [getppages, find_index, hlive, hscan]

theorem getppages_panics_without_trailing_run (s : vmstate) (n : Nat)
    (hlive : s.isCoremapDone = true) (hnone : ∀ q, ¬ run_free s.frames q n)
    (hlast : ¬ is_free s.frames (s.frames.length - 1)) :
    getppages n s = .error .panic := by
  rcases scan_result s.frames n with ⟨_, h, _⟩ | ⟨i0, h1, h2, h3, h4, h5, h6, h7⟩
  · exact getppages_panic_of_scan s n hlive h
  · exfalso
    rcases h7 with h | h
    · rw [h] at h5
      exact hnone i0 h5
    · have := h5 ((find_index_loop n s.frames 0 0 (-1)).1 - 1) (by omega)
      have he : i0 + ((find_index_loop n s.frames 0 0 (-1)).1 - 1) = s.frames.length - 1 := by
        omega
      rw [he] at this
      exact hlast this

theorem stamp_paddr (i m j : Nat) (x : coremap) : (stamp i m j x).paddr = x.paddr := by
  unfold stamp
  split_ifs <;> rfl

theorem unstamp_stamp (i m j : Nat) (x : coremap) (hm : 1 ≤ m)
    (h : i ≤ j ∧ j < i + m → x.is_used = false ∧ x.contiguous = 0) :
    unstamp i m j (stamp i m j x) = x := by
  unfold stamp unstamp
  cases x with
  | mk p u c =>
    by_cases h1 : j = i
    · have := h (by omega)
      simp_all
    · by_cases h2 : i < j ∧ j < i + m
      · have := h (by omega)
        simp_all
      · simp [h1, h2]

/-- The round trip on a live directory whose free entries carry run-length 0 and whose
frame `paddr`s are distinct and below `MIPS_KSEG0`. -/
theorem alloc_free_round_trip_of_distinct (s s1 : vmstate) (n : Int) (v : Nat)
    (hlive : s.isCoremapDone = true)
    (hinv : ∀ x ∈ s.frames, x.is_used = false → x.contiguous = 0)
    (hnd : (s.frames.map coremap.paddr).Nodup)
    (hlow : ∀ x ∈ s.frames, x.paddr < MIPS_KSEG0)
    (halloc : alloc_kpages n s = .ok (v, s1)) (hv : v ≠ 0) :
    ∃ s2, free_kpages v s1 = .ok s2 ∧ s2.frames = s.frames ∧
      ∃ s3, alloc_kpages n s2 = .ok (v, s3) := by
  unfold alloc_kpages at halloc
  have hgoal : ∀ s2, alloc_kpages n s2 =
      match getppages (n % 2 ^ 32).toNat s2 with
      | .error f => .error f
      | .ok (pa, s1) => if pa = 0 then .ok (0, s1) else .ok (PADDR_TO_KVADDR pa, s1) :=
    fun _ => rfl
  generalize (n % 2 ^ 32).toNat = n' at halloc hgoal
  have hsr := scan_result s.frames n'
  rcases hscan : find_index_loop n' s.frames 0 0 (-1) with ⟨m, index⟩
  rw [hscan] at hsr
  simp only at hsr
  rcases hsr with ⟨_, h, _⟩ | ⟨i0, h1, h2, h3, h4, h5, h6, h7⟩
  · have := getppages_panic_of_scan s n' hlive (by rw [hscan]; exact h)
    rw [this] at halloc
    cases halloc
  · subst h1
    have hilt : i0 < s.frames.length := by omega
    obtain ⟨e, he⟩ : ∃ e, s.frames[i0]? = some e := ⟨_, List.getElem?_eq_getElem hilt⟩
    obtain ⟨cm', g1, g2, g3⟩ := getppages_of_scan s n' m i0 e hlive hscan he h2 h4
    have hel : e.paddr < MIPS_KSEG0 := hlow e (List.getElem?_mem he)
    have hkv : PADDR_TO_KVADDR e.paddr = e.paddr + MIPS_KSEG0 := by
      unfold PADDR_TO_KVADDR MIPS_KSEG0 at *
      omega
    rw [g1] at halloc
    by_cases hpa : e.paddr = 0
    · simp [hpa] at halloc
      exact absurd halloc.1.symm hv
    · simp only [hpa, if_false, Except.ok.injEq, Prod.mk.injEq] at halloc
      obtain ⟨hv1, hs1⟩ := halloc
      subst hs1
      have hcm'mem : ∀ x ∈ cm', ∃ y ∈ s.frames, x.paddr = y.paddr := by
        intro x hx
        obtain ⟨j, hj⟩ := List.mem_iff_getElem?.mp hx
        rw [g3 j] at hj
        cases hy : s.frames[j]? with
        | none => simp [hy] at hj
        | some y =>
          simp only [hy, Option.map_some', Option.some.injEq] at hj
          exact ⟨y, List.getElem?_mem hy, by rw [← hj, stamp_paddr]⟩
      have he1 : cm'[i0]? = some (stamp i0 m i0 e) := by rw [g3 i0, he]; rfl
      have hc1 : (stamp i0 m i0 e).contiguous = m := by simp [stamp]
      obtain ⟨cm2, f1, f2, f3⟩ := free_kpages_of_first
        ({ s with frames := cm', num_pages := m }) v i0 (stamp i0 m i0 e) hv
        (fun x hx => by
          obtain ⟨y, hy, hxy⟩ := hcm'mem x hx
          have := hlow y hy
          show x.paddr ≠ v
          rw [← hv1, hkv]; omega)
        he1
        (by rw [stamp_paddr, ← hv1, hkv]; unfold MIPS_KSEG0 at *; omega)
        (fun k hk x hx hxe => by
          have hx' : cm'[k]? = some x := hx
          rw [g3 k] at hx'
          cases hy : s.frames[k]? with
          | none => simp [hy] at hx'
          | some y =>
            simp only [hy, Option.map_some', Option.some.injEq] at hx'
            have hp : y.paddr = e.paddr := by
              rw [← stamp_paddr i0 m k y, hx', hxe, stamp_paddr]
            have := paddr_inj hnd hy he hp
            omega)
        (by rw [hc1]; exact h2)
        (by rw [hc1]; show i0 + m ≤ cm'.length; omega)
      have hrestore : cm2 = s.frames := by
        apply List.ext_getElem?
        intro j
        rw [f3 j, hc1]
        show Option.map (unstamp i0 m j) cm'[j]? = s.frames[j]?
        rw [g3 j]
        cases hy : s.frames[j]? with
        | none => rfl
        | some y =>
          simp only [Option.map_some']
          rw [unstamp_stamp i0 m j y h2]
          intro hj
          have hfree := h5 (j - i0) (by omega)
          have hji : i0 + (j - i0) = j := by omega
          rw [hji] at hfree
          have hu : y.is_used = false := by simpa [is_free, hy] using hfree
          exact ⟨hu, hinv y (List.getElem?_mem hy) hu⟩
      refine ⟨{ s with frames := cm2, num_pages := m }, f1, hrestore, ?_⟩
      subst hrestore
      obtain ⟨cm3, k1, _, _⟩ := getppages_of_scan
        ({ s with frames := s.frames, num_pages := m }) n' m i0 e hlive hscan he h2 h4
      refine ⟨{ s with frames := cm3, num_pages := m }, ?_⟩
      rw [hgoal, k1]
      simp only [hpa, if_false, hv1]

theorem vm_bootstrap_loop_length : ∀ (count a : Nat), (vm_bootstrap_loop count a).length = count := by
  intro count
  induction count with
  | zero => intro a; rfl
  | succ k ih => intro a; simp [vm_bootstrap_loop, ih]

theorem scenario5 (a np f l : Nat) (ha2 : a < MIPS_KSEG0) :
    getppages 3 ⟨vm_bootstrap_loop 5 a, np, true, f, l⟩ =
        .ok (a, ⟨[⟨a, true, 3⟩, ⟨a + 4096, true, 0⟩, ⟨a + 8192, true, 0⟩,
          ⟨a + 12288, false, 0⟩, ⟨a + 16384, false, 0⟩], 3, true, f, l⟩) ∧
      getppages 2 ⟨[⟨a, true, 3⟩, ⟨a + 4096, true, 0⟩, ⟨a + 8192, true, 0⟩,
          ⟨a + 12288, false, 0⟩, ⟨a + 16384, false, 0⟩], 3, true, f, l⟩ =
        .ok (a + 12288, ⟨[⟨a, true, 3⟩, ⟨a + 4096, true, 0⟩, ⟨a + 8192, true, 0⟩,
          ⟨a + 12288, true, 2⟩, ⟨a + 16384, true, 0⟩], 2, true, f, l⟩) ∧
      free_kpages (PADDR_TO_KVADDR a) ⟨[⟨a, true, 3⟩, ⟨a + 4096, true, 0⟩, ⟨a + 8192, true, 0⟩,
          ⟨a + 12288, true, 2⟩, ⟨a + 16384, true, 0⟩], 2, true, f, l⟩ =
        .ok ⟨[⟨a, false, 0⟩, ⟨a + 4096, false, 0⟩, ⟨a + 8192, false, 0⟩,
          ⟨a + 12288, true, 2⟩, ⟨a + 16384, true, 0⟩], 2, true, f, l⟩ ∧
      getppages 3 ⟨[⟨a, false, 0⟩, ⟨a + 4096, false, 0⟩, ⟨a + 8192, false, 0⟩,
          ⟨a + 12288, true, 2⟩, ⟨a + 16384, true, 0⟩], 2, true, f, l⟩ =
        .ok (a, ⟨[⟨a, true, 3⟩, ⟨a + 4096, true, 0⟩, ⟨a + 8192, true, 0⟩,
          ⟨a + 12288, true, 2⟩, ⟨a + 16384, true, 0⟩], 3, true, f, l⟩) := by
  have hl : vm_bootstrap_loop 5 a = [⟨a, false, 0⟩, ⟨a + 4096, false, 0⟩, ⟨a + 8192, false, 0⟩,
      ⟨a + 12288, false, 0⟩, ⟨a + 16384, false, 0⟩] := by
    unfold MIPS_KSEG0 at ha2
    have e1 : (a + 4096) % 4294967296 = a + 4096 := by omega
    have e2 : (a + 4096 + 4096) % 4294967296 = a + 8192 := by omega
    have e3 : (a + 8192 + 4096) % 4294967296 = a + 12288 := by omega
    have e4 : (a + 12288 + 4096) % 4294967296 = a + 16384 := by omega
    simp [vm_bootstrap_loop, PAGE_SIZE, e1, e2, e3, e4]
  rw [hl]
  refine ⟨rfl, rfl, ?_, rfl⟩
  have hkv : PADDR_TO_KVADDR a = a + 2147483648 := by
    unfold PADDR_TO_KVADDR MIPS_KSEG0 at *
    omega
  have hfp : (a + 2147483648 + 4294967296 - MIPS_KSEG0) % 4294967296 = a := by
    unfold MIPS_KSEG0 at *
    omega
  rw [hkv]
  simp [free_kpages, free_kpages_loop1, free_kpages_loop2, hfp, mark_frames]


/-- C7. Five-frame scenario: on the directory bootstrapped from a RAM range below
`MIPS_KSEG0` that yields exactly five frames, `acquire 3; acquire 2; release b1; acquire 3`
succeeds at every step with `b1` the `paddr` of frame 0, `b2` the `paddr` of frame 3 and
`b3 = b1`; afterwards all five frames are in use, with run-length 3 at frame 0 and 2 at
frame 3. -/
theorem five_frame_scenario (s : vmstate)
    (hrange : s.firstpaddr ≤ s.lastpaddr) (hram : s.lastpaddr ≤ MIPS_KSEG0)
    (h5 : numofFrames (vm_bootstrap s) = 5) :
    ∃ p0 p1 p2 p3 p4 s1 s2 s3 s4,
      (vm_bootstrap s).frames = [⟨p0, false, 0⟩, ⟨p1, false, 0⟩, ⟨p2, false, 0⟩,
        ⟨p3, false, 0⟩, ⟨p4, false, 0⟩] ∧
      getppages 3 (vm_bootstrap s) = .ok (p0, s1) ∧
      getppages 2 s1 = .ok (p3, s2) ∧
      free_kpages (PADDR_TO_KVADDR p0) s2 = .ok s3 ∧
      getppages 3 s3 = .ok (p0, s4) ∧
      p0 ≠ 0 ∧ p3 ≠ 0 ∧
      s4.frames = [⟨p0, true, 3⟩, ⟨p1, true, 0⟩, ⟨p2, true, 0⟩, ⟨p3, true, 2⟩,
        ⟨p4, true, 0⟩] := by
  have hc : (s.lastpaddr + 2 ^ 32 - s.firstpaddr) % 2 ^ 32 / PAGE_SIZE = 5 := by
    simpa [numofFrames, vm_bootstrap, ram_getsize, vm_bootstrap_loop_length] using h5
  obtain ⟨a, ha⟩ : ∃ a, a = ROUNDUP ((5 * sizeof_coremap + s.firstpaddr) % 2 ^ 32) PAGE_SIZE :=
    ⟨_, rfl⟩
  have hb : vm_bootstrap s = ⟨vm_bootstrap_loop 5 a, s.num_pages, true, s.firstpaddr,
      s.lastpaddr⟩ := by
    simp only [vm_bootstrap, ram_getsize, hc, ha]
  have hbounds : a ≠ 0 ∧ a < MIPS_KSEG0 := by
    unfold ROUNDUP sizeof_coremap PAGE_SIZE at ha
    unfold MIPS_KSEG0 at *
    unfold PAGE_SIZE at hc
    omega
  obtain ⟨k1, k2, k3, k4⟩ := scenario5 a s.num_pages s.firstpaddr s.lastpaddr hbounds.2
  have hl : vm_bootstrap_loop 5 a = [⟨a, false, 0⟩, ⟨a + 4096, false, 0⟩,
      ⟨a + 8192, false, 0⟩, ⟨a + 12288, false, 0⟩, ⟨a + 16384, false, 0⟩] := by
    have := hbounds.2
    unfold MIPS_KSEG0 at this
    have e1 : (a + 4096) % 4294967296 = a + 4096 := by omega
    have e2 : (a + 4096 + 4096) % 4294967296 = a + 8192 := by omega
    have e3 : (a + 8192 + 4096) % 4294967296 = a + 12288 := by omega
    have e4 : (a + 12288 + 4096) % 4294967296 = a + 16384 := by omega
    simp [vm_bootstrap_loop, PAGE_SIZE, e1, e2, e3, e4]
  refine ⟨a, a + 4096, a + 8192, a + 12288, a + 16384, _, _, _, _, ?_, ?_, k2, k3, k4,
    hbounds.1, by omega, rfl⟩
  · rw [hb, hl]
  · rw [hb]; exact k1

/-- C7 witness: the RAM range `[0x10000, 0x15000)`. -/
theorem five_frame_scenario_witness :
    ∃ p0 p1 p2 p3 p4 s1 s2 s3 s4,
      (vm_bootstrap ⟨[], 0, false, 0x10000, 0x15000⟩).frames = [⟨p0, false, 0⟩,
        ⟨p1, false, 0⟩, ⟨p2, false, 0⟩, ⟨p3, false, 0⟩, ⟨p4, false, 0⟩] ∧
      getppages 3 (vm_bootstrap ⟨[], 0, false, 0x10000, 0x15000⟩) = .ok (p0, s1) ∧
      getppages 2 s1 = .ok (p3, s2) ∧
      free_kpages (PADDR_TO_KVADDR p0) s2 = .ok s3 ∧
      getppages 3 s3 = .ok (p0, s4) ∧
      p0 ≠ 0 ∧ p3 ≠ 0 ∧
      s4.frames = [⟨p0, true, 3⟩, ⟨p1, true, 0⟩, ⟨p2, true, 0⟩, ⟨p3, true, 2⟩,
        ⟨p4, true, 0⟩] :=
  five_frame_scenario ⟨[], 0, false, 0x10000, 0x15000⟩ (by decide) (by decide) (by decide)

/-! ## Bit-level facts -/

theorem and_PAGE_FRAME (x : Nat) : x &&& PAGE_FRAME = 2 ^ 12 * (x % 2 ^ 32 / 2 ^ 12) := by
  have hpf : PAGE_FRAME = 2 ^ 12 * (2 ^ 20 - 1) := by decide
  apply Nat.eq_of_testBit_eq
  intro j
  rw [Nat.testBit_and, hpf, Nat.testBit_mul_pow_two, Nat.testBit_mul_pow_two,
    Nat.testBit_two_pow_sub_one, ← Nat.shiftRight_eq_div_pow, Nat.testBit_shiftRight,
    Nat.testBit_mod_two_pow]
  by_cases hj : j ≥ 12
  · have : 12 + (j - 12) = j := by omega
    rw [this]
    by_cases h2 : j < 32
    · have h3 : j - 12 < 20 := by omega
      simp [hj, h2, h3]
    · have h3 : ¬ j - 12 < 20 := by omega
      simp [hj, h2, h3]
  · simp [hj]

theorem aligned_iff (x : Nat) : aligned x ↔ x < 4294967296 ∧ x % 4096 = 0 := by
  unfold aligned
  rw [and_PAGE_FRAME]
  norm_num
  omega

theorem aligned_mask (x : Nat) : aligned (x &&& PAGE_FRAME) := by
  unfold aligned
  rw [Nat.and_assoc, Nat.and_self]

theorem and_two_pow_eq (x k : Nat) : x &&& 2 ^ k = if x.testBit k then 2 ^ k else 0 := by
  apply Nat.eq_of_testBit_eq
  intro j
  rw [Nat.testBit_and, Nat.testBit_two_pow]
  by_cases h : k = j
  · subst h
    cases hx : x.testBit k <;> simp [Nat.testBit_two_pow_self]
  · cases hx : x.testBit k <;> simp [h, Nat.testBit_two_pow_of_ne h]

theorem vm_fault_elo_ppage («as» : addrspace) (a paddr : Nat) (hp : aligned paddr) :
    vm_fault_elo «as» a paddr &&& TLBLO_PPAGE = paddr := by
  have h1 : (paddr ||| TLBLO_DIRTY ||| TLBLO_VALID) &&& TLBLO_PPAGE = paddr := by
    rw [Nat.and_comm, Nat.and_or_distrib_left, Nat.and_or_distrib_left]
    have e1 : TLBLO_PPAGE &&& TLBLO_DIRTY = 0 := by decide
    have e2 : TLBLO_PPAGE &&& TLBLO_VALID = 0 := by decide
    rw [e1, e2, Nat.or_zero, Nat.or_zero, Nat.and_comm]
    exact hp
  unfold vm_fault_elo
  simp only
  split
  · have e3 : (2 ^ 32 - 1 - TLBLO_DIRTY) &&& TLBLO_PPAGE = TLBLO_PPAGE := by decide
    rw [Nat.and_assoc, e3, h1]
  · exact h1

theorem vm_fault_elo_valid («as» : addrspace) (a paddr : Nat) :
    vm_fault_elo «as» a paddr &&& TLBLO_VALID = TLBLO_VALID := by
  have hv : TLBLO_VALID = 2 ^ 9 := by decide
  have hb : Nat.testBit TLBLO_VALID 9 = true := by decide
  have hm : Nat.testBit (2 ^ 32 - 1 - TLBLO_DIRTY) 9 = true := by decide
  have key : (vm_fault_elo «as» a paddr).testBit 9 = true := by
    unfold vm_fault_elo
    simp only
    split
    · rw [Nat.testBit_and, Nat.testBit_or, hb, hm]; simp
    · rw [Nat.testBit_or, hb]; simp
  have := and_two_pow_eq (vm_fault_elo «as» a paddr) 9
  rw [key] at this
  rw [hv]
  simpa using this

theorem vm_fault_elo_dirty («as» : addrspace) (a paddr : Nat) :
    vm_fault_elo «as» a paddr &&& TLBLO_DIRTY = 0 ↔
      ((a ≥ «as».as_vbase1 ∧ a < vtop1 «as») ∧ «as».elf_loaded = true) := by
  have hv : TLBLO_DIRTY = 2 ^ 10 := by decide
  have hb : Nat.testBit TLBLO_DIRTY 10 = true := by decide
  have hm : Nat.testBit (2 ^ 32 - 1 - TLBLO_DIRTY) 10 = false := by decide
  have h := and_two_pow_eq (vm_fault_elo «as» a paddr) 10
  rw [← hv] at h
  rw [h]
  unfold vm_fault_elo
  simp only
  by_cases hc : (a ≥ «as».as_vbase1 ∧ a < vtop1 «as») ∧ «as».elf_loaded = true
  · have hc' : (decide (a ≥ «as».as_vbase1 ∧ a < vtop1 «as») && «as».elf_loaded) = true := by
      simp [hc.1, hc.2]
    rw [if_pos hc', Nat.testBit_and, hm]
    simp [hc]
  · have hc' : ¬ (decide (a ≥ «as».as_vbase1 ∧ a < vtop1 «as») && «as».elf_loaded) = true := by
      simpa using hc
    rw [if_neg hc', Nat.testBit_or, Nat.testBit_or, hb]
    simp only [Bool.or_true, Bool.true_or, if_true]
    constructor
    · intro h0
      rw [hv] at h0
      norm_num at h0
    · intro h1; exact absurd h1 hc

/-! ## vm_fault -/

theorem vm_fault_scan_bound (tlb : List tlbentry) :
    ∀ (count i k : Nat), vm_fault_scan tlb i count = some k → i ≤ k ∧ k < i + count := by
  intro count
  induction count with
  | zero => intro i k h; simp [vm_fault_scan] at h
  | succ n ih =>
    intro i k h
    unfold vm_fault_scan at h
    split at h
    · have := ih (i + 1) k h
      omega
    · cases h
      omega

theorem install_slot_lt (tlb : List tlbentry) (victim : Fin NUM_TLB) :
    install_slot tlb victim < NUM_TLB := by
  unfold install_slot
  split
  · rename_i i h
    have := vm_fault_scan_bound tlb NUM_TLB 0 i h
    omega
  · exact victim.isLt

theorem vm_fault_mask (faulttype : Int) (faultaddress : Nat) (curproc : Option proc)
    (victim : Fin NUM_TLB) (tlb : List tlbentry) :
    vm_fault faulttype (faultaddress &&& PAGE_FRAME) curproc victim tlb =
      vm_fault faulttype faultaddress curproc victim tlb := by
  unfold vm_fault
  rw [Nat.and_assoc, Nat.and_self]

theorem vm_fault_resolved («as» : addrspace) (faulttype : Int) (faultaddress paddr : Nat)
    (victim : Fin NUM_TLB) (tlb : List tlbentry)
    (hft : faulttype = VM_FAULT_READ ∨ faulttype = VM_FAULT_WRITE)
    (hassert : vm_fault_asserts «as» = true)
    (hp : vm_fault_paddr «as» (faultaddress &&& PAGE_FRAME) = some paddr)
    (hal : aligned paddr) :
    vm_fault faulttype faultaddress (some ⟨some «as»⟩) victim tlb =
      .ok (.zero, tlb.set (install_slot tlb victim)
        ⟨faultaddress &&& PAGE_FRAME, vm_fault_elo «as» (faultaddress &&& PAGE_FRAME) paddr⟩) := by
  have hro : faulttype ≠ VM_FAULT_READONLY := by
    rcases hft with h | h <;> (rw [h]; decide)
  unfold aligned at hal
  unfold vm_fault install_slot
  simp only [hro, if_false, hft, if_true, curproc_getas, hassert, Bool.not_true,
    Bool.false_eq_true, hp, hal, ne_eq, not_true_eq_false, tlb_write, tlb_random]
  split <;> rfl

theorem vm_fault_zero_inv («as» : addrspace) (faulttype : Int) (faultaddress : Nat)
    (victim : Fin NUM_TLB) (tlb tlb' : List tlbentry)
    (hok : vm_fault faulttype faultaddress (some ⟨some «as»⟩) victim tlb = .ok (.zero, tlb')) :
    ∃ paddr, vm_fault_paddr «as» (faultaddress &&& PAGE_FRAME) = some paddr ∧ aligned paddr ∧
      tlb' = tlb.set (install_slot tlb victim)
        ⟨faultaddress &&& PAGE_FRAME, vm_fault_elo «as» (faultaddress &&& PAGE_FRAME) paddr⟩ := by
  unfold vm_fault at hok
  simp only [curproc_getas] at hok
  split at hok
  · cases hok
  · split at hok
    · rename_i hft
      split at hok
      · cases hok
      · rename_i hassert
        cases hp : vm_fault_paddr «as» (faultaddress &&& PAGE_FRAME) with
        | none =>
          rw [hp] at hok
          cases hok
        | some paddr =>
          rw [hp] at hok
          simp only at hok
          split at hok
          · cases hok
          · rename_i hal
            have hal' : aligned paddr := by
              unfold aligned
              exact not_not.mp hal
            have hassert' : vm_fault_asserts «as» = true := by simpa using hassert
            have := vm_fault_resolved «as» faulttype faultaddress paddr victim tlb hft hassert'
              hp hal'
            refine ⟨paddr, rfl, hal', ?_⟩
            unfold install_slot
            split at hok
            · rename_i i hi
              cases hok
              rfl
            · rename_i hi
              cases hok
              rfl
    · cases hok

theorem well_formed_asserts («as» : addrspace) (hwf : well_formed «as») :
    vm_fault_asserts «as» = true := by
  obtain ⟨h1, h2, h3, h4, h5, h6, h7, a1, a2, a3, a4, a5, _, _⟩ := hwf
  unfold aligned at a1 a2 a3 a4 a5
  simp [vm_fault_asserts, h1, h2, h3, h4, h5, h6, h7, a1, a2, a3, a4, a5]

theorem vm_fault_paddr_spec («as» : addrspace) (a : Nat) (hwf : well_formed «as») :
    vm_fault_paddr «as» a = (spec_translate «as» a).map (fun frame => frame % 2 ^ 32) := by
  obtain ⟨_, _, _, _, _, _, _, _, _, _, _, _, o1, o2⟩ := hwf
  have hv1 : vtop1 «as» = «as».as_vbase1 + «as».as_npages1 * PAGE_SIZE := by
    unfold vtop1; unfold PAGE_SIZE at *; omega
  have hv2 : vtop2 «as» = «as».as_vbase2 + «as».as_npages2 * PAGE_SIZE := by
    unfold vtop2; unfold PAGE_SIZE at *; omega
  have hsb : stackbase = USERSTACK - 12 * PAGE_SIZE := by decide
  simp only [vm_fault_paddr, spec_translate, in_region1, in_region2, in_stack, hv1, hv2, hsb,
    stacktop, ge_iff_le]
  split_ifs <;> rfl

theorem spec_translate_aligned («as» : addrspace) (a frame : Nat) (hwf : well_formed «as»)
    (ha : aligned a) (h : spec_translate «as» a = some frame) : aligned (frame % 2 ^ 32) := by
  obtain ⟨_, _, _, _, _, _, _, a1, a2, a3, a4, a5, _, _⟩ := hwf
  rw [aligned_iff] at *
  unfold spec_translate in_region1 in_region2 in_stack USERSTACK MIPS_KSEG0 PAGE_SIZE at h
  split_ifs at h <;> simp only [Option.some.injEq] at h <;> omega

/-- C8. Translation consistency: for a read or write fault on a well-formed descriptor,
with `a'` the page of the faulting address, if `a'` is in region 1 (else region 2, else
the stack range) `vm_fault` returns 0 and installs in one slot a row whose virtual page is
`a'` and whose physical frame is that region's physical base plus the offset of `a'` in
the region (a 32-bit `paddr_t` sum); every other slot is kept, and the outcome depends on
the faulting address only through `a'`. -/
theorem vm_fault_translation («as» : addrspace) (faulttype : Int) (faultaddress frame : Nat)
    (victim : Fin NUM_TLB) (tlb : List tlbentry)
    (hft : faulttype = VM_FAULT_READ ∨ faulttype = VM_FAULT_WRITE)
    (hwf : well_formed «as») (hlen : tlb.length = NUM_TLB)
    (hres : spec_translate «as» (faultaddress &&& PAGE_FRAME) = some frame) :
    ∃ slot elo tlb', slot < NUM_TLB ∧
      vm_fault faulttype faultaddress (some ⟨some «as»⟩) victim tlb = .ok (.zero, tlb') ∧
      tlb'[slot]? = some ⟨faultaddress &&& PAGE_FRAME, elo⟩ ∧
      (∀ j : Nat, j ≠ slot → tlb'[j]? = tlb[j]?) ∧
      elo &&& TLBLO_PPAGE = frame % 2 ^ 32 ∧
      (frame < 2 ^ 32 → elo &&& TLBLO_PPAGE = frame) ∧
      vm_fault faulttype (faultaddress &&& PAGE_FRAME) (some ⟨some «as»⟩) victim tlb =
        vm_fault faulttype faultaddress (some ⟨some «as»⟩) victim tlb := by
  have hal := spec_translate_aligned «as» _ frame hwf (aligned_mask faultaddress) hres
  have hp : vm_fault_paddr «as» (faultaddress &&& PAGE_FRAME) = some (frame % 2 ^ 32) := by
    rw [vm_fault_paddr_spec «as» _ hwf, hres]
    rfl
  have hrun := vm_fault_resolved «as» faulttype faultaddress _ victim tlb hft
    (well_formed_asserts «as» hwf) hp hal
  have hslot := install_slot_lt tlb victim
  have hpp := vm_fault_elo_ppage «as» (faultaddress &&& PAGE_FRAME) _ hal
  refine ⟨install_slot tlb victim, _, _, hslot, hrun, ?_, ?_, hpp, ?_, vm_fault_mask _ _ _ _ _⟩
  · rw [List.getElem?_set_self (by omega)]
  · intro j hj
    rw [List.getElem?_set_ne (fun h => hj h.symm)]
  · intro hlt
    rw [hpp, Nat.mod_eq_of_lt hlt]

/-- C8 witness: a fault at `0x401234` in a two-page region 1 at `0x400000` backed by
physical `0x11000`, with an empty translation cache. -/
theorem vm_fault_translation_witness :
    ∃ slot elo tlb', slot < NUM_TLB ∧
      vm_fault VM_FAULT_READ 0x401234
        (some ⟨some ⟨0x400000, 0x11000, 2, 0x10000000, 0x13000, 1, 0x14000, true⟩⟩)
        ⟨0, by decide⟩ (List.replicate 64 ⟨0, 0⟩) = .ok (.zero, tlb') ∧
      tlb'[slot]? = some ⟨0x401234 &&& PAGE_FRAME, elo⟩ ∧
      (∀ j : Nat, j ≠ slot → tlb'[j]? = (List.replicate 64 (⟨0, 0⟩ : tlbentry))[j]?) ∧
      elo &&& TLBLO_PPAGE = 0x12000 % 2 ^ 32 ∧
      (0x12000 < 2 ^ 32 → elo &&& TLBLO_PPAGE = 0x12000) ∧
      vm_fault VM_FAULT_READ (0x401234 &&& PAGE_FRAME)
        (some ⟨some ⟨0x400000, 0x11000, 2, 0x10000000, 0x13000, 1, 0x14000, true⟩⟩)
        ⟨0, by decide⟩ (List.replicate 64 ⟨0, 0⟩) =
      vm_fault VM_FAULT_READ 0x401234
        (some ⟨some ⟨0x400000, 0x11000, 2, 0x10000000, 0x13000, 1, 0x14000, true⟩⟩)
        ⟨0, by decide⟩ (List.replicate 64 ⟨0, 0⟩) :=
  vm_fault_translation ⟨0x400000, 0x11000, 2, 0x10000000, 0x13000, 1, 0x14000, true⟩
    VM_FAULT_READ 0x401234 0x12000 ⟨0, by decide⟩ (List.replicate 64 ⟨0, 0⟩)
    (Or.inl rfl) (by decide) (by decide) (by decide)

/-- C9. Segmentation fault: for a read or write fault on a well-formed active descriptor,
if the page of the faulting address lies in none of region 1, region 2 and the stack
range, `vm_fault` returns `EFAULT` and leaves the translation cache unchanged. -/
theorem vm_fault_segfault («as» : addrspace) (faulttype : Int) (faultaddress : Nat)
    (victim : Fin NUM_TLB) (tlb : List tlbentry)
    (hft : faulttype = VM_FAULT_READ ∨ faulttype = VM_FAULT_WRITE)
    (hwf : well_formed «as»)
    (h1 : ¬ in_region1 «as» (faultaddress &&& PAGE_FRAME))
    (h2 : ¬ in_region2 «as» (faultaddress &&& PAGE_FRAME))
    (h3 : ¬ in_stack (faultaddress &&& PAGE_FRAME)) :
    vm_fault faulttype faultaddress (some ⟨some «as»⟩) victim tlb = .ok (.EFAULT, tlb) := by
  have hp : vm_fault_paddr «as» (faultaddress &&& PAGE_FRAME) = none := by
    rw [vm_fault_paddr_spec «as» _ hwf]
    simp [spec_translate, h1, h2, h3]
  have hro : faulttype ≠ VM_FAULT_READONLY := by
    rcases hft with h | h <;> (rw [h]; decide)
  unfold vm_fault
  simp only [hro, if_false, hft, if_true, curproc_getas, well_formed_asserts «as» hwf,
    Bool.not_true, Bool.false_eq_true, hp]

/-- C9 witness: a write fault at `0x20000abc`, outside both regions and the stack. -/
theorem vm_fault_segfault_witness :
    vm_fault VM_FAULT_WRITE 0x20000abc
      (some ⟨some ⟨0x400000, 0x11000, 2, 0x10000000, 0x13000, 1, 0x14000, true⟩⟩)
      ⟨5, by decide⟩ (List.replicate 64 ⟨0, 0⟩) = .ok (.EFAULT, List.replicate 64 ⟨0, 0⟩) :=
  vm_fault_segfault ⟨0x400000, 0x11000, 2, 0x10000000, 0x13000, 1, 0x14000, true⟩
    VM_FAULT_WRITE 0x20000abc ⟨5, by decide⟩ (List.replicate 64 ⟨0, 0⟩)
    (Or.inr rfl) (by decide) (by decide) (by decide) (by decide)

/-- C10. Dirty-bit policy: whenever `vm_fault` returns 0, the row it installed (in the
first invalid slot, or in the random-replacement victim when none is invalid) has the
valid bit set, and has the dirty bit cleared if and only if the faulting page lies in
region 1 and `elf_loaded` is set; otherwise (region 2, stack, or not yet loaded) the dirty
bit is set. For a descriptor whose region 1 does not overflow 32 bits the range tested is
`[vbase1, vbase1 + npages1 * PAGE_SIZE)`, and `as_complete_load` sets `elf_loaded`. -/
theorem vm_fault_dirty_policy («as» : addrspace) (faulttype : Int) (faultaddress : Nat)
    (victim : Fin NUM_TLB) (tlb tlb' : List tlbentry)
    (hok : vm_fault faulttype faultaddress (some ⟨some «as»⟩) victim tlb = .ok (.zero, tlb')) :
    ∃ slot elo,
      (vm_fault_scan tlb 0 NUM_TLB = some slot ∨
        (vm_fault_scan tlb 0 NUM_TLB = none ∧ slot = victim.val)) ∧
      tlb' = tlb.set slot ⟨faultaddress &&& PAGE_FRAME, elo⟩ ∧
      elo &&& TLBLO_VALID = TLBLO_VALID ∧
      (elo &&& TLBLO_DIRTY = 0 ↔
        ((«as».as_vbase1 ≤ faultaddress &&& PAGE_FRAME ∧
          faultaddress &&& PAGE_FRAME < vtop1 «as») ∧ «as».elf_loaded = true)) ∧
      (¬ ((«as».as_vbase1 ≤ faultaddress &&& PAGE_FRAME ∧
          faultaddress &&& PAGE_FRAME < vtop1 «as») ∧ «as».elf_loaded = true) →
        elo &&& TLBLO_DIRTY = TLBLO_DIRTY) ∧
      («as».as_vbase1 + «as».as_npages1 * PAGE_SIZE < 2 ^ 32 →
        ((«as».as_vbase1 ≤ faultaddress &&& PAGE_FRAME ∧
          faultaddress &&& PAGE_FRAME < vtop1 «as») ↔
          in_region1 «as» (faultaddress &&& PAGE_FRAME))) ∧
      (as_complete_load «as»).2.elf_loaded = true := by
  obtain ⟨paddr, hp, hal, htlb⟩ := vm_fault_zero_inv «as» faulttype faultaddress victim tlb tlb' hok
  refine ⟨install_slot tlb victim, _, ?_, htlb, vm_fault_elo_valid _ _ _,
    vm_fault_elo_dirty _ _ _, ?_, ?_, rfl⟩
  · unfold install_slot
    cases h : vm_fault_scan tlb 0 NUM_TLB with
    | none => exact Or.inr ⟨rfl, rfl⟩
    | some i => exact Or.inl rfl
  · intro hnot
    have hd := vm_fault_elo_dirty «as» (faultaddress &&& PAGE_FRAME) paddr
    have h2 := and_two_pow_eq (vm_fault_elo «as» (faultaddress &&& PAGE_FRAME) paddr) 10
    have hv : TLBLO_DIRTY = 2 ^ 10 := by decide
    rw [← hv] at h2
    split at h2
    · exact h2
    · exact absurd (hd.mp h2) hnot
  · intro hno
    have hv1 : vtop1 «as» = «as».as_vbase1 + «as».as_npages1 * PAGE_SIZE := by
      unfold vtop1; unfold PAGE_SIZE at *; omega
    rw [hv1]
    rfl

/-- C10 witness: a region-1 fault after the load completed, with every slot valid, so
that the row goes to the random-replacement victim (slot 7). -/
theorem vm_fault_dirty_policy_witness :
    ∃ slot elo,
      (vm_fault_scan (List.replicate 64 ⟨0, 0x200⟩) 0 NUM_TLB = some slot ∨
        (vm_fault_scan (List.replicate 64 ⟨0, 0x200⟩) 0 NUM_TLB = none ∧
          slot = (⟨7, by decide⟩ : Fin NUM_TLB).val)) ∧
      (List.replicate 64 (⟨0, 0x200⟩ : tlbentry)).set 7 ⟨0x401000, 0x12200⟩ =
        (List.replicate 64 ⟨0, 0x200⟩).set slot ⟨0x401234 &&& PAGE_FRAME, elo⟩ ∧
      elo &&& TLBLO_VALID = TLBLO_VALID ∧
      (elo &&& TLBLO_DIRTY = 0 ↔
        (((⟨0x400000, 0x11000, 2, 0x10000000, 0x13000, 1, 0x14000, true⟩ :
            addrspace).as_vbase1 ≤ 0x401234 &&& PAGE_FRAME ∧
          0x401234 &&& PAGE_FRAME <
            vtop1 ⟨0x400000, 0x11000, 2, 0x10000000, 0x13000, 1, 0x14000, true⟩) ∧
          (⟨0x400000, 0x11000, 2, 0x10000000, 0x13000, 1, 0x14000, true⟩ :
            addrspace).elf_loaded = true)) ∧
      (¬ (((⟨0x400000, 0x11000, 2, 0x10000000, 0x13000, 1, 0x14000, true⟩ :
            addrspace).as_vbase1 ≤ 0x401234 &&& PAGE_FRAME ∧
          0x401234 &&& PAGE_FRAME <
            vtop1 ⟨0x400000, 0x11000, 2, 0x10000000, 0x13000, 1, 0x14000, true⟩) ∧
          (⟨0x400000, 0x11000, 2, 0x10000000, 0x13000, 1, 0x14000, true⟩ :
            addrspace).elf_loaded = true) →
        elo &&& TLBLO_DIRTY = TLBLO_DIRTY) ∧
      ((⟨0x400000, 0x11000, 2, 0x10000000, 0x13000, 1, 0x14000, true⟩ :
            addrspace).as_vbase1 +
          (⟨0x400000, 0x11000, 2, 0x10000000, 0x13000, 1, 0x14000, true⟩ :
            addrspace).as_npages1 * PAGE_SIZE < 2 ^ 32 →
        (((⟨0x400000, 0x11000, 2, 0x10000000, 0x13000, 1, 0x14000, true⟩ :
            addrspace).as_vbase1 ≤ 0x401234 &&& PAGE_FRAME ∧
          0x401234 &&& PAGE_FRAME <
            vtop1 ⟨0x400000, 0x11000, 2, 0x10000000, 0x13000, 1, 0x14000, true⟩) ↔
          in_region1 ⟨0x400000, 0x11000, 2, 0x10000000, 0x13000, 1, 0x14000, true⟩
            (0x401234 &&& PAGE_FRAME))) ∧
      (as_complete_load ⟨0x400000, 0x11000, 2, 0x10000000, 0x13000, 1, 0x14000,
        true⟩).2.elf_loaded = true :=
  vm_fault_dirty_policy ⟨0x400000, 0x11000, 2, 0x10000000, 0x13000, 1, 0x14000, true⟩
    VM_FAULT_WRITE 0x401234 ⟨7, by decide⟩ (List.replicate 64 ⟨0, 0x200⟩)
    ((List.replicate 64 ⟨0, 0x200⟩).set 7 ⟨0x401000, 0x12200⟩) (by decide)

/-! ## Fault classification and the empty region -/

theorem vm_fault_other_kind (faulttype : Int) (faultaddress : Nat)
    (curproc : Option proc) (victim : Fin NUM_TLB) (tlb : List tlbentry)
    (h1 : faulttype ≠ VM_FAULT_READ) (h2 : faulttype ≠ VM_FAULT_WRITE) :
    vm_fault faulttype faultaddress curproc victim tlb = .ok (.EINVAL, tlb) := by
  unfold vm_fault
  by_cases h3 : faulttype = VM_FAULT_READONLY
  · simp [h3]
  · simp [h3, h1, h2]

/-- C11. Fault classification errors: `vm_fault` returns `EINVAL` for the kind
`VM_FAULT_READONLY` and for every kind other than read and write, whatever the process
and descriptor; for a read or write fault it returns `EFAULT` when there is no current
process or the process has no address space. In all these cases the run does not reach a
descriptor assertion (the outcome is a return, never a failed assertion) and the
translation cache is returned unchanged. -/
theorem vm_fault_classification (faulttype : Int) (faultaddress : Nat)
    (curproc : Option proc) (victim : Fin NUM_TLB) (tlb : List tlbentry) :
    vm_fault VM_FAULT_READONLY faultaddress curproc victim tlb = .ok (.EINVAL, tlb) ∧
    (faulttype ≠ VM_FAULT_READ → faulttype ≠ VM_FAULT_WRITE →
      vm_fault faulttype faultaddress curproc victim tlb = .ok (.EINVAL, tlb)) ∧
    (faulttype = VM_FAULT_READ ∨ faulttype = VM_FAULT_WRITE →
      curproc = none ∨ curproc = some ⟨none⟩ →
      vm_fault faulttype faultaddress curproc victim tlb = .ok (.EFAULT, tlb)) := by
  refine ⟨?_, vm_fault_other_kind faulttype faultaddress curproc victim tlb, ?_⟩
  · exact vm_fault_other_kind _ _ _ _ _ (by decide) (by decide)
  · intro hft hcur
    have hro : faulttype ≠ VM_FAULT_READONLY := by
      rcases hft with h | h <;> (rw [h]; decide)
    unfold vm_fault
    rcases hcur with h | h
    · simp only [hro, if_false, hft, if_true, h]
    · simp only [hro, if_false, hft, if_true, h, curproc_getas]

/-- C11 witness: an unknown fault kind with a descriptor that would fail the assertions,
and a write fault of a process without address space. -/
theorem vm_fault_classification_witness :
    vm_fault 7 0x401234 (some ⟨some ⟨0, 0, 0, 0, 0, 0, 0, false⟩⟩) ⟨3, by decide⟩
        (List.replicate 64 ⟨0, 0x200⟩) = .ok (.EINVAL, List.replicate 64 ⟨0, 0x200⟩) ∧
      vm_fault VM_FAULT_WRITE 0x401234 (some ⟨none⟩) ⟨3, by decide⟩
        (List.replicate 64 ⟨0, 0x200⟩) = .ok (.EFAULT, List.replicate 64 ⟨0, 0x200⟩) :=
  ⟨(vm_fault_classification 7 0x401234 (some ⟨some ⟨0, 0, 0, 0, 0, 0, 0, false⟩⟩)
      ⟨3, by decide⟩ (List.replicate 64 ⟨0, 0x200⟩)).2.1 (by decide) (by decide),
    (vm_fault_classification VM_FAULT_WRITE 0x401234 (some ⟨none⟩) ⟨3, by decide⟩
      (List.replicate 64 ⟨0, 0x200⟩)).2.2 (Or.inr rfl) (Or.inr rfl)⟩

/-- C19. Empty region never matches: for a descriptor with `npages1 = 0` the region-1
range test of `vm_fault` fails for every page (also for the page equal to `vbase1`), so
the translation is decided by region 2 and the stack alone and no frame is computed from
`pbase1`; and `vm_fault` on that descriptor never returns 0 (a read or write fault stops
at the assertion on `as_npages1`). -/
theorem vm_fault_empty_region1 («as» : addrspace) (faulttype : Int) (faultaddress : Nat)
    (victim : Fin NUM_TLB) (tlb : List tlbentry) (h0 : «as».as_npages1 = 0) :
    (∀ a : Nat, ¬ (a ≥ «as».as_vbase1 ∧ a < vtop1 «as»)) ∧
    ¬ («as».as_vbase1 ≥ «as».as_vbase1 ∧ «as».as_vbase1 < vtop1 «as») ∧
    (∀ a : Nat, vm_fault_paddr «as» a =
      if a ≥ «as».as_vbase2 ∧ a < vtop2 «as» then
        some ((«as».as_pbase2 + (a - «as».as_vbase2)) % 2 ^ 32)
      else if a ≥ stackbase ∧ a < stacktop then
        some ((«as».as_stackpbase + (a - stackbase)) % 2 ^ 32)
      else none) ∧
    (∀ tlb', vm_fault faulttype faultaddress (some ⟨some «as»⟩) victim tlb ≠ .ok (.zero, tlb')) ∧
    (faulttype = VM_FAULT_READ ∨ faulttype = VM_FAULT_WRITE →
      vm_fault faulttype faultaddress (some ⟨some «as»⟩) victim tlb = .error .kassert) := by
  have hrange : ∀ a : Nat, ¬ (a ≥ «as».as_vbase1 ∧ a < vtop1 «as») := by
    intro a
    unfold vtop1
    rw [h0]
    have : («as».as_vbase1 + 0 * PAGE_SIZE % 2 ^ 32) % 2 ^ 32 ≤ «as».as_vbase1 := by
      simp only [Nat.zero_mul, Nat.zero_mod, Nat.add_zero]
      exact Nat.mod_le _ _
    omega
  have hassert : vm_fault_asserts «as» = false := by
    simp [vm_fault_asserts, h0]
  have herr : faulttype = VM_FAULT_READ ∨ faulttype = VM_FAULT_WRITE →
      vm_fault faulttype faultaddress (some ⟨some «as»⟩) victim tlb = .error .kassert := by
    intro hft
    have hro : faulttype ≠ VM_FAULT_READONLY := by
      rcases hft with h | h <;> (rw [h]; decide)
    unfold vm_fault
    simp only [hro, if_false, hft, if_true, curproc_getas, hassert, Bool.not_false]
  refine ⟨hrange, hrange _, ?_, ?_, herr⟩
  · intro a
    unfold vm_fault_paddr
    rw [if_neg (hrange a)]
  · intro tlb' hok
    by_cases hft : faulttype = VM_FAULT_READ ∨ faulttype = VM_FAULT_WRITE
    · rw [herr hft] at hok
      cases hok
    · have := vm_fault_other_kind faulttype faultaddress (some ⟨some «as»⟩) victim tlb
        (fun h => hft (Or.inl h)) (fun h => hft (Or.inr h))
      rw [this] at hok
      cases hok

/-- C19 witness: a descriptor whose region 1 at `0x400000` has no pages, faulting at
`0x400000`. -/
theorem vm_fault_empty_region1_witness :
    vm_fault VM_FAULT_READ 0x400000
      (some ⟨some ⟨0x400000, 0x11000, 0, 0x10000000, 0x13000, 1, 0x14000, false⟩⟩)
      ⟨0, by decide⟩ (List.replicate 64 ⟨0, 0⟩) = .error .kassert :=
  (vm_fault_empty_region1 ⟨0x400000, 0x11000, 0, 0x10000000, 0x13000, 1, 0x14000, false⟩
    VM_FAULT_READ 0x400000 ⟨0, by decide⟩ (List.replicate 64 ⟨0, 0⟩) rfl).2.2.2.2 (Or.inl rfl)

/-! ## as_activate -/

theorem as_activate_loop_spec :
    ∀ (count : Nat) (tlb : List tlbentry) (i : Nat), i + count ≤ tlb.length →
      (as_activate_loop tlb i count).length = tlb.length ∧
      ∀ j : Nat, (as_activate_loop tlb i count)[j]? =
        if i ≤ j ∧ j < i + count then some ⟨TLBHI_INVALID j, TLBLO_INVALID⟩ else tlb[j]? := by
  intro count
  induction count with
  | zero =>
    intro tlb i _
    refine ⟨rfl, ?_⟩
    intro j
    have : ¬ (i ≤ j ∧ j < i + 0) := by omega
    rw [if_neg this]
    rfl
  | succ k ih =>
    intro tlb i h
    have hi : i < tlb.length := by omega
    obtain ⟨h1, h2⟩ := ih (tlb_write (TLBHI_INVALID i) TLBLO_INVALID i tlb) (i + 1)
      (by simp [tlb_write]; omega)
    refine ⟨by simpa [as_activate_loop, tlb_write] using h1, ?_⟩
    intro j
    simp only [as_activate_loop]
    rw [h2 j]
    unfold tlb_write
    rw [List.getElem?_set]
    by_cases hj : i = j
    · subst hj
      have c1 : ¬ (i + 1 ≤ i ∧ i < i + 1 + k) := by omega
      have c2 : i ≤ i ∧ i < i + (k + 1) := by omega
      simp [c1, c2, hi]
    · by_cases hr : i + 1 ≤ j ∧ j < i + 1 + k
      · have c2 : i ≤ j ∧ j < i + (k + 1) := by omega
        simp [hr, c2]
      · have c2 : ¬ (i ≤ j ∧ j < i + (k + 1)) := by omega
        simp [hr, c2, hj]

/-- C17 (as stated) fails: for a process without address space (a kernel thread)
`as_activate` returns at once; a translation cache whose 64 rows are all valid is left as
it was, so slot 0 still holds a valid row. Without a descriptor, or without a current
process, every translation cache is left as it was. -/
theorem as_activate_without_address_space :
    as_activate (some ⟨none⟩) (List.replicate 64 ⟨0x401000, 0x12600⟩) =
        List.replicate 64 ⟨0x401000, 0x12600⟩ ∧
      as_activate none (List.replicate 64 ⟨0x401000, 0x12600⟩) =
        List.replicate 64 ⟨0x401000, 0x12600⟩ ∧
      (tlb_read (as_activate (some ⟨none⟩) (List.replicate 64 ⟨0x401000, 0x12600⟩)) 0).elo
        &&& TLBLO_VALID ≠ 0 ∧
      (∀ tlb : List tlbentry, as_activate (some ⟨none⟩) tlb = tlb) ∧
      (∀ tlb : List tlbentry, as_activate none tlb = tlb) := by
  refine ⟨by decide, by decide, by decide, fun _ => rfl, fun _ => rfl⟩

/-- C17 (amended). Activate invalidates every entry when the current process has an
address space: for every translation cache of `NUM_TLB` rows, after `as_activate` slot `i`
holds `TLBHI_INVALID(i)` / `TLBLO_INVALID()`, whose valid bit is clear, for every
`i < NUM_TLB`. -/
theorem as_activate_invalidates (p : proc) («as» : addrspace) (tlb : List tlbentry)
    (hlen : tlb.length = NUM_TLB) (has : p.p_addrspace = some «as») :
    (as_activate (some p) tlb).length = NUM_TLB ∧
      ∀ i : Nat, i < NUM_TLB →
        (as_activate (some p) tlb)[i]? = some ⟨TLBHI_INVALID i, TLBLO_INVALID⟩ ∧
        (tlb_read (as_activate (some p) tlb) i).elo &&& TLBLO_VALID = 0 := by
  obtain ⟨h1, h2⟩ := as_activate_loop_spec NUM_TLB tlb 0 (by omega)
  have hact : as_activate (some p) tlb = as_activate_loop tlb 0 NUM_TLB := by
    simp [as_activate, curproc_getas, has]
  rw [hact]
  refine ⟨by omega, ?_⟩
  intro i hi
  have hrow := h2 i
  rw [if_pos (by omega)] at hrow
  refine ⟨hrow, ?_⟩
  unfold tlb_read
  rw [List.getD_eq_getElem?_getD, hrow]
  simp [TLBLO_INVALID]

/-- C17 (amended) witness: a process with a descriptor and a cache of valid rows. -/
theorem as_activate_invalidates_witness :
    (as_activate (some ⟨some ⟨0x400000, 0x11000, 2, 0x10000000, 0x13000, 1, 0x14000, true⟩⟩)
        (List.replicate 64 ⟨0x401000, 0x12600⟩)).length = NUM_TLB ∧
      ∀ i : Nat, i < NUM_TLB →
        (as_activate
          (some ⟨some ⟨0x400000, 0x11000, 2, 0x10000000, 0x13000, 1, 0x14000, true⟩⟩)
          (List.replicate 64 ⟨0x401000, 0x12600⟩))[i]? =
            some ⟨TLBHI_INVALID i, TLBLO_INVALID⟩ ∧
        (tlb_read (as_activate
          (some ⟨some ⟨0x400000, 0x11000, 2, 0x10000000, 0x13000, 1, 0x14000, true⟩⟩)
          (List.replicate 64 ⟨0x401000, 0x12600⟩)) i).elo &&& TLBLO_VALID = 0 :=
  as_activate_invalidates ⟨some ⟨0x400000, 0x11000, 2, 0x10000000, 0x13000, 1, 0x14000, true⟩⟩
    ⟨0x400000, 0x11000, 2, 0x10000000, 0x13000, 1, 0x14000, true⟩
    (List.replicate 64 ⟨0x401000, 0x12600⟩) (by decide) rfl

/-! ## as_define_region -/

theorem as_define_region_eq («as» : addrspace) (vaddr sz : Nat) (r w x : Int) :
    as_define_region «as» vaddr sz r w x =
      if «as».as_vbase1 = 0 then
        (.zero, { «as» with as_vbase1 := vaddr &&& PAGE_FRAME,
                            as_npages1 := define_region_npages vaddr sz })
      else if «as».as_vbase2 = 0 then
        (.zero, { «as» with as_vbase2 := vaddr &&& PAGE_FRAME,
                            as_npages2 := define_region_npages vaddr sz })
      else (.EUNIMP, «as») := rfl

theorem define_region_npages_eq (vaddr sz : Nat)
    (hno : sz + vaddr % PAGE_SIZE + PAGE_SIZE - 1 < 2 ^ 32) :
    define_region_npages vaddr sz = (sz + vaddr % PAGE_SIZE + PAGE_SIZE - 1) / PAGE_SIZE := by
  have hmask : vaddr &&& (2 ^ 32 - 1 - PAGE_FRAME) = vaddr % 2 ^ 12 := by
    have : (2 ^ 32 - 1 - PAGE_FRAME : Nat) = 2 ^ 12 - 1 := by decide
    rw [this, Nat.and_pow_two_sub_one_eq_mod]
  unfold define_region_npages
  rw [hmask, and_PAGE_FRAME]
  unfold PAGE_SIZE at *
  norm_num at *
  omega

/-- C12 (as stated) fails: on the fresh descriptor the first call, for a region in page 0
(`vaddr = 0x10`), returns 0 but leaves `as_vbase1 = 0`; the second call therefore
overwrites slot 1 and leaves slot 2 empty, and the third call returns 0, not `EUNIMP`. -/
theorem as_define_region_page_zero :
    as_create true = some ⟨0, 0, 0, 0, 0, 0, 0, false⟩ ∧
      as_define_region ⟨0, 0, 0, 0, 0, 0, 0, false⟩ 0x10 1 1 1 0 =
        (.zero, ⟨0, 0, 1, 0, 0, 0, 0, false⟩) ∧
      as_define_region ⟨0, 0, 1, 0, 0, 0, 0, false⟩ 0x400000 0x2000 1 0 1 =
        (.zero, ⟨0x400000, 0, 2, 0, 0, 0, 0, false⟩) ∧
      as_define_region ⟨0x400000, 0, 2, 0, 0, 0, 0, false⟩ 0x10000000 0x1000 1 1 0 =
        (.zero, ⟨0x400000, 0, 2, 0x10000000, 0, 1, 0, false⟩) := by
  refine ⟨by decide, by decide, by decide, by decide⟩

/-- C12 (amended). Two-region limit: on the descriptor freshly returned by `as_create`, for
three successive `as_define_region` calls whose first two `vaddr` arguments do not lie in
page 0 (`vaddr & PAGE_FRAME` is non-zero), the first call returns 0 and fills slot 1, the
second returns 0 and fills slot 2 leaving slot 1 intact, and the third returns `EUNIMP`
leaving the descriptor unchanged. -/
theorem as_define_region_two_regions (fresh : addrspace)
    (v1 sz1 v2 sz2 v3 sz3 : Nat) (r1 w1 x1 r2 w2 x2 r3 w3 x3 : Int)
    (hfresh : as_create true = some fresh)
    (hv1 : v1 &&& PAGE_FRAME ≠ 0) (hv2 : v2 &&& PAGE_FRAME ≠ 0) :
    as_define_region fresh v1 sz1 r1 w1 x1 =
        (.zero, { fresh with as_vbase1 := v1 &&& PAGE_FRAME,
                             as_npages1 := define_region_npages v1 sz1 }) ∧
      as_define_region (as_define_region fresh v1 sz1 r1 w1 x1).2 v2 sz2 r2 w2 x2 =
        (.zero, { fresh with as_vbase1 := v1 &&& PAGE_FRAME,
                             as_npages1 := define_region_npages v1 sz1,
                             as_vbase2 := v2 &&& PAGE_FRAME,
                             as_npages2 := define_region_npages v2 sz2 }) ∧
      as_define_region
          (as_define_region (as_define_region fresh v1 sz1 r1 w1 x1).2 v2 sz2 r2 w2 x2).2
          v3 sz3 r3 w3 x3 =
        (.EUNIMP,
          (as_define_region (as_define_region fresh v1 sz1 r1 w1 x1).2 v2 sz2 r2 w2 x2).2) := by
  have hf : fresh = ⟨0, 0, 0, 0, 0, 0, 0, false⟩ := by
    simp only [as_create, if_true, Option.some.injEq] at hfresh
    exact hfresh.symm
  subst hf
  simp only [as_define_region_eq, if_true, hv1, hv2, if_false]
  exact ⟨trivial, trivial, trivial⟩

/-- C12 (amended) witness: a code region at `0x400000`, a data region at `0x10000000` and a
third request. -/
theorem as_define_region_two_regions_witness :
    as_define_region ⟨0, 0, 0, 0, 0, 0, 0, false⟩ 0x400000 0x2000 1 0 1 =
        (.zero, { (⟨0, 0, 0, 0, 0, 0, 0, false⟩ : addrspace) with
          as_vbase1 := 0x400000 &&& PAGE_FRAME,
          as_npages1 := define_region_npages 0x400000 0x2000 }) ∧
      as_define_region (as_define_region ⟨0, 0, 0, 0, 0, 0, 0, false⟩ 0x400000 0x2000 1 0 1).2
          0x10000000 0x1000 1 1 0 =
        (.zero, { (⟨0, 0, 0, 0, 0, 0, 0, false⟩ : addrspace) with
          as_vbase1 := 0x400000 &&& PAGE_FRAME,
          as_npages1 := define_region_npages 0x400000 0x2000,
          as_vbase2 := 0x10000000 &&& PAGE_FRAME,
          as_npages2 := define_region_npages 0x10000000 0x1000 }) ∧
      as_define_region
          (as_define_region
            (as_define_region ⟨0, 0, 0, 0, 0, 0, 0, false⟩ 0x400000 0x2000 1 0 1).2
            0x10000000 0x1000 1 1 0).2
          0x20000000 0x1000 1 1 1 =
        (.EUNIMP,
          (as_define_region
            (as_define_region ⟨0, 0, 0, 0, 0, 0, 0, false⟩ 0x400000 0x2000 1 0 1).2
            0x10000000 0x1000 1 1 0).2) :=
  as_define_region_two_regions ⟨0, 0, 0, 0, 0, 0, 0, false⟩ 0x400000 0x2000 0x10000000 0x1000
    0x20000000 0x1000 1 0 1 1 1 0 1 1 1 rfl (by decide) (by decide)

/-- C13. Region rounding: for 32-bit `vaddr` and `sz` with
`sz + vaddr mod PAGE_SIZE + PAGE_SIZE - 1` not overflowing, a successful
`as_define_region` stores, in the slot it fills, `base = vaddr & PAGE_FRAME` (page-aligned,
`base <= vaddr < base + PAGE_SIZE`) and `npages = ceil((sz + (vaddr - base)) / PAGE_SIZE)`;
`[base, base + npages * PAGE_SIZE)` contains `[vaddr, vaddr + sz)` and lies inside every
page-aligned range `[b, t)` with `b <= vaddr` and `vaddr + sz <= t`; the result does not
depend on the three permission arguments. -/
theorem as_define_region_rounding («as» : addrspace) (vaddr sz : Nat) (r w x : Int)
    (hv : vaddr < 2 ^ 32)
    (hno : sz + vaddr % PAGE_SIZE + PAGE_SIZE - 1 < 2 ^ 32)
    (hok : (as_define_region «as» vaddr sz r w x).1 = .zero) :
    ∃ base npages,
      base = vaddr &&& PAGE_FRAME ∧
      npages = (sz + (vaddr - base) + PAGE_SIZE - 1) / PAGE_SIZE ∧
      (as_define_region «as» vaddr sz r w x).2 =
        (if «as».as_vbase1 = 0 then { «as» with as_vbase1 := base, as_npages1 := npages }
         else { «as» with as_vbase2 := base, as_npages2 := npages }) ∧
      base % PAGE_SIZE = 0 ∧ base ≤ vaddr ∧ vaddr < base + PAGE_SIZE ∧
      sz + (vaddr - base) ≤ npages * PAGE_SIZE ∧
      (0 < npages → (npages - 1) * PAGE_SIZE < sz + (vaddr - base)) ∧
      (∀ a, vaddr ≤ a → a < vaddr + sz → base ≤ a ∧ a < base + npages * PAGE_SIZE) ∧
      (∀ b t, b % PAGE_SIZE = 0 → t % PAGE_SIZE = 0 → b ≤ vaddr → vaddr + sz ≤ t →
        b ≤ base ∧ base + npages * PAGE_SIZE ≤ t) ∧
      ∀ r' w' x' : Int,
        as_define_region «as» vaddr sz r' w' x' = as_define_region «as» vaddr sz r w x := by
  have hbase : vaddr &&& PAGE_FRAME = vaddr / 4096 * 4096 := by
    rw [and_PAGE_FRAME]
    norm_num
    omega
  have hnp := define_region_npages_eq vaddr sz hno
  have hoff : vaddr - vaddr / 4096 * 4096 = vaddr % 4096 := by omega
  refine ⟨vaddr &&& PAGE_FRAME, define_region_npages vaddr sz, rfl, ?_, ?_, ?_, ?_, ?_, ?_,
    ?_, ?_, ?_, ?_⟩
  · rw [hnp, hbase, hoff]
    rfl
  · rw [as_define_region_eq] at hok ⊢
    by_cases h1 : «as».as_vbase1 = 0
    · simp [h1]
    · by_cases h2 : «as».as_vbase2 = 0
      · simp [h1, h2]
      · simp [h1, h2] at hok
  · rw [hbase]; unfold PAGE_SIZE; omega
  · rw [hbase]; omega
  · rw [hbase]; unfold PAGE_SIZE; omega
  · rw [hnp, hbase, hoff]; unfold PAGE_SIZE at *; omega
  · rw [hnp, hbase, hoff]; unfold PAGE_SIZE at *; omega
  · intro a ha1 ha2
    rw [hnp, hbase]; unfold PAGE_SIZE at *; omega
  · intro b t hb ht hb1 ht1
    rw [hnp, hbase]; unfold PAGE_SIZE at *; omega
  · intro r' w' x'
    rfl

/-- C13 witness: the request `vaddr = 0x400ff0`, `sz = 0x20` straddles a page boundary and
is rounded to two pages from `0x400000`. -/
theorem as_define_region_rounding_witness :
    ∃ base npages,
      base = 0x400ff0 &&& PAGE_FRAME ∧
      npages = (0x20 + (0x400ff0 - base) + PAGE_SIZE - 1) / PAGE_SIZE ∧
      (as_define_region ⟨0, 0, 0, 0, 0, 0, 0, false⟩ 0x400ff0 0x20 1 0 1).2 =
        (if (⟨0, 0, 0, 0, 0, 0, 0, false⟩ : addrspace).as_vbase1 = 0 then
          { (⟨0, 0, 0, 0, 0, 0, 0, false⟩ : addrspace) with
            as_vbase1 := base, as_npages1 := npages }
         else { (⟨0, 0, 0, 0, 0, 0, 0, false⟩ : addrspace) with
            as_vbase2 := base, as_npages2 := npages }) ∧
      base % PAGE_SIZE = 0 ∧ base ≤ 0x400ff0 ∧ 0x400ff0 < base + PAGE_SIZE ∧
      0x20 + (0x400ff0 - base) ≤ npages * PAGE_SIZE ∧
      (0 < npages → (npages - 1) * PAGE_SIZE < 0x20 + (0x400ff0 - base)) ∧
      (∀ a, 0x400ff0 ≤ a → a < 0x400ff0 + 0x20 → base ≤ a ∧ a < base + npages * PAGE_SIZE) ∧
      (∀ b t, b % PAGE_SIZE = 0 → t % PAGE_SIZE = 0 → b ≤ 0x400ff0 → 0x400ff0 + 0x20 ≤ t →
        b ≤ base ∧ base + npages * PAGE_SIZE ≤ t) ∧
      ∀ r' w' x' : Int,
        as_define_region ⟨0, 0, 0, 0, 0, 0, 0, false⟩ 0x400ff0 0x20 r' w' x' =
          as_define_region ⟨0, 0, 0, 0, 0, 0, 0, false⟩ 0x400ff0 0x20 1 0 1 :=
  as_define_region_rounding ⟨0, 0, 0, 0, 0, 0, 0, false⟩ 0x400ff0 0x20 1 0 1
    (by decide) (by decide) (by decide)

/-! ## The bootstrapped directory -/

theorem vm_bootstrap_loop_getElem :
    ∀ (count a j : Nat), a + count * PAGE_SIZE ≤ 2 ^ 32 → j < count →
      (vm_bootstrap_loop count a)[j]? = some ⟨a + j * PAGE_SIZE, false, 0⟩ := by
  intro count
  induction count with
  | zero => intro a j _ hj; omega
  | succ k ih =>
    intro a j ha hj
    cases j with
    | zero =>
      simp only [vm_bootstrap_loop, List.getElem?_cons_zero, Nat.zero_mul, Nat.add_zero]
    | succ j =>
      have hk : 1 ≤ k := by omega
      have hmod : (a + PAGE_SIZE) % 2 ^ 32 = a + PAGE_SIZE := by
        apply Nat.mod_eq_of_lt
        unfold PAGE_SIZE at *
        omega
      simp only [vm_bootstrap_loop, List.getElem?_cons_succ, hmod]
      rw [ih (a + PAGE_SIZE) j (by unfold PAGE_SIZE at *; omega) (by omega)]
      have : a + PAGE_SIZE + j * PAGE_SIZE = a + (j + 1) * PAGE_SIZE := by
        unfold PAGE_SIZE
        omega
      rw [this]

theorem vm_bootstrap_frames (s0 : vmstate) (hram : ram_in_kseg0 s0) :
    ∃ start : Nat,
      (numofFrames (vm_bootstrap s0) = 0 ∨ 0 < start) ∧ start % PAGE_SIZE = 0 ∧
      start + numofFrames (vm_bootstrap s0) * PAGE_SIZE ≤ MIPS_KSEG0 ∧
      (vm_bootstrap s0).isCoremapDone = true ∧
      ∀ j < numofFrames (vm_bootstrap s0),
        (vm_bootstrap s0).frames[j]? = some ⟨start + j * PAGE_SIZE, false, 0⟩ := by
  obtain ⟨h1, h2⟩ := hram
  obtain ⟨n, hn⟩ : ∃ n, n = (s0.lastpaddr + 2 ^ 32 - s0.firstpaddr) % 2 ^ 32 / PAGE_SIZE :=
    ⟨_, rfl⟩
  obtain ⟨a, ha⟩ : ∃ a, a = ROUNDUP ((n * sizeof_coremap + s0.firstpaddr) % 2 ^ 32) PAGE_SIZE :=
    ⟨_, rfl⟩
  have hb : vm_bootstrap s0 = ⟨vm_bootstrap_loop n a, s0.num_pages, true, s0.firstpaddr,
      s0.lastpaddr⟩ := by
    simp only [vm_bootstrap, ram_getsize, hn, ha]
  have hlen : numofFrames (vm_bootstrap s0) = n := by
    rw [hb]
    simp [numofFrames, vm_bootstrap_loop_length]
  have hbounds : (n = 0 ∨ 0 < a) ∧ a % 4096 = 0 ∧ a + n * 4096 ≤ 2147483648 := by
    unfold ROUNDUP sizeof_coremap PAGE_SIZE at ha
    unfold MIPS_KSEG0 MIPS_KSEG1 at h2
    unfold PAGE_SIZE at hn
    clear hlen hb
    have e1 : (s0.lastpaddr + 2 ^ 32 - s0.firstpaddr) % 2 ^ 32 = s0.lastpaddr - s0.firstpaddr := by
      omega
    rw [e1] at hn
    have hn1 : n * 4096 ≤ s0.lastpaddr - s0.firstpaddr := by omega
    have e2 : (n * 12 + s0.firstpaddr) % 2 ^ 32 = n * 12 + s0.firstpaddr := by omega
    rw [e2] at ha
    have e3 : (n * 12 + s0.firstpaddr + 4096 - 1) % 2 ^ 32 = n * 12 + s0.firstpaddr + 4095 := by
      omega
    rw [e3] at ha
    have e4 : (n * 12 + s0.firstpaddr + 4095) / 4096 * 4096 % 2 ^ 32 =
        (n * 12 + s0.firstpaddr + 4095) / 4096 * 4096 := by omega
    rw [e4] at ha
    omega
  refine ⟨a, ?_, ?_, ?_, ?_, ?_⟩
  · rw [hlen]; exact hbounds.1
  · exact hbounds.2.1
  · rw [hlen]; unfold PAGE_SIZE MIPS_KSEG0; exact hbounds.2.2
  · rw [hb]
  · intro j hj
    rw [hlen] at hj
    rw [hb]
    exact vm_bootstrap_loop_getElem n a j (by unfold PAGE_SIZE; omega) hj

theorem bootstrapped_paddr (s0 s : vmstate) (hram : ram_in_kseg0 s0)
    (hboot : s.frames.map coremap.paddr = (vm_bootstrap s0).frames.map coremap.paddr) :
    ∀ e ∈ s.frames, 0 < e.paddr ∧ e.paddr < MIPS_KSEG0 := by
  obtain ⟨start, h1, h2, h3, _, h5⟩ := vm_bootstrap_frames s0 hram
  intro e he
  have hmem : e.paddr ∈ (vm_bootstrap s0).frames.map coremap.paddr := by
    rw [← hboot]
    exact List.mem_map_of_mem _ he
  obtain ⟨e', he', hpe⟩ := List.mem_map.mp hmem
  obtain ⟨j, hj⟩ := List.mem_iff_getElem?.mp he'
  have hjlt : j < numofFrames (vm_bootstrap s0) := (List.getElem?_eq_some.mp hj).1
  rw [h5 j hjlt] at hj
  cases hj
  rw [← hpe]
  simp only
  unfold PAGE_SIZE MIPS_KSEG0 at *
  omega

/-- C16. Destroy of an unpopulated descriptor is safe: in every directory state whose
frames carry the `paddr`s laid out by `vm_bootstrap` (for a RAM range that KSEG0 maps),
the release `as_destroy` performs for a zero base, `free_kpages(PADDR_TO_KVADDR(0))`,
changes nothing; hence `as_destroy` of a descriptor whose three bases are still 0 leaves
the directory as it was. -/
theorem free_kpages_zero_base (s0 s : vmstate) (hram : ram_in_kseg0 s0)
    (hboot : s.frames.map coremap.paddr = (vm_bootstrap s0).frames.map coremap.paddr) :
    free_kpages (PADDR_TO_KVADDR 0) s = .ok s ∧
      ∀ «as» : addrspace, «as».as_pbase1 = 0 → «as».as_pbase2 = 0 → «as».as_stackpbase = 0 →
        as_destroy «as» s = .ok s := by
  have hp := bootstrapped_paddr s0 s hram hboot
  have hkv : PADDR_TO_KVADDR 0 = 2147483648 := by decide
  have hfree : free_kpages (PADDR_TO_KVADDR 0) s = .ok s := by
    rw [hkv]
    have hcond : (s.isCoremapDone && (2147483648 : Nat) == 0) = false := by simp
    have h1 : ∀ x ∈ s.frames, x.paddr ≠ 2147483648 := by
      intro x hx
      have := (hp x hx).2
      unfold MIPS_KSEG0 at this
      omega
    have h2 : ∀ x ∈ s.frames, x.paddr ≠ (2147483648 + 2 ^ 32 - MIPS_KSEG0) % 2 ^ 32 := by
      intro x hx
      have := (hp x hx).1
      unfold MIPS_KSEG0
      omega
    simp only [free_kpages, hcond, Bool.false_eq_true, if_false,
      free_kpages_loop1_noop _ s.frames h1, free_kpages_loop2_none _ s.frames s.frames 0 h2]
  refine ⟨hfree, ?_⟩
  intro «as» h1 h2 h3
  simp only [as_destroy, h1, h2, h3, hfree]

/-- C16 witness: the directory bootstrapped from `[0x10000, 0x15000)` after one page was
acquired. -/
theorem free_kpages_zero_base_witness :
    free_kpages (PADDR_TO_KVADDR 0)
        ⟨[⟨0x11000, true, 1⟩, ⟨0x12000, false, 0⟩, ⟨0x13000, false, 0⟩, ⟨0x14000, false, 0⟩,
          ⟨0x15000, false, 0⟩], 1, true, 0x10000, 0x15000⟩ =
        .ok ⟨[⟨0x11000, true, 1⟩, ⟨0x12000, false, 0⟩, ⟨0x13000, false, 0⟩,
          ⟨0x14000, false, 0⟩, ⟨0x15000, false, 0⟩], 1, true, 0x10000, 0x15000⟩ ∧
      ∀ «as» : addrspace, «as».as_pbase1 = 0 → «as».as_pbase2 = 0 → «as».as_stackpbase = 0 →
        as_destroy «as»
          ⟨[⟨0x11000, true, 1⟩, ⟨0x12000, false, 0⟩, ⟨0x13000, false, 0⟩, ⟨0x14000, false, 0⟩,
            ⟨0x15000, false, 0⟩], 1, true, 0x10000, 0x15000⟩ =
          .ok ⟨[⟨0x11000, true, 1⟩, ⟨0x12000, false, 0⟩, ⟨0x13000, false, 0⟩,
            ⟨0x14000, false, 0⟩, ⟨0x15000, false, 0⟩], 1, true, 0x10000, 0x15000⟩ :=
  free_kpages_zero_base ⟨[], 0, false, 0x10000, 0x15000⟩
    ⟨[⟨0x11000, true, 1⟩, ⟨0x12000, false, 0⟩, ⟨0x13000, false, 0⟩, ⟨0x14000, false, 0⟩,
      ⟨0x15000, false, 0⟩], 1, true, 0x10000, 0x15000⟩ (by decide) (by decide)

/-! ## The run invariant -/

theorem getppages_ok_inv (s s' : vmstate) (n pa : Nat) (hlive : s.isCoremapDone = true)
    (h : getppages n s = .ok (pa, s')) :
    ∃ (i m : Nat) (e : coremap), s.frames[i]? = some e ∧ pa = e.paddr ∧ 1 ≤ m ∧ m ≤ n ∧
      i + m ≤ s.frames.length ∧ (∀ k < m, is_free s.frames (i + k)) ∧
      (m = n ∨ i + m = s.frames.length) ∧ (∀ q < i, ¬ run_free s.frames q n) ∧
      s'.isCoremapDone = true ∧ s'.firstpaddr = s.firstpaddr ∧ s'.lastpaddr = s.lastpaddr ∧
      s'.frames.length = s.frames.length ∧
      ∀ j : Nat, s'.frames[j]? = (s.frames[j]?).map (stamp i m j) := by
  have hsr := scan_result s.frames n
  rcases hscan : find_index_loop n s.frames 0 0 (-1) with ⟨m, index⟩
  rw [hscan] at hsr
  simp only at hsr
  rcases hsr with ⟨_, hidx, _⟩ | ⟨i0, h1, h2, h3, h4, h5, h6, h7⟩
  · have := getppages_panic_of_scan s n hlive (by rw [hscan]; exact hidx)
    rw [this] at h
    cases h
  · subst h1
    have hilt : i0 < s.frames.length := by omega
    obtain ⟨e, he⟩ : ∃ e, s.frames[i0]? = some e := ⟨_, List.getElem?_eq_getElem hilt⟩
    obtain ⟨cm', g1, g2, g3⟩ := getppages_of_scan s n m i0 e hlive hscan he h2 h4
    rw [g1] at h
    simp only [Except.ok.injEq, Prod.mk.injEq] at h
    obtain ⟨hpa, hs'⟩ := h
    subst hs'
    exact ⟨i0, m, e, he, hpa.symm, h2, h3, h4, h5, h7, h6, hlive, rfl, rfl, g2, g3⟩

theorem getppages_not_live (s s' : vmstate) (n pa : Nat) (hlive : s.isCoremapDone = false)
    (h : getppages n s = .ok (pa, s')) : s'.frames = s.frames := by
  unfold getppages at h
  simp only [hlive, Bool.false_eq_true, if_false, Except.ok.injEq, Prod.mk.injEq] at h
  rw [← h.2]
  unfold ram_stealmem
  simp only
  split <;> rfl

theorem not_in_use_of_free {cm : List coremap} {j : Nat} (h : is_free cm j) : ¬ in_use cm j := by
  unfold is_free at h
  unfold in_use
  rw [h]
  simp

theorem entry_fields {cm : List coremap} {j : Nat} {x : coremap} (h : cm[j]? = some x) :
    run_len cm j = x.contiguous ∧ paddr_at cm j = x.paddr ∧
      (in_use cm j ↔ x.is_used = true) ∧ (is_free cm j ↔ x.is_used = false) := by
  simp [run_len, paddr_at, in_use, is_free, h]

theorem stamp_fields (cm cm' : List coremap) (i m : Nat) (hm : 1 ≤ m)
    (hst : ∀ j : Nat, cm'[j]? = (cm[j]?).map (stamp i m j)) (j : Nat) (hj : j < cm.length) :
    run_len cm' j = (if j = i then m else run_len cm j) ∧
      paddr_at cm' j = paddr_at cm j ∧
      (in_use cm' j ↔ ((i ≤ j ∧ j < i + m) ∨ in_use cm j)) ∧
      (is_free cm' j ↔ (¬ (i ≤ j ∧ j < i + m) ∧ is_free cm j)) := by
  obtain ⟨x, hx⟩ : ∃ x, cm[j]? = some x := ⟨_, List.getElem?_eq_getElem hj⟩
  have hx' : cm'[j]? = some (stamp i m j x) := by rw [hst j, hx]; rfl
  obtain ⟨a1, a2, a3, a4⟩ := entry_fields hx
  obtain ⟨b1, b2, b3, b4⟩ := entry_fields hx'
  rw [a1, a2, a3, a4, b1, b2, b3, b4]
  unfold stamp
  by_cases h1 : j = i
  · have c : i ≤ j ∧ j < i + m := by omega
    simp [h1, c]
    omega
  · by_cases h2 : i < j ∧ j < i + m
    · have c : i ≤ j ∧ j < i + m := by omega
      simp [h1, h2, c]
    · have c : ¬ (i ≤ j ∧ j < i + m) := by omega
      simp [h1, h2, c]

theorem unstamp_fields (cm cm' : List coremap) (i k : Nat) (hk : 1 ≤ k)
    (hst : ∀ j : Nat, cm'[j]? = (cm[j]?).map (unstamp i k j)) (j : Nat) (hj : j < cm.length) :
    run_len cm' j = (if j = i then 0 else run_len cm j) ∧
      paddr_at cm' j = paddr_at cm j ∧
      (in_use cm' j ↔ (¬ (i ≤ j ∧ j < i + k) ∧ in_use cm j)) ∧
      (is_free cm' j ↔ ((i ≤ j ∧ j < i + k) ∨ is_free cm j)) := by
  obtain ⟨x, hx⟩ : ∃ x, cm[j]? = some x := ⟨_, List.getElem?_eq_getElem hj⟩
  have hx' : cm'[j]? = some (unstamp i k j x) := by rw [hst j, hx]; rfl
  obtain ⟨a1, a2, a3, a4⟩ := entry_fields hx
  obtain ⟨b1, b2, b3, b4⟩ := entry_fields hx'
  rw [a1, a2, a3, a4, b1, b2, b3, b4]
  unfold unstamp
  by_cases h1 : j = i
  · have c : i ≤ j ∧ j < i + k := by omega
    simp [h1, c]
    omega
  · by_cases h2 : i < j ∧ j < i + k
    · have c : i ≤ j ∧ j < i + k := by omega
      simp [h1, h2, c]
    · have c : ¬ (i ≤ j ∧ j < i + k) := by omega
      simp [h1, h2, c]

theorem map_paddr_eq_of_pointwise (cm cm' : List coremap) (f : Nat → coremap → coremap)
    (hf : ∀ j x, (f j x).paddr = x.paddr)
    (hst : ∀ j : Nat, cm'[j]? = (cm[j]?).map (f j)) :
    cm'.map coremap.paddr = cm.map coremap.paddr := by
  apply List.ext_getElem?
  intro j
  rw [List.getElem?_map, List.getElem?_map, hst j]
  cases cm[j]? with
  | none => rfl
  | some x => simp [hf]

theorem unstamp_paddr (i k j : Nat) (x : coremap) : (unstamp i k j x).paddr = x.paddr := by
  unfold unstamp
  split_ifs <;> rfl

theorem run_invariant_stamp (cm cm' : List coremap) (i m : Nat) (hm : 1 ≤ m)
    (hfit : i + m ≤ cm.length) (hfree : ∀ k < m, is_free cm (i + k))
    (hlen : cm'.length = cm.length)
    (hst : ∀ j : Nat, cm'[j]? = (cm[j]?).map (stamp i m j))
    (hinv : run_invariant cm) : run_invariant cm' := by
  obtain ⟨R1, R2, R3, R4⟩ := hinv
  have F := stamp_fields cm cm' i m hm hst
  have hi0 : is_free cm i := hfree 0 (by omega)
  have hfree' : ∀ j, i ≤ j → j < i + m → is_free cm j := by
    intro j h1 h2
    have := hfree (j - i) (by omega)
    have e : i + (j - i) = j := by omega
    rw [e] at this
    exact this
  refine ⟨?_, ?_, ?_, ?_⟩
  · intro x hx hrl
    rw [hlen] at hx
    obtain ⟨f1, _, f3, _⟩ := F x hx
    rw [f1] at hrl ⊢
    by_cases hxi : x = i
    · subst hxi
      simp only [if_true] at hrl ⊢
      refine ⟨f3.mpr (Or.inl ⟨le_refl _, by omega⟩), by rw [hlen]; omega, ?_⟩
      intro t ht ht1
      have hlt : x + t < cm.length := by omega
      obtain ⟨g1, _, g3, _⟩ := F (x + t) hlt
      refine ⟨g3.mpr (Or.inl ⟨by omega, by omega⟩), ?_⟩
      rw [g1, if_neg (by omega)]
      exact R2 (x + t) hlt (hfree t ht)
    · simp only [hxi, if_false] at hrl ⊢
      obtain ⟨u1, u2, u3⟩ := R1 x hx hrl
      refine ⟨f3.mpr (Or.inr u1), by rw [hlen]; exact u2, ?_⟩
      intro t ht ht1
      obtain ⟨v1, v2⟩ := u3 t ht ht1
      have hlt : x + t < cm.length := by omega
      obtain ⟨g1, _, g3, _⟩ := F (x + t) hlt
      refine ⟨g3.mpr (Or.inr v1), ?_⟩
      rw [g1]
      have hne : x + t ≠ i := by
        intro heq
        rw [← heq] at hi0
        exact not_in_use_of_free hi0 v1
      rw [if_neg hne]
      exact v2
  · intro x hx hfr
    rw [hlen] at hx
    obtain ⟨f1, _, _, f4⟩ := F x hx
    obtain ⟨h1, h2⟩ := f4.mp hfr
    rw [f1, if_neg (by omega)]
    exact R2 x hx h2
  · intro x hx y hy hxy
    rw [hlen] at hx hy
    obtain ⟨hlt, hrx, hry⟩ := hxy
    obtain ⟨f1, _, _, _⟩ := F x hx
    obtain ⟨g1, _, _, _⟩ := F y hy
    rw [f1] at hrx ⊢
    rw [g1] at hry
    by_cases hxi : x = i
    · subst hxi
      simp only [if_true] at hrx ⊢
      have hyi : ¬ y = x := by omega
      simp only [hyi, if_false] at hry
      have hyu := (R1 y hy hry).1
      by_contra hcon
      exact not_in_use_of_free (hfree' y (by omega) (by omega)) hyu
    · simp only [hxi, if_false] at hrx ⊢
      by_cases hyi : y = i
      · subst hyi
        obtain ⟨_, _, u3⟩ := R1 x hx hrx
        by_contra hcon
        have := (u3 (y - x) (by omega) (by omega)).1
        have e : x + (y - x) = y := by omega
        rw [e] at this
        exact not_in_use_of_free hi0 this
      · simp only [hyi, if_false] at hry
        exact R3 x hx y hy ⟨hlt, hrx, hry⟩
  · intro x hx
    rw [hlen] at hx ⊢
    obtain ⟨_, f2, _, _⟩ := F x hx
    rw [f2]
    refine ⟨(R4 x hx).1, ?_⟩
    intro hx1
    obtain ⟨_, g2, _, _⟩ := F (x + 1) hx1
    rw [g2]
    exact (R4 x hx).2 hx1

theorem run_invariant_unstamp (cm cm' : List coremap) (i k : Nat) (hk : 1 ≤ k)
    (hi : i < cm.length) (hrun : run_len cm i = k)
    (hlen : cm'.length = cm.length)
    (hst : ∀ j : Nat, cm'[j]? = (cm[j]?).map (unstamp i k j))
    (hinv : run_invariant cm) : run_invariant cm' := by
  obtain ⟨R1, R2, R3, R4⟩ := hinv
  have F := unstamp_fields cm cm' i k hk hst
  obtain ⟨q1, q2, q3⟩ := R1 i hi (by omega)
  rw [hrun] at q2 q3
  have hout : ∀ x < cm.length, x ≠ i → run_len cm x ≠ 0 →
      ∀ t < run_len cm x, ¬ (i ≤ x + t ∧ x + t < i + k) := by
    intro x hx hxi hrx t ht hin
    obtain ⟨_, u2, u3⟩ := R1 x hx hrx
    rcases Nat.lt_or_gt_of_ne hxi with hlt | hgt
    · have := R3 x hx i hi ⟨hlt, hrx, by omega⟩
      omega
    · have := R3 i hi x hx ⟨hgt, by omega, hrx⟩
      omega
  refine ⟨?_, ?_, ?_, ?_⟩
  · intro x hx hrl
    rw [hlen] at hx
    obtain ⟨f1, _, f3, _⟩ := F x hx
    rw [f1] at hrl ⊢
    by_cases hxi : x = i
    · simp [hxi] at hrl
    · simp only [hxi, if_false] at hrl ⊢
      obtain ⟨u1, u2, u3⟩ := R1 x hx hrl
      refine ⟨f3.mpr ⟨?_, u1⟩, by rw [hlen]; exact u2, ?_⟩
      · have := hout x hx hxi hrl 0 (by omega)
        simpa using this
      · intro t ht ht1
        obtain ⟨v1, v2⟩ := u3 t ht ht1
        have hlt : x + t < cm.length := by omega
        obtain ⟨g1, _, g3, _⟩ := F (x + t) hlt
        refine ⟨g3.mpr ⟨hout x hx hxi hrl t ht, v1⟩, ?_⟩
        rw [g1]
        split
        · rfl
        · exact v2
  · intro x hx hfr
    rw [hlen] at hx
    obtain ⟨f1, _, _, f4⟩ := F x hx
    rw [f1]
    split
    · rfl
    · rename_i hxi
      rcases f4.mp hfr with hin | hfree
      · have := (q3 (x - i) (by omega) (by omega)).2
        have e : i + (x - i) = x := by omega
        rw [e] at this
        exact this
      · exact R2 x hx hfree
  · intro x hx y hy hxy
    rw [hlen] at hx hy
    obtain ⟨hlt, hrx, hry⟩ := hxy
    obtain ⟨f1, _, _, _⟩ := F x hx
    obtain ⟨g1, _, _, _⟩ := F y hy
    rw [f1] at hrx ⊢
    rw [g1] at hry
    by_cases hxi : x = i
    · simp [hxi] at hrx
    · by_cases hyi : y = i
      · simp [hyi] at hry
      · simp only [hxi, hyi, if_false] at hrx hry ⊢
        exact R3 x hx y hy ⟨hlt, hrx, hry⟩
  · intro x hx
    rw [hlen] at hx ⊢
    obtain ⟨_, f2, _, _⟩ := F x hx
    rw [f2]
    refine ⟨(R4 x hx).1, ?_⟩
    intro hx1
    obtain ⟨_, g2, _, _⟩ := F (x + 1) hx1
    rw [g2]
    exact (R4 x hx).2 hx1

theorem paddr_at_linear (cm : List coremap) (h4 : run_inv_paddr cm) :
    ∀ j < cm.length, paddr_at cm j = paddr_at cm 0 + j * PAGE_SIZE := by
  intro j
  induction j with
  | zero => intro _; simp
  | succ n ih =>
    intro hn
    rw [(h4 n (by omega)).2 hn, ih (by omega)]
    unfold PAGE_SIZE
    omega

theorem run_invariant_first_match (cm : List coremap) (h4 : run_inv_paddr cm)
    (j : Nat) (e : coremap) (he : cm[j]? = some e) :
    ∀ a < j, ∀ x, cm[a]? = some x → x.paddr ≠ e.paddr := by
  intro a ha x hx
  have hj : j < cm.length := (List.getElem?_eq_some.mp he).1
  have e1 := paddr_at_linear cm h4 j hj
  have e2 := paddr_at_linear cm h4 a (by omega)
  rw [(entry_fields he).2.1] at e1
  rw [(entry_fields hx).2.1] at e2
  rw [e1, e2]
  unfold PAGE_SIZE
  omega

theorem vm_bootstrap_run_invariant (s0 : vmstate) (hram : ram_in_kseg0 s0) :
    run_invariant (vm_bootstrap s0).frames ∧ frames_below_kseg0 (vm_bootstrap s0).frames := by
  obtain ⟨start, h1, h2, h3, _, h5⟩ := vm_bootstrap_frames s0 hram
  have hf : ∀ j < (vm_bootstrap s0).frames.length,
      run_len (vm_bootstrap s0).frames j = 0 ∧
      paddr_at (vm_bootstrap s0).frames j = start + j * PAGE_SIZE := by
    intro j hj
    have := entry_fields (h5 j hj)
    exact ⟨this.1, this.2.1⟩
  refine ⟨⟨?_, ?_, ?_, ?_⟩, ?_⟩
  · intro i hi hr
    exact absurd (hf i hi).1 hr
  · intro i hi _
    exact (hf i hi).1
  · intro i hi j hj hij
    exact absurd (hf i hi).1 hij.2.1
  · intro i hi
    rw [(hf i hi).2]
    refine ⟨by unfold PAGE_SIZE at *; omega, ?_⟩
    intro hi1
    rw [(hf (i + 1) hi1).2]
    unfold PAGE_SIZE
    omega
  · intro e he
    obtain ⟨j, hj⟩ := List.mem_iff_getElem?.mp he
    have hjlt : j < numofFrames (vm_bootstrap s0) := (List.getElem?_eq_some.mp hj).1
    rw [h5 j hjlt] at hj
    cases hj
    simp only
    unfold PAGE_SIZE MIPS_KSEG0 at *
    omega

theorem getppages_run_invariant (s s' : vmstate) (n pa : Nat)
    (hinv : run_invariant s.frames) (h : getppages n s = .ok (pa, s')) :
    run_invariant s'.frames ∧ s'.frames.map coremap.paddr = s.frames.map coremap.paddr := by
  cases hlive : s.isCoremapDone with
  | false =>
    rw [getppages_not_live s s' n pa hlive h]
    exact ⟨hinv, rfl⟩
  | true =>
    obtain ⟨i, m, e, _, _, hm, _, hfit, hfree, _, _, _, _, _, hlen, hst⟩ :=
      getppages_ok_inv s s' n pa hlive h
    exact ⟨run_invariant_stamp s.frames s'.frames i m hm hfit hfree hlen hst hinv,
      map_paddr_eq_of_pointwise _ _ (stamp i m) (stamp_paddr i m) hst⟩

theorem free_kpages_run_invariant (s : vmstate) (addr : Nat)
    (hinv : run_invariant s.frames) (hlow : frames_below_kseg0 s.frames)
    (haddr : MIPS_KSEG0 ≤ addr) :
    ∃ s', free_kpages addr s = .ok s' ∧ run_invariant s'.frames ∧
      s'.frames.map coremap.paddr = s.frames.map coremap.paddr := by
  have hnz : addr ≠ 0 := by unfold MIPS_KSEG0 at haddr; omega
  have h1 : ∀ x ∈ s.frames, x.paddr ≠ addr := by
    intro x hx
    have := hlow x hx
    omega
  by_cases hex : ∃ (j : Nat) (e : coremap), s.frames[j]? = some e ∧
      e.paddr = (addr + 2 ^ 32 - MIPS_KSEG0) % 2 ^ 32 ∧ e.contiguous ≠ 0
  · obtain ⟨j, e, he, hp, hc⟩ := hex
    have hj : j < s.frames.length := (List.getElem?_eq_some.mp he).1
    have hrl : run_len s.frames j = e.contiguous := (entry_fields he).1
    obtain ⟨_, hfit, _⟩ := hinv.1 j hj (by rw [hrl]; exact hc)
    rw [hrl] at hfit
    obtain ⟨cm', g1, g2, g3⟩ := free_kpages_of_first s addr j e hnz h1 he hp
      (run_invariant_first_match s.frames hinv.2.2.2 j e he) (by omega) hfit
    exact ⟨_, g1, run_invariant_unstamp s.frames cm' j e.contiguous (by omega) hj hrl g2 g3 hinv,
      map_paddr_eq_of_pointwise _ _ (unstamp j e.contiguous) (unstamp_paddr j e.contiguous) g3⟩
  · have hzero : ∀ x ∈ s.frames, x.paddr = (addr + 2 ^ 32 - MIPS_KSEG0) % 2 ^ 32 →
        x.contiguous = 0 := by
      intro x hx hp
      by_contra hc
      obtain ⟨j, hj⟩ := List.mem_iff_getElem?.mp hx
      exact hex ⟨j, x, hj, hp, hc⟩
    have hcond : (s.isCoremapDone && addr == 0) = false := by simp [hnz]
    refine ⟨{ s with frames := s.frames }, ?_, hinv, rfl⟩
    simp only [free_kpages, hcond, Bool.false_eq_true, if_false,
      free_kpages_loop1_noop addr s.frames h1,
      free_kpages_loop2_noop _ s.frames s.frames 0 (by simp) hzero]

/-- C20. Directory run invariant: for a RAM range that KSEG0 maps, the state produced by
`vm_bootstrap` satisfies the run invariant (parts (1) to (4)) and its frames lie below
`MIPS_KSEG0`; every `getppages` call that returns preserves the invariant; every
`free_kpages` call with a kernel-segment address (at least `MIPS_KSEG0`) returns and
preserves it; and neither call modifies a `paddr` field. -/
theorem run_invariant_maintained :
    (∀ s0 : vmstate, ram_in_kseg0 s0 →
      run_invariant (vm_bootstrap s0).frames ∧ frames_below_kseg0 (vm_bootstrap s0).frames) ∧
    (∀ (s s' : vmstate) (n pa : Nat), run_invariant s.frames →
      getppages n s = .ok (pa, s') →
      run_invariant s'.frames ∧ s'.frames.map coremap.paddr = s.frames.map coremap.paddr) ∧
    (∀ (s : vmstate) (addr : Nat), run_invariant s.frames → frames_below_kseg0 s.frames →
      MIPS_KSEG0 ≤ addr →
      ∃ s', free_kpages addr s = .ok s' ∧ run_invariant s'.frames ∧
        s'.frames.map coremap.paddr = s.frames.map coremap.paddr) :=
  ⟨vm_bootstrap_run_invariant, getppages_run_invariant, free_kpages_run_invariant⟩

/-- C20 witness: the directory bootstrapped from `[0x10000, 0x15000)`, an acquire of two
frames on it, and the release of that run. -/
theorem run_invariant_maintained_witness :
    (run_invariant (vm_bootstrap ⟨[], 0, false, 0x10000, 0x15000⟩).frames ∧
      frames_below_kseg0 (vm_bootstrap ⟨[], 0, false, 0x10000, 0x15000⟩).frames) ∧
    (run_invariant [⟨0x11000, true, 2⟩, ⟨0x12000, true, 0⟩, ⟨0x13000, false, 0⟩,
        ⟨0x14000, false, 0⟩, ⟨0x15000, false, 0⟩] ∧
      ([⟨0x11000, true, 2⟩, ⟨0x12000, true, 0⟩, ⟨0x13000, false, 0⟩,
        ⟨0x14000, false, 0⟩, ⟨0x15000, false, 0⟩] : List coremap).map coremap.paddr =
      (vm_bootstrap ⟨[], 0, false, 0x10000, 0x15000⟩).frames.map coremap.paddr) ∧
    (∃ s', free_kpages 0x80011000 ⟨[⟨0x11000, true, 2⟩, ⟨0x12000, true, 0⟩,
        ⟨0x13000, false, 0⟩, ⟨0x14000, false, 0⟩, ⟨0x15000, false, 0⟩], 2, true, 0x10000,
        0x15000⟩ = .ok s' ∧ run_invariant s'.frames ∧
      s'.frames.map coremap.paddr =
        ([⟨0x11000, true, 2⟩, ⟨0x12000, true, 0⟩, ⟨0x13000, false, 0⟩,
          ⟨0x14000, false, 0⟩, ⟨0x15000, false, 0⟩] : List coremap).map coremap.paddr) :=
  ⟨run_invariant_maintained.1 ⟨[], 0, false, 0x10000, 0x15000⟩ (by decide),
    run_invariant_maintained.2.1 (vm_bootstrap ⟨[], 0, false, 0x10000, 0x15000⟩)
      ⟨[⟨0x11000, true, 2⟩, ⟨0x12000, true, 0⟩, ⟨0x13000, false, 0⟩, ⟨0x14000, false, 0⟩,
        ⟨0x15000, false, 0⟩], 2, true, 0x10000, 0x15000⟩ 2 0x11000 (by decide) (by decide),
    run_invariant_maintained.2.2 ⟨[⟨0x11000, true, 2⟩, ⟨0x12000, true, 0⟩,
        ⟨0x13000, false, 0⟩, ⟨0x14000, false, 0⟩, ⟨0x15000, false, 0⟩], 2, true, 0x10000,
        0x15000⟩ 0x80011000 (by decide) (by decide) (by decide)⟩

/-! ## Acquire then release -/

theorem run_invariant_nodup (cm : List coremap) (h4 : run_inv_paddr cm) :
    (cm.map coremap.paddr).Nodup := by
  rw [List.nodup_iff_getElem?_ne_getElem?]
  intro i j hij hj
  rw [List.length_map] at hj
  have hx : cm[i]? = some cm[i] := List.getElem?_eq_getElem (by omega)
  have hy : cm[j]? = some cm[j] := List.getElem?_eq_getElem hj
  simp only [List.getElem?_map, hx, hy, Option.map_some', ne_eq, Option.some.injEq]
  exact run_invariant_first_match cm h4 j _ hy i hij _ hx

theorem run_invariant_free_zero (cm : List coremap) (h2 : run_inv_free cm) :
    ∀ x ∈ cm, x.is_used = false → x.contiguous = 0 := by
  intro x hx hfree
  obtain ⟨j, hj⟩ := List.mem_iff_getElem?.mp hx
  obtain ⟨f1, _, _, f4⟩ := entry_fields hj
  rw [← f1]
  exact h2 j (List.getElem?_eq_some.mp hj).1 (f4.mpr hfree)

/-- C6: acquire/release round trip and first-fit determinism. On a live directory that
satisfies the run invariant and whose frames lie below `MIPS_KSEG0`, whenever
`alloc_kpages n` returns a non-zero address `v`, `free_kpages v` restores the directory to
exactly its state before the allocation, and an immediately following `alloc_kpages n`
returns `v` again. -/
theorem alloc_free_round_trip (s s1 : vmstate) (n : Int) (v : Nat)
    (hlive : s.isCoremapDone = true) (hinv : run_invariant s.frames)
    (hlow : frames_below_kseg0 s.frames)
    (halloc : alloc_kpages n s = .ok (v, s1)) (hv : v ≠ 0) :
    ∃ s2, free_kpages v s1 = .ok s2 ∧ s2.frames = s.frames ∧
      ∃ s3, alloc_kpages n s2 = .ok (v, s3) :=
  alloc_free_round_trip_of_distinct s s1 n v hlive
    (run_invariant_free_zero s.frames hinv.2.1) (run_invariant_nodup s.frames hinv.2.2.2)
    hlow halloc hv

/-- C6 witness: one page is acquired from a four-frame directory whose first frame is in
use. -/
theorem alloc_free_round_trip_witness :
    ∃ s2, free_kpages 0x80002000
        ⟨[⟨4096, true, 1⟩, ⟨8192, true, 1⟩, ⟨12288, false, 0⟩, ⟨16384, false, 0⟩],
          1, true, 0, 0⟩ = .ok s2 ∧
      s2.frames = [⟨4096, true, 1⟩, ⟨8192, false, 0⟩, ⟨12288, false, 0⟩, ⟨16384, false, 0⟩] ∧
      ∃ s3, alloc_kpages 1 s2 = .ok (0x80002000, s3) :=
  alloc_free_round_trip
    ⟨[⟨4096, true, 1⟩, ⟨8192, false, 0⟩, ⟨12288, false, 0⟩, ⟨16384, false, 0⟩], 0, true, 0, 0⟩
    ⟨[⟨4096, true, 1⟩, ⟨8192, true, 1⟩, ⟨12288, false, 0⟩, ⟨16384, false, 0⟩], 1, true, 0, 0⟩
    1 0x80002000 rfl (by decide) (by decide) (by decide) (by decide)

/-! ## as_prepare_load -/

theorem as_prepare_load_ok_inv («as» as' : addrspace) (s s' : vmstate) (mem mem' : memory)
    (h : as_prepare_load «as» s mem = .ok (.zero, as', s', mem')) :
    («as».as_pbase1 = 0 ∧ «as».as_pbase2 = 0 ∧ «as».as_stackpbase = 0) ∧
    ∃ (pa1 pa2 pa3 : Nat) (s1 s2 : vmstate),
      getppages «as».as_npages1 s = .ok (pa1, s1) ∧ pa1 ≠ 0 ∧
      getppages «as».as_npages2 s1 = .ok (pa2, s2) ∧ pa2 ≠ 0 ∧
      getppages DUMBVM_STACKPAGES s2 = .ok (pa3, s') ∧ pa3 ≠ 0 ∧
      as' = { «as» with as_pbase1 := pa1, as_pbase2 := pa2, as_stackpbase := pa3 } ∧
      mem' = as_zero_region pa3 DUMBVM_STACKPAGES
        (as_zero_region pa2 «as».as_npages2 (as_zero_region pa1 «as».as_npages1 mem)) := by
  unfold as_prepare_load at h
  split at h
  · cases h
  · rename_i h0
    have h0' : «as».as_pbase1 = 0 ∧ «as».as_pbase2 = 0 ∧ «as».as_stackpbase = 0 := by
      simp only [ne_eq, not_or, not_not] at h0
      exact h0
    refine ⟨h0', ?_⟩
    cases g1 : getppages «as».as_npages1 s with
    | error f => rw [g1] at h; cases h
    | ok r1 =>
      obtain ⟨pa1, s1⟩ := r1
      rw [g1] at h
      simp only at h
      split at h
      · cases h
      · rename_i hp1
        cases g2 : getppages «as».as_npages2 s1 with
        | error f => rw [g2] at h; cases h
        | ok r2 =>
          obtain ⟨pa2, s2⟩ := r2
          rw [g2] at h
          simp only at h
          split at h
          · cases h
          · rename_i hp2
            cases g3 : getppages DUMBVM_STACKPAGES s2 with
            | error f => rw [g3] at h; cases h
            | ok r3 =>
              obtain ⟨pa3, s3⟩ := r3
              rw [g3] at h
              simp only at h
              split at h
              · cases h
              · rename_i hp3
                simp only [Except.ok.injEq, Prod.mk.injEq, true_and] at h
                obtain ⟨e1, e2, e3⟩ := h
                subst e2
                exact ⟨pa1, pa2, pa3, s1, s2, rfl, hp1, g2, hp2, g3, hp3, e1.symm, e3.symm⟩

theorem getppages_keeps_in_use (s s' : vmstate) (n pa : Nat)
    (h : getppages n s = .ok (pa, s')) :
    ∀ j : Nat, in_use s.frames j → in_use s'.frames j := by
  intro j hj
  cases hlive : s.isCoremapDone with
  | false =>
    rw [getppages_not_live s s' n pa hlive h]
    exact hj
  | true =>
    obtain ⟨i, m, e, _, _, hm, _, _, _, _, _, _, _, _, hlen, hst⟩ :=
      getppages_ok_inv s s' n pa hlive h
    have hjl : j < s.frames.length := by
      unfold in_use at hj
      by_contra hcon
      rw [List.getElem?_eq_none (by omega)] at hj
      simp at hj
    exact ((stamp_fields s.frames s'.frames i m hm hst j hjl).2.2.1).mpr (Or.inr hj)

/-- C18 (code defect). With the directory live and every frame in use, the first
allocation of `as_prepare_load` cannot be satisfied and `getppages` panics, so
`as_prepare_load` does not return `ENOMEM`; likewise when the first allocation takes the
only free frame and the second cannot be satisfied. Before the directory is live the same
request on an exhausted boot allocator gets base 0 from `getppages` and `as_prepare_load`
returns `ENOMEM`, as the claim says. -/
theorem as_prepare_load_panics :
    (∀ q, ¬ run_free [⟨0x11000, true, 1⟩, ⟨0x12000, true, 1⟩] q 1) ∧
      as_prepare_load ⟨0x400000, 0, 1, 0x10000000, 0, 1, 0, false⟩
        ⟨[⟨0x11000, true, 1⟩, ⟨0x12000, true, 1⟩], 0, true, 0, 0⟩ (fun _ => 0) =
        .error .panic ∧
      getppages 1 ⟨[⟨0x11000, false, 0⟩, ⟨0x12000, true, 1⟩], 0, true, 0, 0⟩ =
        .ok (0x11000, ⟨[⟨0x11000, true, 1⟩, ⟨0x12000, true, 1⟩], 1, true, 0, 0⟩) ∧
      as_prepare_load ⟨0x400000, 0, 1, 0x10000000, 0, 1, 0, false⟩
        ⟨[⟨0x11000, false, 0⟩, ⟨0x12000, true, 1⟩], 0, true, 0, 0⟩ (fun _ => 0) =
        .error .panic ∧
      getppages 1 ⟨[], 0, false, 0x13000, 0x13000⟩ =
        .ok (0, ⟨[], 0, false, 0x13000, 0x13000⟩) ∧
      (as_prepare_load ⟨0x400000, 0, 1, 0x10000000, 0, 1, 0, false⟩
        ⟨[], 0, false, 0x13000, 0x13000⟩ (fun _ => 0)).map (fun r => r.1) =
        .ok .ENOMEM := by
  refine ⟨?_, rfl, by decide, rfl, by decide, rfl⟩
  intro q hrun
  have hq : q + 0 < 2 := by
    have := is_free_lt (hrun 0 (by omega))
    simpa using this
  have hq' : q = 0 ∨ q = 1 := by omega
  rcases hq' with h | h <;> subst h <;> revert hrun <;> decide

/-- The failure paths of `as_prepare_load`: it returns `ENOMEM` only when one of its three
`getppages` calls returns base 0; then memory is untouched, the runs obtained by the
earlier calls remain allocated and are recorded in the descriptor, and the bases of the
not-yet-allocated regions remain 0. With the directory live, an allocation that finds no
run (no window of the requested size and no free last entry) makes `getppages` panic, and
a panic of any of the three calls ends `as_prepare_load` without a return. -/
theorem as_prepare_load_failure («as» : addrspace) (s : vmstate) (mem : memory) :
    (∀ (as' : addrspace) (s' : vmstate) (mem' : memory),
      as_prepare_load «as» s mem = .ok (.ENOMEM, as', s', mem') →
      mem' = mem ∧ as'.as_stackpbase = 0 ∧
      ((getppages «as».as_npages1 s = .ok (0, s') ∧ as' = «as» ∧
          as'.as_pbase1 = 0 ∧ as'.as_pbase2 = 0) ∨
        (∃ (pa1 : Nat) (s1 : vmstate), getppages «as».as_npages1 s = .ok (pa1, s1) ∧ pa1 ≠ 0 ∧
          getppages «as».as_npages2 s1 = .ok (0, s') ∧
          as' = { «as» with as_pbase1 := pa1 } ∧ as'.as_pbase2 = 0 ∧
          ∀ j : Nat, in_use s1.frames j → in_use s'.frames j) ∨
        (∃ (pa1 pa2 : Nat) (s1 s2 : vmstate), getppages «as».as_npages1 s = .ok (pa1, s1) ∧
          pa1 ≠ 0 ∧ getppages «as».as_npages2 s1 = .ok (pa2, s2) ∧ pa2 ≠ 0 ∧
          getppages DUMBVM_STACKPAGES s2 = .ok (0, s') ∧
          as' = { «as» with as_pbase1 := pa1, as_pbase2 := pa2 } ∧
          ∀ j : Nat, in_use s2.frames j → in_use s'.frames j))) ∧
    (∀ (t : vmstate) (n : Nat), t.isCoremapDone = true → (∀ q, ¬ run_free t.frames q n) →
      ¬ is_free t.frames (t.frames.length - 1) → getppages n t = .error .panic) ∧
    («as».as_pbase1 = 0 ∧ «as».as_pbase2 = 0 ∧ «as».as_stackpbase = 0 →
      (getppages «as».as_npages1 s = .error .panic →
        as_prepare_load «as» s mem = .error .panic) ∧
      (∀ (pa1 : Nat) (s1 : vmstate), getppages «as».as_npages1 s = .ok (pa1, s1) → pa1 ≠ 0 →
        getppages «as».as_npages2 s1 = .error .panic →
        as_prepare_load «as» s mem = .error .panic) ∧
      (∀ (pa1 pa2 : Nat) (s1 s2 : vmstate), getppages «as».as_npages1 s = .ok (pa1, s1) →
        pa1 ≠ 0 → getppages «as».as_npages2 s1 = .ok (pa2, s2) → pa2 ≠ 0 →
        getppages DUMBVM_STACKPAGES s2 = .error .panic →
        as_prepare_load «as» s mem = .error .panic)) := by
  refine ⟨?_, ?_, ?_⟩
  · intro as' s' mem' h
    unfold as_prepare_load at h
    split at h
    · cases h
    · rename_i h0
      have h0' : «as».as_pbase1 = 0 ∧ «as».as_pbase2 = 0 ∧ «as».as_stackpbase = 0 := by
        simp only [ne_eq, not_or, not_not] at h0
        exact h0
      obtain ⟨z1, z2, z3⟩ := h0'
      cases g1 : getppages «as».as_npages1 s with
      | error f => rw [g1] at h; cases h
      | ok r1 =>
        obtain ⟨pa1, s1⟩ := r1
        rw [g1] at h
        simp only at h
        split at h
        · rename_i hp1
          simp only [Except.ok.injEq, Prod.mk.injEq, true_and] at h
          obtain ⟨e1, e2, e3⟩ := h
          subst e2 e3 hp1
          have hsame : ({ «as» with as_pbase1 := 0 } : addrspace) = «as» := by
            cases «as»
            simp_all
          rw [hsame] at e1
          subst e1
          exact ⟨rfl, z3, Or.inl ⟨rfl, rfl, z1, z2⟩⟩
        · rename_i hp1
          cases g2 : getppages «as».as_npages2 s1 with
          | error f => rw [g2] at h; cases h
          | ok r2 =>
            obtain ⟨pa2, s2⟩ := r2
            rw [g2] at h
            simp only at h
            split at h
            · rename_i hp2
              simp only [Except.ok.injEq, Prod.mk.injEq, true_and] at h
              obtain ⟨e1, e2, e3⟩ := h
              subst e2 e3 hp2
              have hsame : ({ «as» with as_pbase1 := pa1, as_pbase2 := 0 } : addrspace) =
                  { «as» with as_pbase1 := pa1 } := by
                cases «as»
                simp_all
              rw [hsame] at e1
              subst e1
              exact ⟨rfl, z3, Or.inr (Or.inl ⟨pa1, s1, rfl, hp1, g2, rfl, z2,
                getppages_keeps_in_use s1 _ _ _ g2⟩)⟩
            · rename_i hp2
              cases g3 : getppages DUMBVM_STACKPAGES s2 with
              | error f => rw [g3] at h; cases h
              | ok r3 =>
                obtain ⟨pa3, s3⟩ := r3
                rw [g3] at h
                simp only at h
                split at h
                · rename_i hp3
                  simp only [Except.ok.injEq, Prod.mk.injEq, true_and] at h
                  obtain ⟨e1, e2, e3⟩ := h
                  subst e2 e3 hp3
                  have hsame :
                      ({ «as» with as_pbase1 := pa1, as_pbase2 := pa2, as_stackpbase := 0 } :
                        addrspace) = { «as» with as_pbase1 := pa1, as_pbase2 := pa2 } := by
                    cases «as»
                    simp_all
                  rw [hsame] at e1
                  subst e1
                  exact ⟨rfl, z3, Or.inr (Or.inr ⟨pa1, pa2, s1, s2, rfl, hp1, g2, hp2, g3, rfl,
                    getppages_keeps_in_use s2 _ _ _ g3⟩)⟩
                · simp at h
  · intro t n hlive hnone hlast
    exact getppages_panics_without_trailing_run t n hlive hnone hlast
  · intro h0
    have hassert : ¬ («as».as_pbase1 ≠ 0 ∨ «as».as_pbase2 ≠ 0 ∨ «as».as_stackpbase ≠ 0) := by
      simp [h0.1, h0.2.1, h0.2.2]
    refine ⟨?_, ?_, ?_⟩
    · intro g1
      simp only [as_prepare_load, if_neg hassert, g1]
    · intro pa1 s1 g1 hp1 g2
      simp only [as_prepare_load, if_neg hassert, g1, if_neg hp1, g2]
    · intro pa1 pa2 s1 s2 g1 hp1 g2 hp2 g3
      simp only [as_prepare_load, if_neg hassert, g1, if_neg hp1, g2, if_neg hp2, g3]

/-! ## as_destroy -/

theorem frames_below_of_map_paddr (cm cm' : List coremap)
    (h : cm'.map coremap.paddr = cm.map coremap.paddr) (hlow : frames_below_kseg0 cm) :
    frames_below_kseg0 cm' := by
  intro e he
  have hmem : e.paddr ∈ cm.map coremap.paddr := by
    rw [← h]
    exact List.mem_map_of_mem _ he
  obtain ⟨e', he', hpe⟩ := List.mem_map.mp hmem
  rw [← hpe]
  exact hlow e' he'

theorem paddr_at_of_map_paddr (cm cm' : List coremap)
    (h : cm'.map coremap.paddr = cm.map coremap.paddr) (j : Nat) :
    paddr_at cm' j = paddr_at cm j := by
  have := congrArg (fun l => l[j]?) h
  simp only [List.getElem?_map] at this
  unfold paddr_at
  rw [this]

theorem free_kpages_run (s : vmstate) (i k : Nat) (hinv : run_invariant s.frames)
    (hlow : frames_below_kseg0 s.frames) (hi : i < s.frames.length)
    (hk : run_len s.frames i = k) (hk1 : 1 ≤ k) :
    ∃ s', free_kpages (PADDR_TO_KVADDR (paddr_at s.frames i)) s = .ok s' ∧
      s'.frames.length = s.frames.length ∧
      (∀ j : Nat, s'.frames[j]? = (s.frames[j]?).map (unstamp i k j)) ∧
      run_invariant s'.frames ∧ frames_below_kseg0 s'.frames ∧
      s'.frames.map coremap.paddr = s.frames.map coremap.paddr := by
  obtain ⟨e, he⟩ : ∃ e, s.frames[i]? = some e := ⟨_, List.getElem?_eq_getElem hi⟩
  obtain ⟨f1, f2, _, _⟩ := entry_fields he
  rw [f1] at hk
  rw [f2]
  have hel : e.paddr < MIPS_KSEG0 := hlow e (List.getElem?_mem he)
  have hkv : PADDR_TO_KVADDR e.paddr = e.paddr + MIPS_KSEG0 := by
    unfold PADDR_TO_KVADDR MIPS_KSEG0 at *
    omega
  obtain ⟨_, hfit, _⟩ := hinv.1 i hi (by rw [f1]; omega)
  rw [f1] at hfit
  obtain ⟨cm', g1, g2, g3⟩ := free_kpages_of_first s (PADDR_TO_KVADDR e.paddr) i e
    (by rw [hkv]; unfold MIPS_KSEG0; omega)
    (fun x hx => by have := hlow x hx; rw [hkv]; omega) he
    (by rw [hkv]; unfold MIPS_KSEG0 at *; omega)
    (run_invariant_first_match s.frames hinv.2.2.2 i e he) (by omega) hfit
  rw [hk] at g3
  have hmap := map_paddr_eq_of_pointwise _ _ (unstamp i k) (unstamp_paddr i k) g3
  exact ⟨_, g1, g2, g3,
    run_invariant_unstamp s.frames cm' i k hk1 hi (by rw [f1]; exact hk) g2 g3 hinv,
    frames_below_of_map_paddr _ _ hmap hlow, hmap⟩

theorem stamp_outside (i m j : Nat) (x : coremap) (h : ¬ (i ≤ j ∧ j < i + m)) (hm : 1 ≤ m) :
    stamp i m j x = x := by
  unfold stamp
  have h1 : ¬ j = i := by omega
  have h2 : ¬ (i < j ∧ j < i + m) := by omega
  simp [h1, h2]

theorem unstamp_outside (i k j : Nat) (x : coremap) (h : ¬ (i ≤ j ∧ j < i + k)) (hk : 1 ≤ k) :
    unstamp i k j x = x := by
  unfold unstamp
  have h1 : ¬ j = i := by omega
  have h2 : ¬ (i < j ∧ j < i + k) := by omega
  simp [h1, h2]

theorem free_run_disjoint (cm : List coremap) (i m u n : Nat)
    (hfree : ∀ j, i ≤ j → j < i + m → is_free cm j)
    (hused : ∀ j, u ≤ j → j < u + n → ¬ is_free cm j) :
    m = 0 ∨ n = 0 ∨ i + m ≤ u ∨ u + n ≤ i := by
  by_contra hcon
  by_cases h : i ≤ u
  · exact hused u (by omega) (by omega) (hfree u h (by omega))
  · exact hused i (by omega) (by omega) (hfree i (by omega) (by omega))

theorem as_prepare_load_runs («as» as' : addrspace) (s s' : vmstate) (mem mem' : memory)
    (hlive : s.isCoremapDone = true)
    (h : as_prepare_load «as» s mem = .ok (.zero, as', s', mem')) :
    ∃ i1 m1 i2 m2 i3 m3 : Nat,
      (1 ≤ m1 ∧ m1 ≤ «as».as_npages1 ∧ i1 + m1 ≤ s.frames.length ∧
        (m1 = «as».as_npages1 ∨ i1 + m1 = s.frames.length)) ∧
      (1 ≤ m2 ∧ m2 ≤ «as».as_npages2 ∧ i2 + m2 ≤ s.frames.length ∧
        (m2 = «as».as_npages2 ∨ i2 + m2 = s.frames.length)) ∧
      (1 ≤ m3 ∧ m3 ≤ DUMBVM_STACKPAGES ∧ i3 + m3 ≤ s.frames.length ∧
        (m3 = DUMBVM_STACKPAGES ∨ i3 + m3 = s.frames.length)) ∧
      (i1 + m1 ≤ i2 ∨ i2 + m2 ≤ i1) ∧ (i1 + m1 ≤ i3 ∨ i3 + m3 ≤ i1) ∧
      (i2 + m2 ≤ i3 ∨ i3 + m3 ≤ i2) ∧
      (∀ j, (i1 ≤ j ∧ j < i1 + m1) ∨ (i2 ≤ j ∧ j < i2 + m2) ∨ (i3 ≤ j ∧ j < i3 + m3) →
        is_free s.frames j) ∧
      paddr_at s.frames i1 = as'.as_pbase1 ∧ paddr_at s.frames i2 = as'.as_pbase2 ∧
      paddr_at s.frames i3 = as'.as_stackpbase ∧
      as'.as_pbase1 ≠ 0 ∧ as'.as_pbase2 ≠ 0 ∧ as'.as_stackpbase ≠ 0 ∧
      as' = { «as» with as_pbase1 := as'.as_pbase1, as_pbase2 := as'.as_pbase2,
                        as_stackpbase := as'.as_stackpbase } ∧
      mem' = as_zero_region as'.as_stackpbase DUMBVM_STACKPAGES
        (as_zero_region as'.as_pbase2 «as».as_npages2
          (as_zero_region as'.as_pbase1 «as».as_npages1 mem)) ∧
      s'.isCoremapDone = true ∧ s'.frames.length = s.frames.length ∧
      (∀ j : Nat, s'.frames[j]? =
        (s.frames[j]?).map (fun x => stamp i3 m3 j (stamp i2 m2 j (stamp i1 m1 j x)))) := by
  obtain ⟨_, pa1, pa2, pa3, s1, s2, g1, hp1, g2, hp2, g3, hp3, has', hmem⟩ :=
    as_prepare_load_ok_inv «as» as' s s' mem mem' h
  obtain ⟨i1, m1, e1, he1, hpa1, a1, a2, a3, a4, a5, _, l1, _, _, len1, st1⟩ :=
    getppages_ok_inv s s1 _ pa1 hlive g1
  obtain ⟨i2, m2, e2, he2, hpa2, b1, b2, b3, b4, b5, _, l2, _, _, len2, st2⟩ :=
    getppages_ok_inv s1 s2 _ pa2 l1 g2
  obtain ⟨i3, m3, e3, he3, hpa3, c1, c2, c3, c4, c5, _, l3, _, _, len3, st3⟩ :=
    getppages_ok_inv s2 s' _ pa3 l2 g3
  have F1 := stamp_fields s.frames s1.frames i1 m1 a1 st1
  have F2 := stamp_fields s1.frames s2.frames i2 m2 b1 st2
  have free1 : ∀ j, i1 ≤ j → j < i1 + m1 → is_free s.frames j := by
    intro j h1 h2
    have := a4 (j - i1) (by omega)
    have e : i1 + (j - i1) = j := by omega
    rw [e] at this
    exact this
  have free2 : ∀ j, i2 ≤ j → j < i2 + m2 → is_free s1.frames j := by
    intro j h1 h2
    have := b4 (j - i2) (by omega)
    have e : i2 + (j - i2) = j := by omega
    rw [e] at this
    exact this
  have free3 : ∀ j, i3 ≤ j → j < i3 + m3 → is_free s2.frames j := by
    intro j h1 h2
    have := c4 (j - i3) (by omega)
    have e : i3 + (j - i3) = j := by omega
    rw [e] at this
    exact this
  have d12 : i1 + m1 ≤ i2 ∨ i2 + m2 ≤ i1 := by
    have := free_run_disjoint s1.frames i2 m2 i1 m1 free2 (by
      intro j h1 h2 hfr
      exact ((F1 j (by omega)).2.2.2.mp hfr).1 ⟨h1, h2⟩)
    omega
  have d23 : i2 + m2 ≤ i3 ∨ i3 + m3 ≤ i2 := by
    have := free_run_disjoint s2.frames i3 m3 i2 m2 free3 (by
      intro j h1 h2 hfr
      exact ((F2 j (by omega)).2.2.2.mp hfr).1 ⟨h1, h2⟩)
    omega
  have d13 : i1 + m1 ≤ i3 ∨ i3 + m3 ≤ i1 := by
    have := free_run_disjoint s2.frames i3 m3 i1 m1 free3 (by
      intro j h1 h2 hfr
      have hfr1 := ((F2 j (by omega)).2.2.2.mp hfr).2
      exact ((F1 j (by omega)).2.2.2.mp hfr1).1 ⟨h1, h2⟩)
    omega
  have hfree2s : ∀ j, i2 ≤ j → j < i2 + m2 → is_free s.frames j := by
    intro j h1 h2
    exact ((F1 j (by omega)).2.2.2.mp (free2 j h1 h2)).2
  have hfree3s : ∀ j, i3 ≤ j → j < i3 + m3 → is_free s.frames j := by
    intro j h1 h2
    have := ((F2 j (by omega)).2.2.2.mp (free3 j h1 h2)).2
    exact ((F1 j (by omega)).2.2.2.mp this).2
  have hp_1 : paddr_at s.frames i1 = pa1 := by rw [(entry_fields he1).2.1, hpa1]
  have hp_2 : paddr_at s.frames i2 = pa2 := by
    rw [← (F1 i2 (by omega)).2.1, (entry_fields he2).2.1, hpa2]
  have hp_3 : paddr_at s.frames i3 = pa3 := by
    rw [← (F1 i3 (by omega)).2.1, ← (F2 i3 (by omega)).2.1, (entry_fields he3).2.1, hpa3]
  subst has'
  refine ⟨i1, m1, i2, m2, i3, m3, ⟨a1, a2, a3, a5⟩, ⟨b1, b2, by omega, by omega⟩,
    ⟨c1, c2, by omega, by omega⟩, d12, d13, d23, ?_, hp_1, hp_2, hp_3, hp1, hp2, hp3, rfl, hmem,
    l3, by omega, ?_⟩
  · intro j hj
    rcases hj with hj | hj | hj
    · exact free1 j hj.1 hj.2
    · exact hfree2s j hj.1 hj.2
    · exact hfree3s j hj.1 hj.2
  · intro j
    rw [st3 j, st2 j, st1 j]
    cases s.frames[j]? with
    | none => rfl
    | some x => rfl

theorem as_prepare_load_run_invariant («as» as' : addrspace) (s s' : vmstate)
    (mem mem' : memory) (hinv : run_invariant s.frames)
    (h : as_prepare_load «as» s mem = .ok (.zero, as', s', mem')) :
    run_invariant s'.frames ∧ s'.frames.map coremap.paddr = s.frames.map coremap.paddr := by
  obtain ⟨_, pa1, pa2, pa3, s1, s2, g1, _, g2, _, g3, _, _, _⟩ :=
    as_prepare_load_ok_inv «as» as' s s' mem mem' h
  obtain ⟨v1, p1⟩ := getppages_run_invariant s s1 _ pa1 hinv g1
  obtain ⟨v2, p2⟩ := getppages_run_invariant s1 s2 _ pa2 v1 g2
  obtain ⟨v3, p3⟩ := getppages_run_invariant s2 s' _ pa3 v2 g3
  exact ⟨v3, by rw [p3, p2, p1]⟩

theorem three_runs_restore (i1 m1 i2 m2 i3 m3 j : Nat) (x : coremap)
    (h1 : 1 ≤ m1) (h2 : 1 ≤ m2) (h3 : 1 ≤ m3)
    (d12 : i1 + m1 ≤ i2 ∨ i2 + m2 ≤ i1) (d13 : i1 + m1 ≤ i3 ∨ i3 + m3 ≤ i1)
    (d23 : i2 + m2 ≤ i3 ∨ i3 + m3 ≤ i2)
    (hx : (i1 ≤ j ∧ j < i1 + m1) ∨ (i2 ≤ j ∧ j < i2 + m2) ∨ (i3 ≤ j ∧ j < i3 + m3) →
      x.is_used = false ∧ x.contiguous = 0) :
    unstamp i3 m3 j (unstamp i1 m1 j (unstamp i2 m2 j
      (stamp i3 m3 j (stamp i2 m2 j (stamp i1 m1 j x))))) = x := by
  by_cases c1 : i1 ≤ j ∧ j < i1 + m1
  · have o2 : ¬ (i2 ≤ j ∧ j < i2 + m2) := by omega
    have o3 : ¬ (i3 ≤ j ∧ j < i3 + m3) := by omega
    rw [stamp_outside i2 m2 j _ o2 h2, stamp_outside i3 m3 j _ o3 h3,
      unstamp_outside i2 m2 j _ o2 h2, unstamp_stamp i1 m1 j x h1 (fun _ => hx (Or.inl c1)),
      unstamp_outside i3 m3 j _ o3 h3]
  · by_cases c2 : i2 ≤ j ∧ j < i2 + m2
    · have o3 : ¬ (i3 ≤ j ∧ j < i3 + m3) := by omega
      rw [stamp_outside i1 m1 j _ c1 h1, stamp_outside i3 m3 j _ o3 h3,
        unstamp_stamp i2 m2 j x h2 (fun _ => hx (Or.inr (Or.inl c2))),
        unstamp_outside i1 m1 j _ c1 h1, unstamp_outside i3 m3 j _ o3 h3]
    · by_cases c3 : i3 ≤ j ∧ j < i3 + m3
      · rw [stamp_outside i1 m1 j _ c1 h1, stamp_outside i2 m2 j _ c2 h2,
          unstamp_outside i2 m2 j _ c2 h2, unstamp_outside i1 m1 j _ c1 h1,
          unstamp_stamp i3 m3 j x h3 (fun _ => hx (Or.inr (Or.inr c3)))]
      · rw [stamp_outside i1 m1 j _ c1 h1, stamp_outside i2 m2 j _ c2 h2,
          stamp_outside i3 m3 j _ c3 h3, unstamp_outside i2 m2 j _ c2 h2,
          unstamp_outside i1 m1 j _ c1 h1, unstamp_outside i3 m3 j _ c3 h3]

theorem three_runs_stamped (i1 m1 i2 m2 i3 m3 j : Nat) (x : coremap)
    (h1 : 1 ≤ m1) (h2 : 1 ≤ m2) (h3 : 1 ≤ m3)
    (d12 : i1 + m1 ≤ i2 ∨ i2 + m2 ≤ i1) (d13 : i1 + m1 ≤ i3 ∨ i3 + m3 ≤ i1)
    (d23 : i2 + m2 ≤ i3 ∨ i3 + m3 ≤ i2) :
    stamp i3 m3 j (stamp i2 m2 j (stamp i1 m1 j x)) =
      if i1 ≤ j ∧ j < i1 + m1 then stamp i1 m1 j x
      else if i2 ≤ j ∧ j < i2 + m2 then stamp i2 m2 j x
      else if i3 ≤ j ∧ j < i3 + m3 then stamp i3 m3 j x
      else x := by
  by_cases c1 : i1 ≤ j ∧ j < i1 + m1
  · have o2 : ¬ (i2 ≤ j ∧ j < i2 + m2) := by omega
    have o3 : ¬ (i3 ≤ j ∧ j < i3 + m3) := by omega
    rw [if_pos c1, stamp_outside i2 m2 j _ o2 h2, stamp_outside i3 m3 j _ o3 h3]
  · by_cases c2 : i2 ≤ j ∧ j < i2 + m2
    · have o3 : ¬ (i3 ≤ j ∧ j < i3 + m3) := by omega
      rw [if_neg c1, if_pos c2, stamp_outside i1 m1 j _ c1 h1, stamp_outside i3 m3 j _ o3 h3]
    · by_cases c3 : i3 ≤ j ∧ j < i3 + m3
      · rw [if_neg c1, if_neg c2, if_pos c3, stamp_outside i1 m1 j _ c1 h1,
          stamp_outside i2 m2 j _ c2 h2]
      · rw [if_neg c1, if_neg c2, if_neg c3, stamp_outside i1 m1 j _ c1 h1,
          stamp_outside i2 m2 j _ c2 h2, stamp_outside i3 m3 j _ c3 h3]

theorem run_len_some (cm : List coremap) (j : Nat) (hj : j < cm.length) :
    (cm[j]?).map coremap.contiguous = some (run_len cm j) := by
  unfold run_len
  rw [List.getElem?_eq_getElem hj]
  rfl

theorem stamp_entry (i m j : Nat) (x : coremap) (hm : 1 ≤ m) :
    (stamp i m j x).contiguous = (if j = i then m else x.contiguous) ∧
    (stamp i m j x).paddr = x.paddr ∧
    ((stamp i m j x).is_used = true ↔ ((i ≤ j ∧ j < i + m) ∨ x.is_used = true)) := by
  unfold stamp
  by_cases h1 : j = i
  · have c : i ≤ j ∧ j < i + m := by omega
    simp [h1, c]
    omega
  · by_cases h2 : i < j ∧ j < i + m
    · have c : i ≤ j ∧ j < i + m := by omega
      simp [h1, h2, c]
    · have c : ¬ (i ≤ j ∧ j < i + m) := by omega
      simp [h1, h2, c]

theorem three_runs_fields (cm cm' : List coremap) (i1 m1 i2 m2 i3 m3 : Nat)
    (h1 : 1 ≤ m1) (h2 : 1 ≤ m2) (h3 : 1 ≤ m3)
    (d12 : i1 + m1 ≤ i2 ∨ i2 + m2 ≤ i1) (d13 : i1 + m1 ≤ i3 ∨ i3 + m3 ≤ i1)
    (d23 : i2 + m2 ≤ i3 ∨ i3 + m3 ≤ i2)
    (hst : ∀ j : Nat, cm'[j]? =
      (cm[j]?).map (fun x => stamp i3 m3 j (stamp i2 m2 j (stamp i1 m1 j x))))
    (j : Nat) (hj : j < cm.length) :
    run_len cm' j = (if j = i1 then m1 else if j = i2 then m2 else if j = i3 then m3
      else run_len cm j) ∧
    paddr_at cm' j = paddr_at cm j ∧
    (in_use cm' j ↔ ((i1 ≤ j ∧ j < i1 + m1) ∨ (i2 ≤ j ∧ j < i2 + m2) ∨
      (i3 ≤ j ∧ j < i3 + m3) ∨ in_use cm j)) := by
  obtain ⟨x, hx⟩ : ∃ x, cm[j]? = some x := ⟨_, List.getElem?_eq_getElem hj⟩
  have hx' : cm'[j]? = some (stamp i3 m3 j (stamp i2 m2 j (stamp i1 m1 j x))) := by
    rw [hst j, hx]; rfl
  rw [three_runs_stamped i1 m1 i2 m2 i3 m3 j x h1 h2 h3 d12 d13 d23] at hx'
  obtain ⟨a1, a2, a3, _⟩ := entry_fields hx
  obtain ⟨b1, b2, b3, _⟩ := entry_fields hx'
  rw [a1, a2, a3, b1, b2, b3]
  by_cases c1 : i1 ≤ j ∧ j < i1 + m1
  · obtain ⟨e1, e2, e3⟩ := stamp_entry i1 m1 j x h1
    have o2 : ¬ j = i2 := by omega
    have o3 : ¬ j = i3 := by omega
    rw [if_pos c1, e1, e2, e3]
    refine ⟨?_, rfl, ?_⟩
    · by_cases t : j = i1
      · rw [if_pos t, if_pos t]
      · rw [if_neg t, if_neg t, if_neg o2, if_neg o3]
    · exact ⟨fun _ => Or.inl c1, fun _ => Or.inl c1⟩
  · by_cases c2 : i2 ≤ j ∧ j < i2 + m2
    · obtain ⟨e1, e2, e3⟩ := stamp_entry i2 m2 j x h2
      have o1 : ¬ j = i1 := by omega
      have o3 : ¬ j = i3 := by omega
      rw [if_neg c1, if_pos c2, e1, e2, e3]
      refine ⟨?_, rfl, ?_⟩
      · by_cases t : j = i2
        · rw [if_pos t, if_neg o1, if_pos t]
        · rw [if_neg t, if_neg o1, if_neg t, if_neg o3]
      · exact ⟨fun _ => Or.inr (Or.inl c2), fun _ => Or.inl c2⟩
    · by_cases c3 : i3 ≤ j ∧ j < i3 + m3
      · obtain ⟨e1, e2, e3⟩ := stamp_entry i3 m3 j x h3
        have o1 : ¬ j = i1 := by omega
        have o2 : ¬ j = i2 := by omega
        rw [if_neg c1, if_neg c2, if_pos c3, e1, e2, e3]
        refine ⟨?_, rfl, ?_⟩
        · rw [if_neg o1, if_neg o2]
        · exact ⟨fun _ => Or.inr (Or.inr (Or.inl c3)), fun _ => Or.inl c3⟩
      · have o1 : ¬ j = i1 := by omega
        have o2 : ¬ j = i2 := by omega
        have o3 : ¬ j = i3 := by omega
        rw [if_neg c1, if_neg c2, if_neg c3, if_neg o1, if_neg o2, if_neg o3]
        refine ⟨rfl, rfl, ?_⟩
        exact ⟨fun h => Or.inr (Or.inr (Or.inr h)), fun h => by
          rcases h with h | h | h | h
          · exact absurd h c1
          · exact absurd h c2
          · exact absurd h c3
          · exact h⟩

/-- C15: with the directory live, satisfying the run invariant and lying below the
kernel segment, let `as_prepare_load` succeed. Then `as_destroy` on the prepared descriptor
returns; the three bases of the descriptor start three pairwise disjoint allocated runs of
the directory; `as_destroy` leaves every frame of the three runs free with run-length 0 and
changes no other entry; and the directory is again the one before `as_prepare_load`. -/
theorem as_destroy_releases_runs («as» as' : addrspace) (s s' : vmstate) (mem mem' : memory)
    (hlive : s.isCoremapDone = true) (hinv : run_invariant s.frames)
    (hlow : frames_below_kseg0 s.frames)
    (hprep : as_prepare_load «as» s mem = .ok (.zero, as', s', mem')) :
    ∃ (i1 k1 i2 k2 i3 k3 : Nat) (s'' : vmstate),
      as_destroy as' s' = .ok s'' ∧
      (paddr_at s'.frames i1 = as'.as_pbase1 ∧ allocated_run s'.frames i1 k1) ∧
      (paddr_at s'.frames i2 = as'.as_pbase2 ∧ allocated_run s'.frames i2 k2) ∧
      (paddr_at s'.frames i3 = as'.as_stackpbase ∧ allocated_run s'.frames i3 k3) ∧
      ((i1 + k1 ≤ i2 ∨ i2 + k2 ≤ i1) ∧ (i1 + k1 ≤ i3 ∨ i3 + k3 ≤ i1) ∧
        (i2 + k2 ≤ i3 ∨ i3 + k3 ≤ i2)) ∧
      (∀ j, ((i1 ≤ j ∧ j < i1 + k1) ∨ (i2 ≤ j ∧ j < i2 + k2) ∨ (i3 ≤ j ∧ j < i3 + k3)) →
        is_free s''.frames j ∧ run_len s''.frames j = 0) ∧
      (∀ j, ¬ ((i1 ≤ j ∧ j < i1 + k1) ∨ (i2 ≤ j ∧ j < i2 + k2) ∨ (i3 ≤ j ∧ j < i3 + k3)) →
        s''.frames[j]? = s'.frames[j]?) ∧
      s''.frames = s.frames := by
  obtain ⟨i1, m1, i2, m2, i3, m3, ⟨a1, _, a3, _⟩, ⟨b1, _, b3, _⟩, ⟨c1, _, c3, _⟩, d12, d13,
    d23, hfree, p1, p2, p3, _, _, _, _, _, _, len', hst⟩ :=
    as_prepare_load_runs «as» as' s s' mem mem' hlive hprep
  obtain ⟨v', pmap⟩ := as_prepare_load_run_invariant «as» as' s s' mem mem' hinv hprep
  have hlow' := frames_below_of_map_paddr s.frames s'.frames pmap hlow
  have F := three_runs_fields s.frames s'.frames i1 m1 i2 m2 i3 m3 a1 b1 c1 d12 d13 d23 hst
  have n21 : ¬ i2 = i1 := by omega
  have n31 : ¬ i3 = i1 := by omega
  have n32 : ¬ i3 = i2 := by omega
  have n12 : ¬ i1 = i2 := by omega
  have r1 : run_len s'.frames i1 = m1 := by rw [(F i1 (by omega)).1, if_pos rfl]
  have r2 : run_len s'.frames i2 = m2 := by rw [(F i2 (by omega)).1, if_neg n21, if_pos rfl]
  have r3 : run_len s'.frames i3 = m3 := by
    rw [(F i3 (by omega)).1, if_neg n31, if_neg n32, if_pos rfl]
  have q1 : paddr_at s'.frames i1 = as'.as_pbase1 := by rw [(F i1 (by omega)).2.1, p1]
  have q2 : paddr_at s'.frames i2 = as'.as_pbase2 := by rw [(F i2 (by omega)).2.1, p2]
  have q3 : paddr_at s'.frames i3 = as'.as_stackpbase := by rw [(F i3 (by omega)).2.1, p3]
  obtain ⟨s4, g4, len4, st4, v4, low4, _⟩ :=
    free_kpages_run s' i2 m2 v' hlow' (by omega) r2 b1
  rw [q2] at g4
  have U4 := unstamp_fields s'.frames s4.frames i2 m2 b1 st4
  have r1' : run_len s4.frames i1 = m1 := by rw [(U4 i1 (by omega)).1, if_neg n12, r1]
  have q1' : paddr_at s4.frames i1 = as'.as_pbase1 := by rw [(U4 i1 (by omega)).2.1, q1]
  obtain ⟨s5, g5, len5, st5, v5, low5, _⟩ :=
    free_kpages_run s4 i1 m1 v4 low4 (by omega) r1' a1
  rw [q1'] at g5
  have U5 := unstamp_fields s4.frames s5.frames i1 m1 a1 st5
  have r3' : run_len s5.frames i3 = m3 := by
    rw [(U5 i3 (by omega)).1, if_neg n31, (U4 i3 (by omega)).1, if_neg n32, r3]
  have q3' : paddr_at s5.frames i3 = as'.as_stackpbase := by
    rw [(U5 i3 (by omega)).2.1, (U4 i3 (by omega)).2.1, q3]
  obtain ⟨s6, g6, _, st6, _, _, _⟩ :=
    free_kpages_run s5 i3 m3 v5 low5 (by omega) r3' c1
  rw [q3'] at g6
  have hfin : s6.frames = s.frames := by
    apply List.ext_getElem?
    intro j
    rw [st6 j, st5 j, st4 j, hst j]
    cases hx : s.frames[j]? with
    | none => rfl
    | some x =>
      simp only [Option.map_some']
      rw [three_runs_restore i1 m1 i2 m2 i3 m3 j x a1 b1 c1 d12 d13 d23]
      intro hj
      have hf := hfree j hj
      obtain ⟨f1, _, _, f4⟩ := entry_fields hx
      exact ⟨f4.mp hf, by rw [← f1]; exact hinv.2.1 j (is_free_lt hf) hf⟩
  refine ⟨i1, m1, i2, m2, i3, m3, s6, ?_, ⟨q1, a1, ?_, ?_⟩, ⟨q2, b1, ?_, ?_⟩,
    ⟨q3, c1, ?_, ?_⟩, ⟨d12, d13, d23⟩, ?_, ?_, hfin⟩
  · simp only [as_destroy, g4, g5, g6]
  · rw [run_len_some _ _ (by omega), r1]
  · intro m hm
    exact (F (i1 + m) (by omega)).2.2.mpr (Or.inl ⟨by omega, by omega⟩)
  · rw [run_len_some _ _ (by omega), r2]
  · intro m hm
    exact (F (i2 + m) (by omega)).2.2.mpr (Or.inr (Or.inl ⟨by omega, by omega⟩))
  · rw [run_len_some _ _ (by omega), r3]
  · intro m hm
    exact (F (i3 + m) (by omega)).2.2.mpr (Or.inr (Or.inr (Or.inl ⟨by omega, by omega⟩)))
  · intro j hj
    rw [hfin]
    exact ⟨hfree j hj, hinv.2.1 j (is_free_lt (hfree j hj)) (hfree j hj)⟩
  · intro j hj
    rw [hfin, hst j]
    cases s.frames[j]? with
    | none => rfl
    | some x =>
      simp only [Option.map_some']
      rw [three_runs_stamped i1 m1 i2 m2 i3 m3 j x a1 b1 c1 d12 d13 d23,
        if_neg (fun h => hj (Or.inl h)), if_neg (fun h => hj (Or.inr (Or.inl h))),
        if_neg (fun h => hj (Or.inr (Or.inr h)))]

/-- C15 witness: a sixteen-frame directory fresh from `vm_bootstrap`; a descriptor with a
one-page and a two-page region is prepared (runs at entries 0, 1 and 3, the stack taking
twelve frames) and destroyed, which gives back the bootstrapped directory. -/
theorem as_destroy_releases_runs_witness :
    ∃ s'' : vmstate,
      as_destroy ⟨0x400000, 0x11000, 1, 0x10000000, 0x12000, 2, 0x14000, false⟩ ⟨[
        ⟨0x11000, true, 1⟩, ⟨0x12000, true, 2⟩, ⟨0x13000, true, 0⟩, ⟨0x14000, true, 12⟩,
        ⟨0x15000, true, 0⟩, ⟨0x16000, true, 0⟩, ⟨0x17000, true, 0⟩, ⟨0x18000, true, 0⟩,
        ⟨0x19000, true, 0⟩, ⟨0x1a000, true, 0⟩, ⟨0x1b000, true, 0⟩, ⟨0x1c000, true, 0⟩,
        ⟨0x1d000, true, 0⟩, ⟨0x1e000, true, 0⟩, ⟨0x1f000, true, 0⟩, ⟨0x20000, false, 0⟩], 12, true, 0x10000, 0x20000⟩ = .ok s'' ∧
      s''.frames = (vm_bootstrap ⟨[], 0, false, 0x10000, 0x20000⟩).frames := by
  obtain ⟨_, _, _, _, _, _, s'', h, _, _, _, _, _, _, hf⟩ :=
    as_destroy_releases_runs ⟨0x400000, 0, 1, 0x10000000, 0, 2, 0, false⟩
      ⟨0x400000, 0x11000, 1, 0x10000000, 0x12000, 2, 0x14000, false⟩
      (vm_bootstrap ⟨[], 0, false, 0x10000, 0x20000⟩) ⟨[
      ⟨0x11000, true, 1⟩, ⟨0x12000, true, 2⟩, ⟨0x13000, true, 0⟩, ⟨0x14000, true, 12⟩,
      ⟨0x15000, true, 0⟩, ⟨0x16000, true, 0⟩, ⟨0x17000, true, 0⟩, ⟨0x18000, true, 0⟩,
      ⟨0x19000, true, 0⟩, ⟨0x1a000, true, 0⟩, ⟨0x1b000, true, 0⟩, ⟨0x1c000, true, 0⟩,
      ⟨0x1d000, true, 0⟩, ⟨0x1e000, true, 0⟩, ⟨0x1f000, true, 0⟩, ⟨0x20000, false, 0⟩], 12, true, 0x10000, 0x20000⟩
      (fun _ => 0)
      (as_zero_region 0x14000 12 (as_zero_region 0x12000 2 (as_zero_region 0x11000 1
        (fun _ => 0))))
      (by decide) (by decide) (by decide) rfl
  exact ⟨s'', h, hf⟩

/-! ## as_copy -/

theorem memmove_inside (mem : memory) (dst src len a : Nat) (h : dst ≤ a ∧ a < dst + len) :
    memmove mem dst src len a = mem (src + (a - dst)) := by
  unfold memmove
  rw [if_pos h]

theorem memmove_outside (mem : memory) (dst src len a : Nat) (h : ¬ (dst ≤ a ∧ a < dst + len)) :
    memmove mem dst src len a = mem a := by
  unfold memmove
  rw [if_neg h]

theorem bzero_outside (mem : memory) (vaddr len a : Nat) (h : ¬ (vaddr ≤ a ∧ a < vaddr + len)) :
    bzero mem vaddr len a = mem a := by
  unfold bzero
  rw [if_neg h]

theorem copy_three_regions (mem : memory) (N1 N2 N3 S1 S2 S3 l1 l2 l3 : Nat)
    (n12 : N1 + l1 ≤ N2 ∨ N2 + l2 ≤ N1) (n13 : N1 + l1 ≤ N3 ∨ N3 + l3 ≤ N1)
    (n23 : N2 + l2 ≤ N3 ∨ N3 + l3 ≤ N2)
    (x11 : N1 + l1 ≤ S1 ∨ S1 + l1 ≤ N1) (x12 : N1 + l1 ≤ S2 ∨ S2 + l2 ≤ N1)
    (x13 : N1 + l1 ≤ S3 ∨ S3 + l3 ≤ N1)
    (x21 : N2 + l2 ≤ S1 ∨ S1 + l1 ≤ N2) (x22 : N2 + l2 ≤ S2 ∨ S2 + l2 ≤ N2)
    (x23 : N2 + l2 ≤ S3 ∨ S3 + l3 ≤ N2)
    (x31 : N3 + l3 ≤ S1 ∨ S1 + l1 ≤ N3) (x32 : N3 + l3 ≤ S2 ∨ S2 + l2 ≤ N3)
    (x33 : N3 + l3 ≤ S3 ∨ S3 + l3 ≤ N3) :
    (∀ a, ((S1 ≤ a ∧ a < S1 + l1) ∨ (S2 ≤ a ∧ a < S2 + l2) ∨ (S3 ≤ a ∧ a < S3 + l3)) →
      memmove (memmove (memmove (bzero (bzero (bzero mem N1 l1) N2 l2) N3 l3)
        N1 S1 l1) N2 S2 l2) N3 S3 l3 a = mem a) ∧
    (∀ i < l1, memmove (memmove (memmove (bzero (bzero (bzero mem N1 l1) N2 l2) N3 l3)
        N1 S1 l1) N2 S2 l2) N3 S3 l3 (N1 + i) = mem (S1 + i)) ∧
    (∀ i < l2, memmove (memmove (memmove (bzero (bzero (bzero mem N1 l1) N2 l2) N3 l3)
        N1 S1 l1) N2 S2 l2) N3 S3 l3 (N2 + i) = mem (S2 + i)) ∧
    (∀ i < l3, memmove (memmove (memmove (bzero (bzero (bzero mem N1 l1) N2 l2) N3 l3)
        N1 S1 l1) N2 S2 l2) N3 S3 l3 (N3 + i) = mem (S3 + i)) := by
  have src : ∀ a, ((S1 ≤ a ∧ a < S1 + l1) ∨ (S2 ≤ a ∧ a < S2 + l2) ∨ (S3 ≤ a ∧ a < S3 + l3)) →
      bzero (bzero (bzero mem N1 l1) N2 l2) N3 l3 a = mem a := by
    intro a ha
    rw [bzero_outside _ _ _ _ (by omega), bzero_outside _ _ _ _ (by omega),
      bzero_outside _ _ _ _ (by omega)]
  refine ⟨?_, ?_, ?_, ?_⟩
  · intro a ha
    rw [memmove_outside _ _ _ _ _ (by omega), memmove_outside _ _ _ _ _ (by omega),
      memmove_outside _ _ _ _ _ (by omega)]
    exact src a ha
  · intro i hi
    rw [memmove_outside _ _ _ _ _ (by omega), memmove_outside _ _ _ _ _ (by omega),
      memmove_inside _ _ _ _ _ (by omega)]
    have e : S1 + (N1 + i - N1) = S1 + i := by omega
    rw [e]
    exact src _ (by omega)
  · intro i hi
    rw [memmove_outside _ _ _ _ _ (by omega), memmove_inside _ _ _ _ _ (by omega),
      memmove_outside _ _ _ _ _ (by omega)]
    have e : S2 + (N2 + i - N2) = S2 + i := by omega
    rw [e]
    exact src _ (by omega)
  · intro i hi
    rw [memmove_inside _ _ _ _ _ (by omega), memmove_outside _ _ _ _ _ (by omega),
      memmove_outside _ _ _ _ _ (by omega)]
    have e : S3 + (N3 + i - N3) = S3 + i := by omega
    rw [e]
    exact src _ (by omega)

theorem as_copy_ok_inv (old new : addrspace) (b : Bool) (s s' : vmstate) (mem mem' : memory)
    (h : as_copy old b s mem = .ok (.zero, some new, s', mem')) :
    ∃ mem1 : memory,
      as_prepare_load ⟨old.as_vbase1, 0, old.as_npages1, old.as_vbase2, 0, old.as_npages2, 0,
        false⟩ s mem = .ok (.zero, new, s', mem1) ∧
      mem' = memmove (memmove (memmove mem1
        (PADDR_TO_KVADDR new.as_pbase1) (PADDR_TO_KVADDR old.as_pbase1)
          ((old.as_npages1 * PAGE_SIZE) % 2 ^ 32))
        (PADDR_TO_KVADDR new.as_pbase2) (PADDR_TO_KVADDR old.as_pbase2)
          ((old.as_npages2 * PAGE_SIZE) % 2 ^ 32))
        (PADDR_TO_KVADDR new.as_stackpbase) (PADDR_TO_KVADDR old.as_stackpbase)
          ((DUMBVM_STACKPAGES * PAGE_SIZE) % 2 ^ 32) := by
  unfold as_copy at h
  cases b with
  | false => simp [as_create] at h
  | true =>
    simp only [as_create, if_true] at h
    cases g : as_prepare_load ⟨old.as_vbase1, 0, old.as_npages1, old.as_vbase2, 0,
        old.as_npages2, 0, false⟩ s mem with
    | error f => rw [g] at h; cases h
    | ok r =>
      obtain ⟨r, nw, s1, mem1⟩ := r
      rw [g] at h
      simp only at h
      split at h
      · split at h
        · cases h
        · simp at h
      · rename_i hr
        have hr' : r = .zero := by
          by_contra hc
          exact hr hc
        split at h
        · cases h
        · simp only [Except.ok.injEq, Prod.mk.injEq, Option.some.injEq, true_and] at h
          obtain ⟨h1, h2, h3⟩ := h
          subst h1 h2 hr'
          exact ⟨mem1, rfl, h3.symm⟩

theorem paddr_at_lt (cm : List coremap) (hlow : frames_below_kseg0 cm) (j : Nat)
    (hj : j < cm.length) : paddr_at cm j < MIPS_KSEG0 := by
  obtain ⟨x, hx⟩ : ∃ x, cm[j]? = some x := ⟨_, List.getElem?_eq_getElem hj⟩
  rw [(entry_fields hx).2.1]
  exact hlow x (List.getElem?_mem hx)

theorem free_run_used_disjoint (cm : List coremap) (i m u n : Nat)
    (hfree : ∀ j, i ≤ j → j < i + m → is_free cm j)
    (hused : ∀ k < n, in_use cm (u + k)) :
    m = 0 ∨ n = 0 ∨ i + m ≤ u ∨ u + n ≤ i := by
  refine free_run_disjoint cm i m u n hfree ?_
  intro j h1 h2 hfr
  have hu := hused (j - u) (by omega)
  have e : u + (j - u) = j := by omega
  rw [e] at hu
  exact not_in_use_of_free hfr hu

theorem run_start_lt (i m L : Nat) (h1 : 1 ≤ m) (h3 : i + m ≤ L) : i < L := by
  omega

theorem kv_linear (P0 L j p : Nat) (hj : j < L) (top : P0 + (L - 1) * 4096 < 2147483648)
    (e : p = P0 + j * 4096) : PADDR_TO_KVADDR p = P0 + j * 4096 + 2147483648 := by
  unfold PADDR_TO_KVADDR MIPS_KSEG0
  omega

theorem len_linear (P0 L u n : Nat) (hn : u + n ≤ L) (top : P0 + (L - 1) * 4096 < 2147483648) :
    (n * PAGE_SIZE) % 2 ^ 32 = n * 4096 := by
  unfold PAGE_SIZE
  omega

theorem run_addr_disjoint (P0 L i m n j k l : Nat) (h1 : 1 ≤ m)
    (h3 : i + m ≤ L) (h4 : m = n ∨ i + m = L) (g1 : 1 ≤ k) (g3 : j + k ≤ L)
    (g4 : k = l ∨ j + k = L) (d : i + m ≤ j ∨ j + k ≤ i) :
    P0 + i * 4096 + 2147483648 + n * 4096 ≤ P0 + j * 4096 + 2147483648 ∨
      P0 + j * 4096 + 2147483648 + l * 4096 ≤ P0 + i * 4096 + 2147483648 := by
  omega

theorem run_src_disjoint (P0 L i m n u k : Nat) (h1 : 1 ≤ m)
    (h4 : m = n ∨ i + m = L) (hk : 1 ≤ k) (hu : u + k ≤ L)
    (x : m = 0 ∨ k = 0 ∨ i + m ≤ u ∨ u + k ≤ i) :
    P0 + i * 4096 + 2147483648 + n * 4096 ≤ P0 + u * 4096 + 2147483648 ∨
      P0 + u * 4096 + 2147483648 + k * 4096 ≤ P0 + i * 4096 + 2147483648 := by
  omega

theorem run_base_ne (P0 i m u k p q : Nat) (h1 : 1 ≤ m) (hk : 1 ≤ k)
    (x : m = 0 ∨ k = 0 ∨ i + m ≤ u ∨ u + k ≤ i) (e1 : p = P0 + i * 4096)
    (e2 : q = P0 + u * 4096) : p ≠ q := by
  omega

/-- C14: with the directory live, satisfying the run invariant and lying below the kernel
segment, let the source descriptor be loaded and `as_copy` return 0 with a new descriptor.
Then the new descriptor has the source's `vbase1`, `npages1`, `vbase2`, `npages2`; its three
bases are non-zero and differ from the source's; every byte of the new region 1, region 2
and twelve-page stack equals the source's byte at the same offset before the call; and every
byte of the source's three runs is as before the call. The descriptor `old` is only read by
`as_copy`, so it is passed by value. -/
theorem as_copy_duplicates (old new : addrspace) (b : Bool) (s s' : vmstate)
    (mem mem' : memory) (hlive : s.isCoremapDone = true) (hinv : run_invariant s.frames)
    (hlow : frames_below_kseg0 s.frames) (hload : loaded s.frames old)
    (hcopy : as_copy old b s mem = .ok (.zero, some new, s', mem')) :
    (new.as_vbase1 = old.as_vbase1 ∧ new.as_npages1 = old.as_npages1 ∧
      new.as_vbase2 = old.as_vbase2 ∧ new.as_npages2 = old.as_npages2) ∧
    (new.as_pbase1 ≠ 0 ∧ new.as_pbase2 ≠ 0 ∧ new.as_stackpbase ≠ 0) ∧
    (new.as_pbase1 ≠ old.as_pbase1 ∧ new.as_pbase2 ≠ old.as_pbase2 ∧
      new.as_stackpbase ≠ old.as_stackpbase) ∧
    (∀ i < old.as_npages1 * PAGE_SIZE,
      mem' (PADDR_TO_KVADDR new.as_pbase1 + i) = mem (PADDR_TO_KVADDR old.as_pbase1 + i)) ∧
    (∀ i < old.as_npages2 * PAGE_SIZE,
      mem' (PADDR_TO_KVADDR new.as_pbase2 + i) = mem (PADDR_TO_KVADDR old.as_pbase2 + i)) ∧
    (∀ i < DUMBVM_STACKPAGES * PAGE_SIZE,
      mem' (PADDR_TO_KVADDR new.as_stackpbase + i) =
        mem (PADDR_TO_KVADDR old.as_stackpbase + i)) ∧
    (∀ i < old.as_npages1 * PAGE_SIZE,
      mem' (PADDR_TO_KVADDR old.as_pbase1 + i) = mem (PADDR_TO_KVADDR old.as_pbase1 + i)) ∧
    (∀ i < old.as_npages2 * PAGE_SIZE,
      mem' (PADDR_TO_KVADDR old.as_pbase2 + i) = mem (PADDR_TO_KVADDR old.as_pbase2 + i)) ∧
    (∀ i < DUMBVM_STACKPAGES * PAGE_SIZE,
      mem' (PADDR_TO_KVADDR old.as_stackpbase + i) =
        mem (PADDR_TO_KVADDR old.as_stackpbase + i)) := by
  obtain ⟨mem1, hprep, hmem'⟩ := as_copy_ok_inv old new b s s' mem mem' hcopy
  obtain ⟨i1, m1, i2, m2, i3, m3, ⟨a1, a2, a3, a5⟩, ⟨b1, b2, b3, b5⟩, ⟨c1, c2, c3, c5⟩,
    d12, d13, d23, hfree, p1, p2, p3, z1, z2, z3, has', hmem1, _, _, _⟩ :=
    as_prepare_load_runs _ new s s' mem mem1 hlive hprep
  have a2' : m1 ≤ old.as_npages1 := a2
  have a5' : m1 = old.as_npages1 ∨ i1 + m1 = s.frames.length := a5
  have b2' : m2 ≤ old.as_npages2 := b2
  have b5' : m2 = old.as_npages2 ∨ i2 + m2 = s.frames.length := b5
  have vb1 : new.as_vbase1 = old.as_vbase1 := by
    have t := congrArg addrspace.as_vbase1 has'
    exact t
  have np1 : new.as_npages1 = old.as_npages1 := by
    have t := congrArg addrspace.as_npages1 has'
    exact t
  have vb2 : new.as_vbase2 = old.as_vbase2 := by
    have t := congrArg addrspace.as_vbase2 has'
    exact t
  have np2 : new.as_npages2 = old.as_npages2 := by
    have t := congrArg addrspace.as_npages2 has'
    exact t
  obtain ⟨⟨u1, hu1, hn1, pu1, use1⟩, ⟨u2, hu2, hn2, pu2, use2⟩, ⟨u3, hu3, hn3, pu3, use3⟩⟩ :=
    hload
  have lin := paddr_at_linear s.frames hinv.2.2.2
  have f1 : ∀ j, i1 ≤ j → j < i1 + m1 → is_free s.frames j :=
    fun j h1 h2 => hfree j (Or.inl ⟨h1, h2⟩)
  have f2 : ∀ j, i2 ≤ j → j < i2 + m2 → is_free s.frames j :=
    fun j h1 h2 => hfree j (Or.inr (Or.inl ⟨h1, h2⟩))
  have f3 : ∀ j, i3 ≤ j → j < i3 + m3 → is_free s.frames j :=
    fun j h1 h2 => hfree j (Or.inr (Or.inr ⟨h1, h2⟩))
  have x11 := free_run_used_disjoint s.frames i1 m1 u1 _ f1 use1
  have x12 := free_run_used_disjoint s.frames i1 m1 u2 _ f1 use2
  have x13 := free_run_used_disjoint s.frames i1 m1 u3 _ f1 use3
  have x21 := free_run_used_disjoint s.frames i2 m2 u1 _ f2 use1
  have x22 := free_run_used_disjoint s.frames i2 m2 u2 _ f2 use2
  have x23 := free_run_used_disjoint s.frames i2 m2 u3 _ f2 use3
  have x31 := free_run_used_disjoint s.frames i3 m3 u1 _ f3 use1
  have x32 := free_run_used_disjoint s.frames i3 m3 u2 _ f3 use2
  have x33 := free_run_used_disjoint s.frames i3 m3 u3 _ f3 use3
  have ei1 := lin i1 (run_start_lt i1 m1 _ a1 a3)
  have ei2 := lin i2 (run_start_lt i2 m2 _ b1 b3)
  have ei3 := lin i3 (run_start_lt i3 m3 _ c1 c3)
  have eu1 := lin u1 hu1
  have eu2 := lin u2 hu2
  have eu3 := lin u3 hu3
  have hL : s.frames.length - 1 < s.frames.length := Nat.sub_lt (Nat.lt_of_le_of_lt (Nat.zero_le _) hu1) Nat.one_pos
  have etop := lin (s.frames.length - 1) hL
  have top := paddr_at_lt s.frames hlow (s.frames.length - 1) hL
  rw [etop] at top
  rw [p1] at ei1
  rw [p2] at ei2
  rw [p3] at ei3
  rw [pu1] at eu1
  rw [pu2] at eu2
  rw [pu3] at eu3
  unfold PAGE_SIZE at top ei1 ei2 ei3 eu1 eu2 eu3
  unfold MIPS_KSEG0 at top
  have k1 : 1 ≤ old.as_npages1 := Nat.le_trans a1 a2'
  have k2 : 1 ≤ old.as_npages2 := Nat.le_trans b1 b2'
  have k3 : 1 ≤ DUMBVM_STACKPAGES := Nat.le_trans c1 c2
  have hi1 := run_start_lt i1 m1 _ a1 a3
  have hi2 := run_start_lt i2 m2 _ b1 b3
  have hi3 := run_start_lt i3 m3 _ c1 c3
  have kN1 := kv_linear _ _ i1 _ hi1 top ei1
  have kN2 := kv_linear _ _ i2 _ hi2 top ei2
  have kN3 := kv_linear _ _ i3 _ hi3 top ei3
  have kS1 := kv_linear _ _ u1 _ hu1 top eu1
  have kS2 := kv_linear _ _ u2 _ hu2 top eu2
  have kS3 := kv_linear _ _ u3 _ hu3 top eu3
  have len1 := len_linear _ _ u1 _ hn1 top
  have len2 := len_linear _ _ u2 _ hn2 top
  have len3 : (DUMBVM_STACKPAGES * PAGE_SIZE) % 2 ^ 32 = DUMBVM_STACKPAGES * 4096 := by decide
  have ne1 := run_base_ne _ i1 m1 u1 _ _ _ a1 k1 x11 ei1 eu1
  have ne2 := run_base_ne _ i2 m2 u2 _ _ _ b1 k2 x22 ei2 eu2
  have ne3 := run_base_ne _ i3 m3 u3 _ _ _ c1 k3 x33 ei3 eu3
  obtain ⟨r0, r1, r2, r3⟩ := copy_three_regions mem
    (PADDR_TO_KVADDR new.as_pbase1) (PADDR_TO_KVADDR new.as_pbase2)
    (PADDR_TO_KVADDR new.as_stackpbase) (PADDR_TO_KVADDR old.as_pbase1)
    (PADDR_TO_KVADDR old.as_pbase2) (PADDR_TO_KVADDR old.as_stackpbase)
    ((old.as_npages1 * PAGE_SIZE) % 2 ^ 32) ((old.as_npages2 * PAGE_SIZE) % 2 ^ 32)
    ((DUMBVM_STACKPAGES * PAGE_SIZE) % 2 ^ 32)
    (by rw [kN1, kN2, len1, len2]
        exact run_addr_disjoint _ _ i1 m1 _ i2 m2 _ a1 a3 a5' b1 b3 b5' d12)
    (by rw [kN1, kN3, len1, len3]
        exact run_addr_disjoint _ _ i1 m1 _ i3 m3 _ a1 a3 a5' c1 c3 c5 d13)
    (by rw [kN2, kN3, len2, len3]
        exact run_addr_disjoint _ _ i2 m2 _ i3 m3 _ b1 b3 b5' c1 c3 c5 d23)
    (by rw [kN1, kS1, len1]
        exact run_src_disjoint _ _ i1 m1 _ u1 _ a1 a5' k1 hn1 x11)
    (by rw [kN1, kS2, len1, len2]
        exact run_src_disjoint _ _ i1 m1 _ u2 _ a1 a5' k2 hn2 x12)
    (by rw [kN1, kS3, len1, len3]
        exact run_src_disjoint _ _ i1 m1 _ u3 _ a1 a5' k3 hn3 x13)
    (by rw [kN2, kS1, len2, len1]
        exact run_src_disjoint _ _ i2 m2 _ u1 _ b1 b5' k1 hn1 x21)
    (by rw [kN2, kS2, len2]
        exact run_src_disjoint _ _ i2 m2 _ u2 _ b1 b5' k2 hn2 x22)
    (by rw [kN2, kS3, len2, len3]
        exact run_src_disjoint _ _ i2 m2 _ u3 _ b1 b5' k3 hn3 x23)
    (by rw [kN3, kS1, len3, len1]
        exact run_src_disjoint _ _ i3 m3 _ u1 _ c1 c5 k1 hn1 x31)
    (by rw [kN3, kS2, len3, len2]
        exact run_src_disjoint _ _ i3 m3 _ u2 _ c1 c5 k2 hn2 x32)
    (by rw [kN3, kS3, len3]
        exact run_src_disjoint _ _ i3 m3 _ u3 _ c1 c5 k3 hn3 x33)
  subst hmem' hmem1
  refine ⟨⟨vb1, np1, vb2, np2⟩, ⟨z1, z2, z3⟩, ⟨ne1, ne2, ne3⟩, ?_, ?_, ?_, ?_, ?_, ?_⟩
  · intro i hi
    exact r1 i (by rw [len1]; exact hi)
  · intro i hi
    exact r2 i (by rw [len2]; exact hi)
  · intro i hi
    exact r3 i (by rw [len3]; exact hi)
  · intro i hi
    exact r0 _ (Or.inl ⟨Nat.le_add_right _ _, Nat.add_lt_add_left (by rw [len1]; exact hi) _⟩)
  · intro i hi
    exact r0 _ (Or.inr (Or.inl
      ⟨Nat.le_add_right _ _, Nat.add_lt_add_left (by rw [len2]; exact hi) _⟩))
  · intro i hi
    exact r0 _ (Or.inr (Or.inr
      ⟨Nat.le_add_right _ _, Nat.add_lt_add_left (by rw [len3]; exact hi) _⟩))

/-- C14 witness: a thirty-frame directory whose first fifteen frames hold a loaded
descriptor (one page, two pages, twelve stack pages); memory holds `a % 256` at address `a`.
The copy gets the runs at entries 15, 16 and 18, and its two-page region holds the bytes of
the source's two-page region. -/
theorem as_copy_duplicates_witness :
    ∃ (new : addrspace) (s' : vmstate) (mem' : memory),
      as_copy ⟨0x400000, 0x11000, 1, 0x10000000, 0x12000, 2, 0x14000, true⟩ true
        ⟨[
          ⟨0x11000, true, 1⟩, ⟨0x12000, true, 2⟩, ⟨0x13000, true, 0⟩, ⟨0x14000, true, 12⟩,
          ⟨0x15000, true, 0⟩, ⟨0x16000, true, 0⟩, ⟨0x17000, true, 0⟩, ⟨0x18000, true, 0⟩,
          ⟨0x19000, true, 0⟩, ⟨0x1a000, true, 0⟩, ⟨0x1b000, true, 0⟩, ⟨0x1c000, true, 0⟩,
          ⟨0x1d000, true, 0⟩, ⟨0x1e000, true, 0⟩, ⟨0x1f000, true, 0⟩, ⟨0x20000, false, 0⟩,
          ⟨0x21000, false, 0⟩, ⟨0x22000, false, 0⟩, ⟨0x23000, false, 0⟩, ⟨0x24000, false, 0⟩,
          ⟨0x25000, false, 0⟩, ⟨0x26000, false, 0⟩, ⟨0x27000, false, 0⟩, ⟨0x28000, false, 0⟩,
          ⟨0x29000, false, 0⟩, ⟨0x2a000, false, 0⟩, ⟨0x2b000, false, 0⟩, ⟨0x2c000, false, 0⟩,
          ⟨0x2d000, false, 0⟩, ⟨0x2e000, false, 0⟩], 12, true, 0x10000, 0x2e000⟩
        (fun a => a % 256) = .ok (.zero, some new, s', mem') ∧
      new.as_pbase1 = 0x20000 ∧ new.as_pbase2 = 0x21000 ∧ new.as_stackpbase = 0x23000 ∧
      ∀ i < 2 * PAGE_SIZE,
        mem' (PADDR_TO_KVADDR 0x21000 + i) = (PADDR_TO_KVADDR 0x12000 + i) % 256 :=
  ⟨⟨0x400000, 0x20000, 1, 0x10000000, 0x21000, 2, 0x23000, false⟩,
    ⟨[
      ⟨0x11000, true, 1⟩, ⟨0x12000, true, 2⟩, ⟨0x13000, true, 0⟩, ⟨0x14000, true, 12⟩,
      ⟨0x15000, true, 0⟩, ⟨0x16000, true, 0⟩, ⟨0x17000, true, 0⟩, ⟨0x18000, true, 0⟩,
      ⟨0x19000, true, 0⟩, ⟨0x1a000, true, 0⟩, ⟨0x1b000, true, 0⟩, ⟨0x1c000, true, 0⟩,
      ⟨0x1d000, true, 0⟩, ⟨0x1e000, true, 0⟩, ⟨0x1f000, true, 0⟩, ⟨0x20000, true, 1⟩,
      ⟨0x21000, true, 2⟩, ⟨0x22000, true, 0⟩, ⟨0x23000, true, 12⟩, ⟨0x24000, true, 0⟩,
      ⟨0x25000, true, 0⟩, ⟨0x26000, true, 0⟩, ⟨0x27000, true, 0⟩, ⟨0x28000, true, 0⟩,
      ⟨0x29000, true, 0⟩, ⟨0x2a000, true, 0⟩, ⟨0x2b000, true, 0⟩, ⟨0x2c000, true, 0⟩,
      ⟨0x2d000, true, 0⟩, ⟨0x2e000, true, 0⟩], 12, true, 0x10000, 0x2e000⟩,
    (memmove (memmove (memmove
      (as_zero_region 0x23000 12 (as_zero_region 0x21000 2 (as_zero_region 0x20000 1
        (fun a => a % 256))))
      (PADDR_TO_KVADDR 0x20000) (PADDR_TO_KVADDR 0x11000) ((1 * PAGE_SIZE) % 2 ^ 32))
      (PADDR_TO_KVADDR 0x21000) (PADDR_TO_KVADDR 0x12000) ((2 * PAGE_SIZE) % 2 ^ 32))
      (PADDR_TO_KVADDR 0x23000) (PADDR_TO_KVADDR 0x14000)
      ((DUMBVM_STACKPAGES * PAGE_SIZE) % 2 ^ 32)), rfl, rfl, rfl, rfl,
    (as_copy_duplicates ⟨0x400000, 0x11000, 1, 0x10000000, 0x12000, 2, 0x14000, true⟩
      ⟨0x400000, 0x20000, 1, 0x10000000, 0x21000, 2, 0x23000, false⟩ true
      ⟨[
        ⟨0x11000, true, 1⟩, ⟨0x12000, true, 2⟩, ⟨0x13000, true, 0⟩, ⟨0x14000, true, 12⟩,
        ⟨0x15000, true, 0⟩, ⟨0x16000, true, 0⟩, ⟨0x17000, true, 0⟩, ⟨0x18000, true, 0⟩,
        ⟨0x19000, true, 0⟩, ⟨0x1a000, true, 0⟩, ⟨0x1b000, true, 0⟩, ⟨0x1c000, true, 0⟩,
        ⟨0x1d000, true, 0⟩, ⟨0x1e000, true, 0⟩, ⟨0x1f000, true, 0⟩, ⟨0x20000, false, 0⟩,
        ⟨0x21000, false, 0⟩, ⟨0x22000, false, 0⟩, ⟨0x23000, false, 0⟩, ⟨0x24000, false, 0⟩,
        ⟨0x25000, false, 0⟩, ⟨0x26000, false, 0⟩, ⟨0x27000, false, 0⟩, ⟨0x28000, false, 0⟩,
        ⟨0x29000, false, 0⟩, ⟨0x2a000, false, 0⟩, ⟨0x2b000, false, 0⟩, ⟨0x2c000, false, 0⟩,
        ⟨0x2d000, false, 0⟩, ⟨0x2e000, false, 0⟩], 12, true, 0x10000, 0x2e000⟩
      ⟨[
        ⟨0x11000, true, 1⟩, ⟨0x12000, true, 2⟩, ⟨0x13000, true, 0⟩, ⟨0x14000, true, 12⟩,
        ⟨0x15000, true, 0⟩, ⟨0x16000, true, 0⟩, ⟨0x17000, true, 0⟩, ⟨0x18000, true, 0⟩,
        ⟨0x19000, true, 0⟩, ⟨0x1a000, true, 0⟩, ⟨0x1b000, true, 0⟩, ⟨0x1c000, true, 0⟩,
        ⟨0x1d000, true, 0⟩, ⟨0x1e000, true, 0⟩, ⟨0x1f000, true, 0⟩, ⟨0x20000, true, 1⟩,
        ⟨0x21000, true, 2⟩, ⟨0x22000, true, 0⟩, ⟨0x23000, true, 12⟩, ⟨0x24000, true, 0⟩,
        ⟨0x25000, true, 0⟩, ⟨0x26000, true, 0⟩, ⟨0x27000, true, 0⟩, ⟨0x28000, true, 0⟩,
        ⟨0x29000, true, 0⟩, ⟨0x2a000, true, 0⟩, ⟨0x2b000, true, 0⟩, ⟨0x2c000, true, 0⟩,
        ⟨0x2d000, true, 0⟩, ⟨0x2e000, true, 0⟩], 12, true, 0x10000, 0x2e000⟩
      (fun a => a % 256)
      (memmove (memmove (memmove
        (as_zero_region 0x23000 12 (as_zero_region 0x21000 2 (as_zero_region 0x20000 1
          (fun a => a % 256))))
        (PADDR_TO_KVADDR 0x20000) (PADDR_TO_KVADDR 0x11000) ((1 * PAGE_SIZE) % 2 ^ 32))
        (PADDR_TO_KVADDR 0x21000) (PADDR_TO_KVADDR 0x12000) ((2 * PAGE_SIZE) % 2 ^ 32))
        (PADDR_TO_KVADDR 0x23000) (PADDR_TO_KVADDR 0x14000)
        ((DUMBVM_STACKPAGES * PAGE_SIZE) % 2 ^ 32))
      (by decide) (by decide) (by decide) (by decide) rfl).2.2.2.2.1⟩

/-! ## The intersection -/

theorem areTwoVehiclesSafe_symm (v w : Vehicle) :
    areTwoVehiclesSafe v w = areTwoVehiclesSafe w v := by
  obtain ⟨o1, d1⟩ := v
  obtain ⟨o2, d2⟩ := w
  cases o1 <;> cases d1 <;> cases o2 <;> cases d2 <;> rfl

theorem areTwoVehiclesSafe_iff (v w : Vehicle) :
    areTwoVehiclesSafe v w = true ↔
      (v.origin = w.origin ∨ (v.origin = w.destination ∧ v.destination = w.origin) ∨
        (v.destination ≠ w.destination ∧ (right_turn v = true ∨ right_turn w = true))) := by
  unfold areTwoVehiclesSafe
  by_cases h1 : v.origin = w.origin
  · simp [h1]
  · by_cases h2 : v.origin = w.destination ∧ v.destination = w.origin
    · simp [h2]
    · rw [if_neg h1, if_neg h2]
      simp only [h1, h2, false_or, Bool.or_eq_true]
      by_cases h3 : v.destination ≠ w.destination ∧ (right_turn v = true ∨ right_turn w = true)
      · simp [h3]
      · simp [h3]

theorem canVehicleEnterIntersection_iff (v : Vehicle) :
    ∀ arr : List Vehicle,
      canVehicleEnterIntersection v arr = true ↔ ∀ w ∈ arr, areTwoVehiclesSafe v w = true := by
  intro arr
  induction arr with
  | nil => simp [canVehicleEnterIntersection]
  | cons x rest ih =>
    unfold canVehicleEnterIntersection
    by_cases hx : areTwoVehiclesSafe v x = true
    · simp [hx, ih]
    · simp [hx]

theorem intersection_after_exit_eq (origin destination : Direction) (arr : List Vehicle) :
    intersection_after_exit origin destination arr =
      match arr with
      | [] => []
      | v :: rest =>
        if origin = v.origin ∧ destination = v.destination then rest else v :: rest := by
  cases arr with
  | nil => rfl
  | cons v rest =>
    simp only [intersection_after_exit, removeVehicleFromIntersection, array_remove,
      List.length_cons, Nat.zero_lt_succ, if_true, List.getElem?_cons_zero,
      List.eraseIdx_cons_zero]

theorem intersection_before_entry_inv (origin destination : Direction)
    (arr arr' : List Vehicle)
    (h : intersection_before_entry origin destination arr = some arr') :
    canVehicleEnterIntersection ⟨origin, destination⟩ arr = true ∧
      arr' = arr ++ [⟨origin, destination⟩] := by
  unfold intersection_before_entry at h
  simp only at h
  split at h
  · cases h
  · rename_i hc
    simp only [Option.some.injEq] at h
    exact ⟨by simpa using hc, h.symm⟩

theorem reachable_pairwise (arr : List Vehicle) (h : reachable arr) :
    arr.Pairwise (fun v w => areTwoVehiclesSafe v w = true) := by
  induction h with
  | init => exact List.Pairwise.nil
  | entry o d arr arr' _ hstep ih =>
    obtain ⟨hc, harr⟩ := intersection_before_entry_inv o d arr arr' hstep
    rw [harr, List.pairwise_append]
    refine ⟨ih, List.pairwise_singleton _ _, ?_⟩
    intro a ha b hb
    rw [List.mem_singleton] at hb
    rw [hb, areTwoVehiclesSafe_symm]
    exact (canVehicleEnterIntersection_iff _ arr).mp hc a ha
  | exit o d arr _ ih =>
    rw [intersection_after_exit_eq]
    cases arr with
    | nil => exact List.Pairwise.nil
    | cons v rest =>
      simp only
      split
      · exact (List.pairwise_cons.mp ih).2
      · exact ih

theorem all_pairs_safe_of_pairwise (arr : List Vehicle)
    (h : arr.Pairwise (fun v w => areTwoVehiclesSafe v w = true)) : all_pairs_safe arr := by
  rw [List.pairwise_iff_getElem] at h
  intro i hi j hj hij v hv w hw
  rw [List.getElem?_eq_getElem hi] at hv
  rw [List.getElem?_eq_getElem hj] at hw
  simp only [Option.mem_def, Option.some.injEq] at hv hw
  subst hv hw
  by_cases hlt : i < j
  · exact h i j hi hj hlt
  · rw [areTwoVehiclesSafe_symm]
    exact h j i hj hi (by omega)

/-- C25: `areTwoVehiclesSafe` is symmetric and holds exactly for two vehicles with the same
origin, or with exactly opposite routes, or with different destinations one of which turns
right; in every array reachable from `intersection_sync_init` by `intersection_before_entry`
and `intersection_after_exit` steps, every two vehicles at different indices are safe
together; and `intersection_before_entry` appends its vehicle only when
`canVehicleEnterIntersection` holds, that is when the vehicle is safe with every recorded
one, and waits when some recorded vehicle is not safe with it. -/
theorem intersection_safety_invariant :
    (∀ v w : Vehicle, areTwoVehiclesSafe v w = areTwoVehiclesSafe w v) ∧
    (∀ v w : Vehicle, areTwoVehiclesSafe v w = true ↔
      (v.origin = w.origin ∨ (v.origin = w.destination ∧ v.destination = w.origin) ∨
        (v.destination ≠ w.destination ∧ (right_turn v = true ∨ right_turn w = true)))) ∧
    (∀ arr : List Vehicle, reachable arr → all_pairs_safe arr) ∧
    (∀ (o d : Direction) (arr arr' : List Vehicle),
      intersection_before_entry o d arr = some arr' →
      arr' = arr ++ [⟨o, d⟩] ∧ canVehicleEnterIntersection ⟨o, d⟩ arr = true ∧
        ∀ w ∈ arr, areTwoVehiclesSafe ⟨o, d⟩ w = true) ∧
    (∀ (o d : Direction) (arr : List Vehicle),
      (∃ w ∈ arr, areTwoVehiclesSafe ⟨o, d⟩ w = false) →
      intersection_before_entry o d arr = none) := by
  refine ⟨areTwoVehiclesSafe_symm, areTwoVehiclesSafe_iff, ?_, ?_, ?_⟩
  · intro arr h
    exact all_pairs_safe_of_pairwise arr (reachable_pairwise arr h)
  · intro o d arr arr' h
    obtain ⟨hc, harr⟩ := intersection_before_entry_inv o d arr arr' h
    exact ⟨harr, hc, (canVehicleEnterIntersection_iff _ arr).mp hc⟩
  · intro o d arr hw
    obtain ⟨w, hmem, hu⟩ := hw
    have hc : canVehicleEnterIntersection ⟨o, d⟩ arr = false := by
      cases hcan : canVehicleEnterIntersection ⟨o, d⟩ arr with
      | false => rfl
      | true =>
        have := (canVehicleEnterIntersection_iff _ arr).mp hcan w hmem
        rw [hu] at this
        cases this
    simp [intersection_before_entry, hc]

/-- C25 witness: three vehicles enter one after the other (north to south, south to north,
north to west); the array is reachable, so its vehicles are pairwise safe, and a fourth
vehicle going east to west is made to wait. -/
theorem intersection_safety_invariant_witness :
    all_pairs_safe [⟨.north, .south⟩, ⟨.south, .north⟩, ⟨.north, .west⟩] ∧
    intersection_before_entry .east .west
      [⟨.north, .south⟩, ⟨.south, .north⟩, ⟨.north, .west⟩] = none :=
  ⟨intersection_safety_invariant.2.2.1 _
      (reachable.entry .north .west [⟨.north, .south⟩, ⟨.south, .north⟩] _
        (reachable.entry .south .north [⟨.north, .south⟩] _
          (reachable.entry .north .south [] _ reachable.init rfl) rfl) rfl),
    intersection_safety_invariant.2.2.2.2 .east .west _ ⟨⟨.north, .south⟩, by decide⟩⟩

/-- C26 (as stated) fails: `intersection_after_exit` looks at index 0 only. It removes the
vehicle at index 0 when that one has the given origin and destination and otherwise leaves
the array as it is, also when a later entry has them: in the reachable array holding a
vehicle north to south and then one south to north, the exit of the second removes
nothing. -/
theorem intersection_after_exit_first_only :
    (∀ (o d : Direction) (arr : List Vehicle),
      intersection_after_exit o d arr =
        match arr with
        | [] => []
        | v :: rest => if o = v.origin ∧ d = v.destination then rest else v :: rest) ∧
    reachable [⟨.north, .south⟩, ⟨.south, .north⟩] ∧
    (⟨.south, .north⟩ : Vehicle) ∈ ([⟨.north, .south⟩, ⟨.south, .north⟩] : List Vehicle) ∧
    intersection_after_exit .south .north [⟨.north, .south⟩, ⟨.south, .north⟩] =
      [⟨.north, .south⟩, ⟨.south, .north⟩] := by
  refine ⟨intersection_after_exit_eq, ?_, by decide, by decide⟩
  exact reachable.entry .south .north [⟨.north, .south⟩] _
    (reachable.entry .north .south [] _ reachable.init rfl) rfl

/-! ## The zero-page request -/

theorem find_index_loop_zero (cm : List coremap) :
    find_index_loop 0 cm 0 0 (-1) = (0, -1) := by
  cases cm with
  | nil => rfl
  | cons e rest => simp [find_index_loop]

theorem getppages_live_cases (n : Nat) (s : vmstate) (hlive : s.isCoremapDone = true) :
    getppages n s = .error .panic ∨
      ∃ (pa : Nat) (s1 : vmstate), getppages n s = .ok (pa, s1) ∧ s1.isCoremapDone = true := by
  rcases scan_result s.frames n with ⟨_, h2, _⟩ | ⟨i, h1, h2, _, h4, _, _, _⟩
  · exact Or.inl (getppages_panic_of_scan s n hlive h2)
  · right
    have hi : i < s.frames.length := by omega
    obtain ⟨cm', g, _, _⟩ := getppages_of_scan s n (find_index_loop n s.frames 0 0 (-1)).1 i
      s.frames[i] hlive (by rw [← h1]) (List.getElem?_eq_getElem hi) h2 h4
    exact ⟨_, _, g, hlive⟩

/-- C24: with the directory live, `find_index(0)` returns -1 and leaves the directory as it
is, and `getppages(0)` panics. Hence `as_prepare_load` on a descriptor with `npages1 = 0`
ends in a panic (or in the opening assertion when a base is already set); on a descriptor
with `npages2 = 0` it never returns 0, and it panics as soon as the first allocation has
handed out a non-zero base. -/
theorem getppages_zero_pages (s : vmstate) (hlive : s.isCoremapDone = true) :
    (find_index 0 s).1 = -1 ∧ (find_index 0 s).2.frames = s.frames ∧
    getppages 0 s = .error .panic ∧
    (∀ («as» : addrspace) (mem : memory), «as».as_npages1 = 0 →
      as_prepare_load «as» s mem = .error .panic ∨
        as_prepare_load «as» s mem = .error .kassert) ∧
    (∀ («as» as' : addrspace) (mem mem' : memory) (s' : vmstate), «as».as_npages2 = 0 →
      as_prepare_load «as» s mem ≠ .ok (.zero, as', s', mem')) ∧
    (∀ («as» : addrspace) (mem : memory) (pa1 : Nat) (s1 : vmstate),
      «as».as_npages2 = 0 →
      («as».as_pbase1 = 0 ∧ «as».as_pbase2 = 0 ∧ «as».as_stackpbase = 0) →
      getppages «as».as_npages1 s = .ok (pa1, s1) → pa1 ≠ 0 →
      as_prepare_load «as» s mem = .error .panic) := by
  have hz : ∀ t : vmstate, t.isCoremapDone = true → getppages 0 t = .error .panic :=
    fun t ht => getppages_panic_of_scan t 0 ht (by rw [find_index_loop_zero])
  refine ⟨?_, ?_, hz s hlive, ?_, ?_, ?_⟩
  · simp [find_index, find_index_loop_zero]
  · simp [find_index]
  · intro «as» mem h0
    unfold as_prepare_load
    split
    · exact Or.inr rfl
    · left
      rw [h0, hz s hlive]
  · intro «as» as' mem mem' s' h0 hok
    obtain ⟨_, pa1, pa2, pa3, s1, s2, g1, _, g2, _, _⟩ :=
      as_prepare_load_ok_inv «as» as' s s' mem mem' hok
    rcases getppages_live_cases «as».as_npages1 s hlive with hp | ⟨pa, t, hg, ht⟩
    · rw [hp] at g1
      cases g1
    · rw [hg] at g1
      cases g1
      rw [h0, hz s1 ht] at g2
      cases g2
  · intro «as» mem pa1 s1 h0 hb g1 hp1
    have hassert : ¬ («as».as_pbase1 ≠ 0 ∨ «as».as_pbase2 ≠ 0 ∨ «as».as_stackpbase ≠ 0) := by
      simp [hb.1, hb.2.1, hb.2.2]
    rcases getppages_live_cases «as».as_npages1 s hlive with hp | ⟨pa, t, hg, ht⟩
    · rw [hp] at g1
      cases g1
    · rw [hg] at g1
      cases g1
      have g2 : getppages «as».as_npages2 s1 = .error .panic := by
        rw [h0]
        exact hz s1 ht
      simp only [as_prepare_load, if_neg hassert, hg, if_neg hp1, g2]

/-- C24 witness: a live directory of three free frames; `getppages(0)` panics, and a
descriptor with one page in region 1 and none in region 2 gets frame 0 for region 1 and
then panics. -/
theorem getppages_zero_pages_witness :
    getppages 0 ⟨[⟨0x11000, false, 0⟩, ⟨0x12000, false, 0⟩, ⟨0x13000, false, 0⟩], 0, true,
      0x10000, 0x13000⟩ = .error .panic ∧
    as_prepare_load ⟨0x400000, 0, 1, 0, 0, 0, 0, false⟩
      ⟨[⟨0x11000, false, 0⟩, ⟨0x12000, false, 0⟩, ⟨0x13000, false, 0⟩], 0, true, 0x10000,
        0x13000⟩ (fun _ => 0) = .error .panic :=
  ⟨(getppages_zero_pages ⟨[⟨0x11000, false, 0⟩, ⟨0x12000, false, 0⟩, ⟨0x13000, false, 0⟩],
      0, true, 0x10000, 0x13000⟩ rfl).2.2.1,
    (getppages_zero_pages ⟨[⟨0x11000, false, 0⟩, ⟨0x12000, false, 0⟩, ⟨0x13000, false, 0⟩],
      0, true, 0x10000, 0x13000⟩ rfl).2.2.2.2.2 ⟨0x400000, 0, 1, 0, 0, 0, 0, false⟩
      (fun _ => 0) 0x11000
      ⟨[⟨0x11000, true, 1⟩, ⟨0x12000, false, 0⟩, ⟨0x13000, false, 0⟩], 1, true, 0x10000,
        0x13000⟩ rfl ⟨rfl, rfl, rfl⟩ (by decide) (by decide)⟩

/-! ## The load-complete flag of a copy -/

theorem vm_fault_elo_dirty_set («as» : addrspace) (a paddr : Nat)
    (h : ¬ ((a ≥ «as».as_vbase1 ∧ a < vtop1 «as») ∧ «as».elf_loaded = true)) :
    vm_fault_elo «as» a paddr &&& TLBLO_DIRTY = TLBLO_DIRTY := by
  have hd := vm_fault_elo_dirty «as» a paddr
  have h2 := and_two_pow_eq (vm_fault_elo «as» a paddr) 10
  have hv : TLBLO_DIRTY = 2 ^ 10 := by decide
  rw [← hv] at h2
  split at h2
  · exact h2
  · exact absurd (hd.mp h2) h

/-- C23: the descriptor returned by a successful `as_copy` has `elf_loaded = false`,
whatever the flag of the source. Every fault that resolves on the copy, in region 1 in
particular, installs a row with the dirty bit set; once `as_complete_load` has been called
on the copy, a fault that resolves in its region 1 installs a row with the dirty bit
clear. -/
theorem as_copy_resets_elf_loaded (old new : addrspace) (b : Bool) (s s' : vmstate)
    (mem mem' : memory) (hcopy : as_copy old b s mem = .ok (.zero, some new, s', mem')) :
    new.elf_loaded = false ∧
    (∀ (faulttype : Int) (faultaddress paddr : Nat) (victim : Fin NUM_TLB)
        (tlb : List tlbentry),
      (faulttype = VM_FAULT_READ ∨ faulttype = VM_FAULT_WRITE) →
      vm_fault_asserts new = true →
      vm_fault_paddr new (faultaddress &&& PAGE_FRAME) = some paddr → aligned paddr →
      ∃ elo, vm_fault faulttype faultaddress (some ⟨some new⟩) victim tlb =
          .ok (.zero, tlb.set (install_slot tlb victim) ⟨faultaddress &&& PAGE_FRAME, elo⟩) ∧
        elo &&& TLBLO_DIRTY = TLBLO_DIRTY) ∧
    (∀ (faulttype : Int) (faultaddress paddr : Nat) (victim : Fin NUM_TLB)
        (tlb : List tlbentry),
      (faulttype = VM_FAULT_READ ∨ faulttype = VM_FAULT_WRITE) →
      vm_fault_asserts new = true →
      vm_fault_paddr new (faultaddress &&& PAGE_FRAME) = some paddr → aligned paddr →
      (new.as_vbase1 ≤ faultaddress &&& PAGE_FRAME ∧
        faultaddress &&& PAGE_FRAME < vtop1 new) →
      ∃ elo, vm_fault faulttype faultaddress (some ⟨some (as_complete_load new).2⟩) victim
            tlb =
          .ok (.zero, tlb.set (install_slot tlb victim) ⟨faultaddress &&& PAGE_FRAME, elo⟩) ∧
        elo &&& TLBLO_DIRTY = 0) := by
  obtain ⟨mem1, hprep, _⟩ := as_copy_ok_inv old new b s s' mem mem' hcopy
  obtain ⟨_, pa1, pa2, pa3, s1, s2, _, _, _, _, _, _, has', _⟩ :=
    as_prepare_load_ok_inv _ new s s' mem mem1 hprep
  have hflag : new.elf_loaded = false := by
    have t := congrArg addrspace.elf_loaded has'
    exact t
  refine ⟨hflag, ?_, ?_⟩
  · intro ft fa paddr victim tlb hft hassert hp hal
    refine ⟨_, vm_fault_resolved new ft fa paddr victim tlb hft hassert hp hal, ?_⟩
    apply vm_fault_elo_dirty_set
    rw [hflag]
    simp
  · intro ft fa paddr victim tlb hft hassert hp hal hin
    have ha : vm_fault_asserts (as_complete_load new).2 = true := hassert
    have hp' : vm_fault_paddr (as_complete_load new).2 (fa &&& PAGE_FRAME) = some paddr := hp
    refine ⟨_, vm_fault_resolved (as_complete_load new).2 ft fa paddr victim tlb hft ha hp'
      hal, ?_⟩
    exact (vm_fault_elo_dirty (as_complete_load new).2 (fa &&& PAGE_FRAME) paddr).mpr
      ⟨hin, rfl⟩

/-- C23 witness: before the directory is live the boot allocator serves the copy. The
source has its load complete; the copy has the flag clear, and a write fault at `0x400abc`
(region 1 of the copy) with an empty translation cache installs a row whose dirty bit
is set. -/
theorem as_copy_resets_elf_loaded_witness :
    (⟨0x400000, 0x10000, 1, 0x10000000, 0x11000, 2, 0x13000, false⟩ : addrspace).elf_loaded = false ∧
    ∃ elo, vm_fault VM_FAULT_WRITE 0x400abc
        (some ⟨some ⟨0x400000, 0x10000, 1, 0x10000000, 0x11000, 2, 0x13000, false⟩⟩)
        ⟨0, by decide⟩ (List.replicate 64 ⟨0, 0⟩) =
        .ok (.zero, (List.replicate 64 (⟨0, 0⟩ : tlbentry)).set
          (install_slot (List.replicate 64 ⟨0, 0⟩) ⟨0, by decide⟩)
          ⟨0x400abc &&& PAGE_FRAME, elo⟩) ∧
      elo &&& TLBLO_DIRTY = TLBLO_DIRTY :=
  ⟨(as_copy_resets_elf_loaded ⟨0x400000, 0x31000, 1, 0x10000000, 0x32000, 2, 0x34000, true⟩
      ⟨0x400000, 0x10000, 1, 0x10000000, 0x11000, 2, 0x13000, false⟩ true
      ⟨[], 0, false, 0x10000, 0x30000⟩ ⟨[], 0, false, 0x1f000, 0x30000⟩ (fun _ => 0)
      (memmove (memmove (memmove
        (as_zero_region 0x13000 12 (as_zero_region 0x11000 2 (as_zero_region 0x10000 1
          (fun _ => 0))))
        (PADDR_TO_KVADDR 0x10000) (PADDR_TO_KVADDR 0x31000) ((1 * PAGE_SIZE) % 2 ^ 32))
        (PADDR_TO_KVADDR 0x11000) (PADDR_TO_KVADDR 0x32000) ((2 * PAGE_SIZE) % 2 ^ 32))
        (PADDR_TO_KVADDR 0x13000) (PADDR_TO_KVADDR 0x34000)
        ((DUMBVM_STACKPAGES * PAGE_SIZE) % 2 ^ 32)) rfl).1,
    (as_copy_resets_elf_loaded ⟨0x400000, 0x31000, 1, 0x10000000, 0x32000, 2, 0x34000, true⟩
      ⟨0x400000, 0x10000, 1, 0x10000000, 0x11000, 2, 0x13000, false⟩ true
      ⟨[], 0, false, 0x10000, 0x30000⟩ ⟨[], 0, false, 0x1f000, 0x30000⟩ (fun _ => 0)
      (memmove (memmove (memmove
        (as_zero_region 0x13000 12 (as_zero_region 0x11000 2 (as_zero_region 0x10000 1
          (fun _ => 0))))
        (PADDR_TO_KVADDR 0x10000) (PADDR_TO_KVADDR 0x31000) ((1 * PAGE_SIZE) % 2 ^ 32))
        (PADDR_TO_KVADDR 0x11000) (PADDR_TO_KVADDR 0x32000) ((2 * PAGE_SIZE) % 2 ^ 32))
        (PADDR_TO_KVADDR 0x13000) (PADDR_TO_KVADDR 0x34000)
        ((DUMBVM_STACKPAGES * PAGE_SIZE) % 2 ^ 32)) rfl).2.1 VM_FAULT_WRITE 0x400abc 0x10000 ⟨0, by decide⟩
      (List.replicate 64 ⟨0, 0⟩) (Or.inr rfl) (by decide) (by decide) (by decide)⟩

/-! ## The slot chosen by vm_fault -/

theorem vm_fault_scan_some (tlb : List tlbentry) :
    ∀ (count i k : Nat), vm_fault_scan tlb i count = some k →
      i ≤ k ∧ k < i + count ∧ ¬ tlb_valid tlb k ∧ ∀ j, i ≤ j → j < k → tlb_valid tlb j := by
  intro count
  induction count with
  | zero => intro i k h; simp [vm_fault_scan] at h
  | succ n ih =>
    intro i k h
    unfold vm_fault_scan at h
    split at h
    · rename_i hv
      obtain ⟨h1, h2, h3, h4⟩ := ih (i + 1) k h
      refine ⟨by omega, by omega, h3, ?_⟩
      intro j hj1 hj2
      by_cases hji : j = i
      · rw [hji]; exact hv
      · exact h4 j (by omega) hj2
    · rename_i hv
      cases h
      exact ⟨Nat.le_refl _, by omega, hv, fun j h1 h2 => absurd h1 (by omega)⟩

theorem vm_fault_scan_none (tlb : List tlbentry) :
    ∀ (count i : Nat), vm_fault_scan tlb i count = none →
      ∀ j, i ≤ j → j < i + count → tlb_valid tlb j := by
  intro count
  induction count with
  | zero => intro i _ j h1 h2; omega
  | succ n ih =>
    intro i h j h1 h2
    unfold vm_fault_scan at h
    split at h
    · rename_i hv
      by_cases hji : j = i
      · rw [hji]; exact hv
      · exact ih (i + 1) h j (by omega) (by omega)
    · cases h

theorem vm_fault_zero_full (faulttype : Int) (faultaddress : Nat) (curproc : Option proc)
    (victim : Fin NUM_TLB) (tlb tlb' : List tlbentry)
    (hok : vm_fault faulttype faultaddress curproc victim tlb = .ok (.zero, tlb')) :
    ∃ («as» : addrspace) (paddr : Nat), curproc = some ⟨some «as»⟩ ∧
      (faulttype = VM_FAULT_READ ∨ faulttype = VM_FAULT_WRITE) ∧
      vm_fault_asserts «as» = true ∧
      vm_fault_paddr «as» (faultaddress &&& PAGE_FRAME) = some paddr ∧ aligned paddr := by
  unfold vm_fault at hok
  simp only [curproc_getas] at hok
  split at hok
  · cases hok
  · split at hok
    · rename_i hft
      cases curproc with
      | none => cases hok
      | some p =>
        obtain ⟨pas⟩ := p
        cases pas with
        | none => cases hok
        | some «as» =>
          simp only at hok
          split at hok
          · cases hok
          · rename_i hassert
            cases hp : vm_fault_paddr «as» (faultaddress &&& PAGE_FRAME) with
            | none =>
              rw [hp] at hok
              cases hok
            | some paddr =>
              rw [hp] at hok
              simp only at hok
              split at hok
              · cases hok
              · rename_i hal
                exact ⟨«as», paddr, rfl, hft, by simpa using hassert, hp, by
                  unfold aligned
                  exact not_not.mp hal⟩
    · cases hok

/-- C21: let `vm_fault` return 0 on a translation cache of `NUM_TLB` rows. If some row
is invalid, the mapping is written (by `tlb_write`) to the lowest-indexed invalid slot, which
then holds it, and every other slot is unchanged. If all rows are valid, the new cache is
the result of one `tlb_random` write of the same mapping. The same fault returns 0 on every
translation cache and for every victim, so a full cache never makes it fail. -/
theorem vm_fault_install_slot (faulttype : Int) (faultaddress : Nat) (curproc : Option proc)
    (victim : Fin NUM_TLB) (tlb tlb' : List tlbentry) (hlen : tlb.length = NUM_TLB)
    (hok : vm_fault faulttype faultaddress curproc victim tlb = .ok (.zero, tlb')) :
    ∃ elo : Nat,
      ((∃ k < NUM_TLB, ¬ tlb_valid tlb k) →
        ∃ slot < NUM_TLB, ¬ tlb_valid tlb slot ∧ (∀ j < slot, tlb_valid tlb j) ∧
          tlb' = tlb_write (faultaddress &&& PAGE_FRAME) elo slot tlb ∧
          tlb'[slot]? = some ⟨faultaddress &&& PAGE_FRAME, elo⟩ ∧
          ∀ j : Nat, j ≠ slot → tlb'[j]? = tlb[j]?) ∧
      ((∀ k < NUM_TLB, tlb_valid tlb k) →
        tlb' = tlb_random (faultaddress &&& PAGE_FRAME) elo victim tlb) ∧
      (∀ (victim2 : Fin NUM_TLB) (tlb2 : List tlbentry),
        ∃ tlb2', vm_fault faulttype faultaddress curproc victim2 tlb2 = .ok (.zero, tlb2')) := by
  obtain ⟨«as», paddr, hcp, hft, hassert, hp, hal⟩ :=
    vm_fault_zero_full faulttype faultaddress curproc victim tlb tlb' hok
  subst hcp
  have hres := vm_fault_resolved «as» faulttype faultaddress paddr victim tlb hft hassert hp hal
  rw [hres] at hok
  simp only [Except.ok.injEq, Prod.mk.injEq, true_and] at hok
  refine ⟨vm_fault_elo «as» (faultaddress &&& PAGE_FRAME) paddr, ?_, ?_, ?_⟩
  · intro hex
    obtain ⟨k, hk, hinv⟩ := hex
    cases hscan : vm_fault_scan tlb 0 NUM_TLB with
    | none => exact absurd (vm_fault_scan_none tlb NUM_TLB 0 hscan k (Nat.zero_le _) (by omega)) hinv
    | some slot =>
      obtain ⟨_, h2, h3, h4⟩ := vm_fault_scan_some tlb NUM_TLB 0 slot hscan
      have hslot : install_slot tlb victim = slot := by
        unfold install_slot
        rw [hscan]
      rw [hslot] at hok
      refine ⟨slot, by omega, h3, fun j hj => h4 j (Nat.zero_le _) hj, hok.symm, ?_, ?_⟩
      · rw [← hok, List.getElem?_set_self (by omega)]
      · intro j hj
        rw [← hok, List.getElem?_set_ne (fun h => hj h.symm)]
  · intro hall
    cases hscan : vm_fault_scan tlb 0 NUM_TLB with
    | some slot =>
      obtain ⟨_, h2, h3, _⟩ := vm_fault_scan_some tlb NUM_TLB 0 slot hscan
      exact absurd (hall slot (by omega)) h3
    | none =>
      have hslot : install_slot tlb victim = victim.val := by
        unfold install_slot
        rw [hscan]
      rw [hslot] at hok
      exact hok.symm
  · intro victim2 tlb2
    exact ⟨_, vm_fault_resolved «as» faulttype faultaddress paddr victim2 tlb2 hft hassert hp
      hal⟩

/-- C21 witness: rows 0 to 2 are valid and rows 3 to 63 invalid; a read fault at `0x401234`
in region 1 is written to slot 3. -/
theorem vm_fault_install_slot_witness :
    ∃ elo : Nat,
      ((∃ k < NUM_TLB, ¬ tlb_valid (List.replicate 3 (⟨0, 0x200⟩ : tlbentry) ++ List.replicate 61 (⟨0, 0⟩ : tlbentry)) k) →
        ∃ slot < NUM_TLB, ¬ tlb_valid (List.replicate 3 (⟨0, 0x200⟩ : tlbentry) ++ List.replicate 61 (⟨0, 0⟩ : tlbentry)) slot ∧
          (∀ j < slot, tlb_valid (List.replicate 3 (⟨0, 0x200⟩ : tlbentry) ++ List.replicate 61 (⟨0, 0⟩ : tlbentry)) j) ∧
          ((List.replicate 3 (⟨0, 0x200⟩ : tlbentry) ++ List.replicate 61 (⟨0, 0⟩ : tlbentry))).set 3 ⟨0x401000, 0x12600⟩ =
            tlb_write (0x401234 &&& PAGE_FRAME) elo slot
              (List.replicate 3 (⟨0, 0x200⟩ : tlbentry) ++ List.replicate 61 (⟨0, 0⟩ : tlbentry)) ∧
          (((List.replicate 3 (⟨0, 0x200⟩ : tlbentry) ++ List.replicate 61 (⟨0, 0⟩ : tlbentry))).set 3
            ⟨0x401000, 0x12600⟩)[slot]? = some ⟨0x401234 &&& PAGE_FRAME, elo⟩ ∧
          ∀ j : Nat, j ≠ slot →
            (((List.replicate 3 (⟨0, 0x200⟩ : tlbentry) ++ List.replicate 61 (⟨0, 0⟩ : tlbentry))).set 3 ⟨0x401000, 0x12600⟩)[j]? =
              (List.replicate 3 (⟨0, 0x200⟩ : tlbentry) ++ List.replicate 61 (⟨0, 0⟩ : tlbentry))[j]?) ∧
      ((∀ k < NUM_TLB, tlb_valid (List.replicate 3 (⟨0, 0x200⟩ : tlbentry) ++ List.replicate 61 (⟨0, 0⟩ : tlbentry)) k) →
        ((List.replicate 3 (⟨0, 0x200⟩ : tlbentry) ++ List.replicate 61 (⟨0, 0⟩ : tlbentry))).set 3 ⟨0x401000, 0x12600⟩ =
          tlb_random (0x401234 &&& PAGE_FRAME) elo ⟨7, by decide⟩
            (List.replicate 3 (⟨0, 0x200⟩ : tlbentry) ++ List.replicate 61 (⟨0, 0⟩ : tlbentry))) ∧
      (∀ (victim2 : Fin NUM_TLB) (tlb2 : List tlbentry),
        ∃ tlb2', vm_fault VM_FAULT_READ 0x401234
          (some ⟨some ⟨0x400000, 0x11000, 2, 0x10000000, 0x13000, 1, 0x14000, false⟩⟩) victim2 tlb2 =
            .ok (.zero, tlb2')) :=
  vm_fault_install_slot VM_FAULT_READ 0x401234
    (some ⟨some ⟨0x400000, 0x11000, 2, 0x10000000, 0x13000, 1, 0x14000, false⟩⟩) ⟨7, by decide⟩
    (List.replicate 3 (⟨0, 0x200⟩ : tlbentry) ++ List.replicate 61 (⟨0, 0⟩ : tlbentry))
    (((List.replicate 3 (⟨0, 0x200⟩ : tlbentry) ++ List.replicate 61 (⟨0, 0⟩ : tlbentry))).set 3 ⟨0x401000, 0x12600⟩)
    (by decide) (by decide)

/-! ## Where vm_bootstrap puts the frames -/

theorem vm_bootstrap_layout (s0 : vmstate) (hram : ram_in_kseg0 s0) :
    ∃ n a : Nat, n = (s0.lastpaddr - s0.firstpaddr) / 4096 ∧
      a = (n * 12 + s0.firstpaddr + 4095) / 4096 * 4096 ∧
      numofFrames (vm_bootstrap s0) = n ∧
      ∀ j < n, (vm_bootstrap s0).frames[j]? = some ⟨a + j * PAGE_SIZE, false, 0⟩ := by
  obtain ⟨h1, h2⟩ := hram
  obtain ⟨n, hn⟩ : ∃ n, n = (s0.lastpaddr + 2 ^ 32 - s0.firstpaddr) % 2 ^ 32 / PAGE_SIZE :=
    ⟨_, rfl⟩
  obtain ⟨a, ha⟩ : ∃ a, a = ROUNDUP ((n * sizeof_coremap + s0.firstpaddr) % 2 ^ 32) PAGE_SIZE :=
    ⟨_, rfl⟩
  have hb : vm_bootstrap s0 = ⟨vm_bootstrap_loop n a, s0.num_pages, true, s0.firstpaddr,
      s0.lastpaddr⟩ := by
    simp only [vm_bootstrap, ram_getsize, hn, ha]
  have hlen : numofFrames (vm_bootstrap s0) = n := by
    rw [hb]
    simp [numofFrames, vm_bootstrap_loop_length]
  have hbounds : n = (s0.lastpaddr - s0.firstpaddr) / 4096 ∧
      a = (n * 12 + s0.firstpaddr + 4095) / 4096 * 4096 ∧ a + n * 4096 ≤ 2147483648 := by
    unfold ROUNDUP sizeof_coremap PAGE_SIZE at ha
    unfold MIPS_KSEG0 MIPS_KSEG1 at h2
    unfold PAGE_SIZE at hn
    clear hlen hb
    have e1 : (s0.lastpaddr + 2 ^ 32 - s0.firstpaddr) % 2 ^ 32 = s0.lastpaddr - s0.firstpaddr := by
      omega
    rw [e1] at hn
    have hn1 : n * 4096 ≤ s0.lastpaddr - s0.firstpaddr := by omega
    have e2 : (n * 12 + s0.firstpaddr) % 2 ^ 32 = n * 12 + s0.firstpaddr := by omega
    rw [e2] at ha
    have e3 : (n * 12 + s0.firstpaddr + 4096 - 1) % 2 ^ 32 = n * 12 + s0.firstpaddr + 4095 := by
      omega
    rw [e3] at ha
    have e4 : (n * 12 + s0.firstpaddr + 4095) / 4096 * 4096 % 2 ^ 32 =
        (n * 12 + s0.firstpaddr + 4095) / 4096 * 4096 := by omega
    rw [e4] at ha
    exact ⟨hn, ha, by omega⟩
  refine ⟨n, a, hbounds.1, hbounds.2.1, hlen, ?_⟩
  intro j hj
  rw [hb]
  exact vm_bootstrap_loop_getElem n a j (by unfold PAGE_SIZE; omega) hj

/-- C22 (as stated) fails, for every non-empty range: after `vm_bootstrap` on a page-aligned
range `[bottom, top)` that KSEG0 maps, the directory has `(top - bottom) / PAGE_SIZE`
entries, one per page of the whole range; every frame starts at or after the end of the
directory table `bottom + numofFrames * sizeof(struct coremap)`, but the page of the last
entry ends at least the size of the table past `top`. -/
theorem vm_bootstrap_frames_past_top (s0 : vmstate) (hram : ram_in_kseg0 s0)
    (hb : s0.firstpaddr % PAGE_SIZE = 0) (ht : s0.lastpaddr % PAGE_SIZE = 0)
    (hne : s0.firstpaddr < s0.lastpaddr) :
    1 ≤ numofFrames (vm_bootstrap s0) ∧
    numofFrames (vm_bootstrap s0) * PAGE_SIZE = (ram_getsize s0).2 - (ram_getsize s0).1 ∧
    (∀ e ∈ (vm_bootstrap s0).frames,
      (ram_getsize s0).1 + numofFrames (vm_bootstrap s0) * sizeof_coremap ≤ e.paddr) ∧
    (∃ e, (vm_bootstrap s0).frames[numofFrames (vm_bootstrap s0) - 1]? = some e ∧
      (ram_getsize s0).2 + numofFrames (vm_bootstrap s0) * sizeof_coremap ≤
        e.paddr + PAGE_SIZE ∧
      (ram_getsize s0).2 < e.paddr + PAGE_SIZE) := by
  obtain ⟨n, a, hn, ha, hlen, hfr⟩ := vm_bootstrap_layout s0 hram
  rw [hlen]
  unfold PAGE_SIZE at hb ht
  have hn1 : 1 ≤ n := by omega
  have hnp : n * 4096 = s0.lastpaddr - s0.firstpaddr := by omega
  have hlow : n * 12 + s0.firstpaddr ≤ a := by omega
  refine ⟨hn1, hnp, ?_, ?_⟩
  · intro e he
    obtain ⟨j, hj⟩ := List.mem_iff_getElem?.mp he
    have hjlt : j < n := by
      have := (List.getElem?_eq_some.mp hj).1
      unfold numofFrames at hlen
      omega
    rw [hfr j hjlt] at hj
    cases hj
    simp only [ram_getsize, sizeof_coremap]
    omega
  · refine ⟨_, hfr (n - 1) (by omega), ?_, ?_⟩
    · simp only [ram_getsize, sizeof_coremap, PAGE_SIZE]
      omega
    · simp only [ram_getsize, PAGE_SIZE]
      omega

/-- C22 witness: the range `[0x10000, 0x15000)` gets five entries at `0x11000 .. 0x15000`;
the page of the last one is `[0x15000, 0x16000)`, which lies past the top `0x15000`. -/
theorem vm_bootstrap_frames_past_top_witness :
    (vm_bootstrap ⟨[], 0, false, 0x10000, 0x15000⟩).frames =
      [⟨0x11000, false, 0⟩, ⟨0x12000, false, 0⟩, ⟨0x13000, false, 0⟩, ⟨0x14000, false, 0⟩,
        ⟨0x15000, false, 0⟩] ∧
    ∃ e, (vm_bootstrap ⟨[], 0, false, 0x10000, 0x15000⟩).frames[
        numofFrames (vm_bootstrap ⟨[], 0, false, 0x10000, 0x15000⟩) - 1]? = some e ∧
      (ram_getsize ⟨[], 0, false, 0x10000, 0x15000⟩).2 +
          numofFrames (vm_bootstrap ⟨[], 0, false, 0x10000, 0x15000⟩) * sizeof_coremap ≤
        e.paddr + PAGE_SIZE ∧
      (ram_getsize ⟨[], 0, false, 0x10000, 0x15000⟩).2 < e.paddr + PAGE_SIZE :=
  ⟨by decide,
    (vm_bootstrap_frames_past_top ⟨[], 0, false, 0x10000, 0x15000⟩ (by decide) (by decide)
      (by decide) (by decide)).2.2.2⟩

end DumbVM
